import Mathlib

/-
Verification development for a Poisson matrix factorization library
consisting of two variants:

  pmf.py  : class PoissonMF   (batch variational inference)
  hpmf.py : class HPoissonMF  (hierarchical variant)

The development is a shallow embedding.  Finite floating point values are
modelled as exact values of a linear ordered field; the IEEE special values
(nan, +inf, -inf) that the inference loop manipulates (initial old_pll =
-np.inf, np.isnan checks, comparisons involving nan) are modelled by the
type Fv below, with IEEE semantics for the arithmetic the loop performs.
Transcendental library functions (scipy.special.psi, np.log, np.exp on
positive finite arguments) are abstracted as a field of functions NumFuns;
for the real-analytic claim they are instantiated with the actual digamma,
log and exp functions on the reals.  Python None is modelled by Option, and
Python exceptions (TypeError from np.exp(None), NameError from reading an
unassigned local, KeyError from a missing dict key, the explicit
Exception raised on a nan predictive log-likelihood) by Except PyErr.
-/

/-
Batteries marks the rational arithmetic operations irreducible for
elaboration performance; restore the default reducibility so that concrete
runs of the model over the rationals can be evaluated by the kernel. -/
attribute [local semireducible] Rat.add Rat.mul Rat.sub Rat.inv

/-- Model of an IEEE floating point value: nan, the two infinities, or a
finite value of the carrier field. -/
inductive Fv (α : Type) where
  | nan : Fv α
  | inf : Fv α
  | ninf : Fv α
  | fin : α → Fv α
  deriving DecidableEq

namespace Fv

variable {α : Type} [LinearOrderedField α]

/-- Model of np.isnan. -/
def isnan : Fv α → Bool
  | .nan => true
  | _ => false

/-- IEEE negation. -/
def fneg : Fv α → Fv α
  | .nan => .nan
  | .inf => .ninf
  | .ninf => .inf
  | .fin a => .fin (-a)

/-- IEEE addition (nan propagates; inf + -inf = nan). -/
def fadd : Fv α → Fv α → Fv α
  | .nan, _ => .nan
  | _, .nan => .nan
  | .inf, .ninf => .nan
  | .inf, _ => .inf
  | .ninf, .inf => .nan
  | .ninf, _ => .ninf
  | .fin _, .inf => .inf
  | .fin _, .ninf => .ninf
  | .fin a, .fin b => .fin (a + b)

/-- IEEE subtraction. -/
def fsub (x y : Fv α) : Fv α := fadd x (fneg y)

/-- IEEE multiplication (0 * inf = nan). -/
def fmul : Fv α → Fv α → Fv α
  | .nan, _ => .nan
  | _, .nan => .nan
  | .inf, .inf => .inf
  | .inf, .ninf => .ninf
  | .ninf, .inf => .ninf
  | .ninf, .ninf => .inf
  | .inf, .fin a => if 0 < a then .inf else if a < 0 then .ninf else .nan
  | .ninf, .fin a => if 0 < a then .ninf else if a < 0 then .inf else .nan
  | .fin a, .inf => if 0 < a then .inf else if a < 0 then .ninf else .nan
  | .fin a, .ninf => if 0 < a then .ninf else if a < 0 then .inf else .nan
  | .fin a, .fin b => .fin (a * b)

/-- IEEE division (inf/inf = nan, finite/inf = 0, finite/0 gives a signed
infinity, 0/0 = nan; zeros are treated as +0). -/
def fdiv : Fv α → Fv α → Fv α
  | .nan, _ => .nan
  | _, .nan => .nan
  | .inf, .inf => .nan
  | .inf, .ninf => .nan
  | .ninf, .inf => .nan
  | .ninf, .ninf => .nan
  | .inf, .fin b => if b < 0 then .ninf else .inf
  | .ninf, .fin b => if b < 0 then .inf else .ninf
  | .fin _, .inf => .fin 0
  | .fin _, .ninf => .fin 0
  | .fin a, .fin b =>
      if b = 0 then (if a = 0 then .nan else if 0 < a then .inf else .ninf)
      else .fin (a / b)

/-- IEEE absolute value. -/
def fabs : Fv α → Fv α
  | .nan => .nan
  | .inf => .inf
  | .ninf => .inf
  | .fin a => .fin |a|

/-- IEEE strict less-than: any comparison involving nan is false. -/
def flt : Fv α → Fv α → Bool
  | .nan, _ => false
  | _, .nan => false
  | .ninf, .ninf => false
  | .ninf, _ => true
  | .inf, _ => false
  | .fin _, .inf => true
  | .fin _, .ninf => false
  | .fin a, .fin b => decide (a < b)

end Fv

/-- The relative improvement computed by the loop:
improvement = (pred_ll - old_pll) / abs(old_pll). -/
def fvImprovement {α : Type} [LinearOrderedField α] (pll old : Fv α) : Fv α :=
  Fv.fdiv (Fv.fsub pll old) (Fv.fabs old)

/-- Model of np.mean over a 1-D float array (sum divided by length; the
empty mean is 0/0 = nan, as in numpy). -/
def fvMean {α : Type} [LinearOrderedField α] (l : List (Fv α)) : Fv α :=
  Fv.fdiv (l.foldl Fv.fadd (.fin 0)) (.fin (l.length : α))

/-! ## Matrices, abstracted numeric library functions, shared kernels -/

/-- A dense 2-D array, indexed (row, column). -/
abbrev Mt (α : Type) : Type := Nat → Nat → α

/-- A dense 1-D array. -/
abbrev Vc (α : Type) : Type := Nat → α

/-- The transcendental functions the source imports from scipy/numpy
(scipy.special.psi, np.log, np.exp), abstracted over the carrier: psi is
the digamma function, logf the natural logarithm on positive finite
arguments, expf the exponential on finite arguments. -/
structure NumFuns (α : Type) where
  psi : α → α
  logf : α → α
  expf : α → α

/-- Model of np.log on a finite float: -inf at 0, nan on negatives. -/
def npLog {α : Type} [LinearOrderedField α] (nf : NumFuns α) (x : α) : Fv α :=
  if 0 < x then .fin (nf.logf x) else if x = 0 then .ninf else .nan

/-- Python exceptions the modelled code can raise. -/
inductive PyErr where
  | typeError : PyErr
  | attributeError : PyErr
  | nameError : PyErr
  | keyError : PyErr
  | nanPll : PyErr
  | recursionError : PyErr
  deriving DecidableEq

/-- Model of np.exp applied to an attribute that may be None (Python raises
TypeError on np.exp(None)). -/
def expO {α : Type} (nf : NumFuns α) : Option (Mt α) → Except PyErr (Mt α)
  | some m => .ok (fun i k => nf.expf (m i k))
  | none => .error .typeError

/-- Reading or indexing an attribute that may be None (TypeError when it
is None). -/
def getO {α : Type} : Option (Mt α) → Except PyErr (Mt α)
  | some m => .ok m
  | none => .error .typeError

/-- Reading a Python local variable that may be unassigned (NameError) or a
dict key that may be missing (KeyError): the error is supplied by the
caller. -/
def readO {β : Type} (e : PyErr) : Option β → Except PyErr β
  | some b => .ok b
  | none => .error e

/-!
Source (identical in pmf.py lines 470-484 and hpmf.py lines 338-352):

  def _inner(beta, theta, rows, cols):
      n_ratings = rows.size
      n_components, n_users = theta.shape
      data = np.empty(n_ratings, dtype=np.float32)
      code = r(three-quote)
      for (int i = 0; i < n_ratings; i++) {
         data[i] = 0.0;
         for (int j = 0; j < n_components; j++) {
             data[i] += beta[rows[i] * n_components + j] * theta[j * n_users + cols[i]];
         }
      }
      (three-quote)
      weave.inline(code, ...)
      return data

The weave kernel reads both matrices through flat row-major indexing; the
model keeps that explicit: the two factor arguments are flat arrays and the
accumulation is a left fold over the inner index, exactly as the C loop. -/
def innerEntry {α : Type} [Field α] (beta theta : Vc α)
    (n_components n_users r c : Nat) : α :=
  (List.range n_components).foldl
    (fun acc j => acc + beta (r * n_components + j) * theta (j * n_users + c)) 0

/-- The full result array of _inner: one entry per (rows[i], cols[i]) pair. -/
def innerAll {α : Type} [Field α] (beta theta : Vc α)
    (n_components n_users : Nat) (rows cols : List Nat) : List α :=
  (rows.zip cols).map (fun rc => innerEntry beta theta n_components n_users rc.1 rc.2)

/-- Row-major flattening of a 2-D array with the given row length, which is
how the weave kernel addresses the numpy arrays passed to _inner. -/
def flattenM {α : Type} (m : Mt α) (rowLen : Nat) : Vc α :=
  fun idx => m (idx / rowLen) (idx % rowLen)

/-!
Source (identical in pmf.py lines 487-491 and hpmf.py lines 355-359):

  def _compute_expectations(alpha, beta):
      return (alpha / beta, special.psi(alpha) - np.log(beta))
-/
def _compute_expectations {α : Type} [Field α] (nf : NumFuns α)
    (alpha beta : Mt α) : Mt α × Mt α :=
  (fun i k => alpha i k / beta i k,
   fun i k => nf.psi (alpha i k) - nf.logf (beta i k))

/-- Sum of a column of a matrix over the first `n` rows
(np.sum(M, axis=0) at column k). -/
def colSum {α : Type} [AddCommMonoid α] (m : Mt α) (n k : Nat) : α :=
  ∑ i in Finset.range n, m i k

/-- Sum of a row of a matrix over the first `n` columns
(np.sum(M, axis=1) at row i). -/
def rowSum {α : Type} [AddCommMonoid α] (m : Mt α) (n i : Nat) : α :=
  ∑ k in Finset.range n, m i k

/-- Entry (u, k) of ratioT.dot(M) where ratioT is the transpose of the
sparse csr matrix built from values `vals` at coordinates (rows, cols):
the sum over all listed triples with column u of vals * M(row). -/
def ratioTDot {α : Type} [Field α] (rows cols : List Nat) (vals : List α)
    (m : Mt α) (u k : Nat) : α :=
  ∑ n in Finset.range rows.length,
    (if cols.getD n 0 = u then vals.getD n 0 * m (rows.getD n 0) k else 0)

/-- Entry (i, k) of ratio.dot(M) where ratio is the sparse csr matrix built
from values `vals` at coordinates (rows, cols). -/
def ratioDot {α : Type} [Field α] (rows cols : List Nat) (vals : List α)
    (m : Mt α) (i k : Nat) : α :=
  ∑ n in Finset.range rows.length,
    (if rows.getD n 0 = i then vals.getD n 0 * m (cols.getD n 0) k else 0)

/-- Overwrite the entries of `m` selected by `sel` with the constant `v`
(numpy boolean-mask assignment M[mask] = scalar). -/
def setMaskC {α : Type} (sel : Nat → Nat → Bool) (v : α) (m : Mt α) : Mt α :=
  fun i k => if sel i k then v else m i k

/-- Overwrite the entries of `m` selected by `sel` with the corresponding
entries of `src` (numpy boolean-mask assignment M[mask] = Src[mask]). -/
def setMaskM {α : Type} (sel : Nat → Nat → Bool) (src m : Mt α) : Mt α :=
  fun i k => if sel i k then src i k else m i k

/-! ## PoissonMF (pmf.py) -/

/-- Values taken by the local variable only_update in PoissonMF.fit. -/
inductive OnlyUpd where
  | items : OnlyUpd
  | users : OnlyUpd
  deriving DecidableEq

/-- Values of the string parameter `update` of PoissonMF._update /
_update_items ('default', 'in_category', 'out_category'; the comparison
against 'users' in the item-section guard is also representable). -/
inductive UpdMode where
  | dflt : UpdMode
  | in_category : UpdMode
  | out_category : UpdMode
  | users : UpdMode
  deriving DecidableEq

/-- Values of the string parameter item_fit_type; `unknown` stands for any
other string (which matches none of the comparisons). -/
inductive ItemFitType where
  | dflt : ItemFitType
  | alternating_updates : ItemFitType
  | converge_in_category_first : ItemFitType
  | converge_out_category_first : ItemFitType
  | unknown : ItemFitType
  deriving DecidableEq

/-- Values of the string parameter user_fit_type. -/
inductive UserFitType where
  | dflt : UserFitType
  | converge_separately : UserFitType
  | unknown : UserFitType
  deriving DecidableEq

/-- Values of the string parameter initialize_users
('default', 'trained', 'none'; `unknown` = any other string). -/
inductive InitUsersMode where
  | dflt : InitUsersMode
  | trained : InitUsersMode
  | no_init : InitUsersMode
  | unknown : InitUsersMode
  deriving DecidableEq

/-- Hyperparameters, dimensions, the sparse training data (rows, cols,
X.data aligned per csr triple), the validation triples (vad dict), and the
Gamma random draws consumed by the initializers (each _init_* call site
used in the modelled runs draws at most once, so the draws appear as
explicit parameters of the run). -/
structure PmfParams (α : Type) where
  n_components : Nat
  n_items : Nat
  n_users : Nat
  max_iter : Nat
  min_iter : Int
  tol : α
  a : α
  b : α
  c : α
  d : α
  rows : List Nat
  cols : List Nat
  xdata : List α
  vadRows : List Nat
  vadCols : List Nat
  vadX : List α
  initUserGamma : Mt α
  initUserRho : Mt α
  initItemGamma : Mt α
  initItemRho : Mt α

/-- The attributes of a PoissonMF instance that the fit mutates.  A field
is an Option exactly when the source can set the attribute to None. -/
structure PmfState (α : Type) where
  gamma_t : Option (Mt α)
  rho_t : Option (Mt α)
  Et : Mt α
  Elogt : Option (Mt α)
  gamma_b : Option (Mt α)
  rho_b : Option (Mt α)
  Eb : Mt α
  Elogb : Option (Mt α)

/-- State before _init_items/_init_users ran (attributes unset; every path
initializes them before reading). -/
def pmfBlank {α : Type} [LinearOrderedField α] : PmfState α :=
  ⟨none, none, fun _ _ => 0, none, none, none, fun _ _ => 0, none⟩

/-- PoissonMF._init_users (pmf.py lines 74-91): observed theta is installed
as Et with the variational user state set to None; otherwise the freshly
drawn variational parameters are installed and the expectations computed. -/
def pmfInitUsers {α : Type} [LinearOrderedField α] (P : PmfParams α) (nf : NumFuns α)
    (theta : Option (Mt α)) (st : PmfState α) : PmfState α :=
  match theta with
  | some th => { st with Et := th, Elogt := none, gamma_t := none, rho_t := none }
  | none =>
      let e := _compute_expectations nf P.initUserGamma P.initUserRho
      { st with gamma_t := some P.initUserGamma, rho_t := some P.initUserRho,
                Et := e.1, Elogt := some e.2 }

/-- PoissonMF._init_items (pmf.py lines 93-112): an observed beta is
installed as Eb only when categorywise is off; otherwise normal variational
initialization. -/
def pmfInitItems {α : Type} [LinearOrderedField α] (P : PmfParams α) (nf : NumFuns α)
    (beta : Option (Mt α)) (categorywise : Bool) (st : PmfState α) : PmfState α :=
  if beta.isSome ∧ ¬categorywise then
    { st with Eb := beta.getD st.Eb, Elogb := none, gamma_b := none, rho_b := none }
  else
    let e := _compute_expectations nf P.initItemGamma P.initItemRho
    { st with gamma_b := some P.initItemGamma, rho_b := some P.initItemRho,
              Eb := e.1, Elogb := some e.2 }

/-- PoissonMF._xexplog (pmf.py lines 449-462).  The rows/cols arguments are
the training coordinates at every call site.  Branch 1 (beta observed AND
observed_item_attributes) pairs Eb with exp(Elogt); branch 2
(observed_user_preferences) pairs exp(Elogb) with Et; the default pairs
exp(Elogb) with exp(Elogt).  np.exp of a None attribute raises TypeError. -/
def pmfXexplog {α : Type} [LinearOrderedField α] (P : PmfParams α) (nf : NumFuns α)
    (st : PmfState α) (beta : Option (Mt α))
    (observed_item_attributes observed_user_preferences : Bool) :
    Except PyErr (List α) := do
  if beta.isSome ∧ observed_item_attributes then do
    let expElogt ← expO nf st.Elogt
    pure (innerAll (flattenM st.Eb P.n_components) (flattenM expElogt P.n_users)
      P.n_components P.n_users P.rows P.cols)
  else if observed_user_preferences then do
    let expElogb ← expO nf st.Elogb
    pure (innerAll (flattenM expElogb P.n_components) (flattenM st.Et P.n_users)
      P.n_components P.n_users P.rows P.cols)
  else do
    let expElogb ← expO nf st.Elogb
    let expElogt ← expO nf st.Elogt
    pure (innerAll (flattenM expElogb P.n_components) (flattenM expElogt P.n_users)
      P.n_components P.n_users P.rows P.cols)

/-- PoissonMF.pred_loglikeli (pmf.py lines 464-467): mean over the
validation triples of x * log(pred) - pred, with pred from _inner on the
raw expectations Eb, Et. -/
def pmfPredLL {α : Type} [LinearOrderedField α] (P : PmfParams α) (nf : NumFuns α)
    (st : PmfState α) : Fv α :=
  let xpred := innerAll (flattenM st.Eb P.n_components) (flattenM st.Et P.n_users)
    P.n_components P.n_users P.vadRows P.vadCols
  fvMean (List.zipWith
    (fun x p => Fv.fsub (Fv.fmul (.fin x) (npLog nf p)) (.fin p)) P.vadX xpred)

/-- PoissonMF._update_users (pmf.py lines 379-405).  The theta parameter of
the source is unused in the body and omitted.  _xexplog is called without
observed_item_attributes (so it defaults to False).  gamma_t is computed
against Eb when beta is an array or only_update == 'users', else against
exp(Elogb); the multiplier is Et when observed_user_preferences else
exp(Elogt); rho_t = b + column sums of Eb (broadcast over users); finally
the user expectations are recomputed. -/
def pmfUpdateUsers {α : Type} [LinearOrderedField α] (P : PmfParams α) (nf : NumFuns α)
    (st : PmfState α) (beta : Option (Mt α)) (observed_user_preferences : Bool)
    (only_update : Option OnlyUpd) : Except PyErr (PmfState α) := do
  let xexplog ← pmfXexplog P nf st beta false observed_user_preferences
  let vals := List.zipWith (fun x e => x / e) P.xdata xexplog
  let expLogElogt ← if observed_user_preferences then pure st.Et else expO nf st.Elogt
  let gamma_t ←
    if beta.isSome ∨ only_update = some .users then
      pure (fun k u => P.a + expLogElogt k u * ratioTDot P.rows P.cols vals st.Eb u k)
    else do
      let expElogb ← expO nf st.Elogb
      pure (fun k u => P.a + expLogElogt k u * ratioTDot P.rows P.cols vals expElogb u k)
  let rho_t : Mt α := fun k _u => P.b + colSum st.Eb P.n_items k
  let e := _compute_expectations nf gamma_t rho_t
  pure { st with gamma_t := some gamma_t, rho_t := some rho_t,
                 Et := e.1, Elogt := some e.2 }

/-- The constant 1e-5 the clamping step writes (small_num in the source). -/
def small_num {α : Type} [LinearOrderedField α] : α := 1 / 100000

/-- PoissonMF._update_items (pmf.py lines 407-447).  _xexplog is called
without beta and without observed_item_attributes.  When beta is an array,
categorywise is on and update is not 'default', only the mask-selected
entries of gamma_b/rho_b are overwritten (update == 'users' selects
neither); rho_b_updated is the vector d + row sums of Et, spread over the
(n_items, n_components) shape through np.repeat followed by np.reshape
(entry (i,k) reads index (i*K+k)/n_items of the vector, exactly the
row-major layout the source produces; self.rho_b.shape[0] = n_items for
the arrays this branch manipulates).  Otherwise the full matrices are
overwritten, rho_b becoming the (K,) vector d + row sums of Et, stored
here in its broadcast reading.  In both cases Eb, Elogb are recomputed
from the resulting gamma_b/rho_b. -/
def pmfUpdateItems {α : Type} [LinearOrderedField α] (P : PmfParams α) (nf : NumFuns α)
    (st : PmfState α) (beta : Option (Mt α)) (categorywise : Bool)
    (observed_user_preferences : Bool) (upd : UpdMode) :
    Except PyErr (PmfState α) := do
  let xexplog ← pmfXexplog P nf st none false observed_user_preferences
  let vals := List.zipWith (fun x e => x / e) P.xdata xexplog
  let gr ←
    if beta.isSome ∧ categorywise ∧ upd ≠ UpdMode.dflt then do
      let b ← readO .typeError beta
      let mask : Nat → Nat → Bool := fun i k => decide (b i k ≠ 0)
      let gamma_b_updated ←
        if observed_user_preferences then do
          let expElogb ← expO nf st.Elogb
          pure (fun i k => P.c +
            expElogb i k * ratioDot P.rows P.cols vals (fun u kk => st.Et kk u) i k)
        else do
          let expElogb ← expO nf st.Elogb
          let expElogt ← expO nf st.Elogt
          pure (fun i k => P.c +
            expElogb i k * ratioDot P.rows P.cols vals (fun u kk => expElogt kk u) i k)
      let rho_b_updated : Vc α := fun k => P.d + rowSum st.Et P.n_users k
      let rOld ← getO st.rho_b
      let rho_b_updated_reshaped : Mt α :=
        fun i k => rho_b_updated ((i * P.n_components + k) / P.n_items)
      let gOld ← getO st.gamma_b
      match upd with
      | .in_category =>
          pure (setMaskM mask gamma_b_updated gOld,
                setMaskM mask rho_b_updated_reshaped rOld)
      | .out_category =>
          pure (setMaskM (fun i k => ! mask i k) gamma_b_updated gOld,
                setMaskM (fun i k => ! mask i k) rho_b_updated_reshaped rOld)
      | _ => pure (gOld, rOld)
    else do
      let expElogb ← expO nf st.Elogb
      let expElogt ← expO nf st.Elogt
      let gamma_b : Mt α := fun i k => P.c +
        expElogb i k * ratioDot P.rows P.cols vals (fun u kk => expElogt kk u) i k
      let rho_b : Mt α := fun _i k => P.d + rowSum st.Et P.n_users k
      pure (gamma_b, rho_b)
  let e := _compute_expectations nf gr.1 gr.2
  pure { st with gamma_b := some gr.1, rho_b := some gr.2,
                 Eb := e.1, Elogb := some e.2 }

/-- The keyword arguments of PoissonMF._update (pmf.py lines 220-229),
minus update (threaded separately because the recursive phase call changes
it). -/
structure PmfUpdArgs (α : Type) where
  beta : Option (Mt α)
  theta : Option (Mt α)
  observed_user_preferences : Bool
  categorywise : Bool
  item_fit_type : ItemFitType
  user_fit_type : UserFitType
  zero_untrained_components : Bool
  initialize_users : InitUsersMode
  only_update : Option OnlyUpd

/-- The local dict best_pll_dict of _update: initialized with only the
pred_ll key (= -inf); the snapshot keys exist only once some iteration
improved on it (reading a missing key raises KeyError). -/
structure PmfBest (α : Type) where
  pred_ll : Fv α
  best_Eb : Option (Mt α)
  best_Elogb : Option (Option (Mt α))
  best_Et : Option (Mt α)
  best_Elogt : Option (Option (Mt α))

/-- best_pll_dict = dict(pred_ll = -np.inf) (pmf.py line 232). -/
def pmfBestInit {α : Type} [LinearOrderedField α] : PmfBest α :=
  ⟨.ninf, none, none, none, none⟩

/-- The mutable context of one run of the _update loop: the instance state
plus the function-local cache variables gamma_b_out_category /
rho_b_out_category / gamma_b_in_category / rho_b_in_category (None =
unassigned; the caches hold the full pre-clamp matrix, of which only the
mask-selected entries are ever read back, exactly the entries the source
copied out). -/
structure PmfCtx (α : Type) where
  st : PmfState α
  best : PmfBest α
  cache_out_gamma : Option (Mt α)
  cache_out_rho : Option (Mt α)
  cache_in_gamma : Option (Mt α)
  cache_in_rho : Option (Mt α)

/-- The clamp step of PoissonMF._update (pmf.py lines 272-289), executed
when zero_untrained_components and i == 0 and update == 'default': caches
the non-priority subset of gamma_b/rho_b and overwrites it with
small_num = 1e-5.  beta.astype on a non-array raises AttributeError;
indexing a None gamma_b raises TypeError. -/
def pmfClamp {α : Type} [LinearOrderedField α] (A : PmfUpdArgs α) (c : PmfCtx α) :
    Except PyErr (PmfCtx α) := do
  let b ← readO .attributeError A.beta
  let mask : Nat → Nat → Bool := fun i k => decide (b i k ≠ 0)
  match A.item_fit_type with
  | .converge_in_category_first => do
      let g ← getO c.st.gamma_b
      let r ← getO c.st.rho_b
      pure { c with
        st := { c.st with
          gamma_b := some (setMaskC (fun i k => ! mask i k) small_num g),
          rho_b := some (setMaskC (fun i k => ! mask i k) small_num r) },
        cache_out_gamma := some g, cache_out_rho := some r }
  | .converge_out_category_first => do
      let g ← getO c.st.gamma_b
      let r ← getO c.st.rho_b
      pure { c with
        st := { c.st with
          gamma_b := some (setMaskC mask small_num g),
          rho_b := some (setMaskC mask small_num r) },
        cache_in_gamma := some g, cache_in_rho := some r }
  | _ => pure c

/-- The user-side branchwork of one iteration of PoissonMF._update
(pmf.py lines 234-265).  Note the Python precedence in line 235:
only_update == 'items' or (observed_user_preferences and update !=
'default'). -/
def pmfUserSection {α : Type} [LinearOrderedField α] (P : PmfParams α)
    (nf : NumFuns α) (A : PmfUpdArgs α) (upd : UpdMode) (i : Nat)
    (c : PmfCtx α) : Except PyErr (PmfCtx α) :=
  if A.only_update = some OnlyUpd.items ∨
      (A.observed_user_preferences ∧ upd ≠ UpdMode.dflt) then
    pure c
  else if A.only_update = some OnlyUpd.users then
    match A.initialize_users with
    | .dflt => do
        let st0 := if i = 0 then pmfInitUsers P nf none c.st else c.st
        let st1 ← pmfUpdateUsers P nf st0 none false A.only_update
        pure { c with st := st1 }
    | .trained => do
        let st1 ← if i = 0 then
            pmfUpdateUsers P nf c.st A.beta true A.only_update
          else pure c.st
        let st2 ← if i > 0 then
            pmfUpdateUsers P nf st1 A.beta false A.only_update
          else pure st1
        pure { c with st := st2 }
    | .no_init => do
        let st1 ← pmfUpdateUsers P nf c.st none false A.only_update
        pure { c with st := st1 }
    | .unknown => pure c
  else do
    let st1 ← pmfUpdateUsers P nf c.st A.beta false none
    pure { c with st := st1 }

/-- The item-side branchwork of one iteration of PoissonMF._update
(pmf.py lines 267-326), including the clamp step. -/
def pmfItemSection {α : Type} [LinearOrderedField α] (P : PmfParams α)
    (nf : NumFuns α) (A : PmfUpdArgs α) (upd : UpdMode) (i : Nat)
    (c : PmfCtx α) : Except PyErr (PmfCtx α) :=
  if (A.beta.isSome ∧ ¬A.categorywise) ∨ upd = UpdMode.users ∨
      A.only_update = some OnlyUpd.users then
    pure c
  else if A.item_fit_type ≠ ItemFitType.dflt then do
    let c ←
      if A.zero_untrained_components ∧ i = 0 ∧ upd = UpdMode.dflt then
        pmfClamp A c
      else pure c
    if A.beta.isSome ∧ A.categorywise ∧
        A.item_fit_type = ItemFitType.alternating_updates then do
      let st1 ← pmfUpdateItems P nf c.st A.beta A.categorywise
        A.observed_user_preferences
        (if i % 2 = 0 then UpdMode.in_category else UpdMode.out_category)
      pure { c with st := st1 }
    else if A.beta.isSome ∧ A.categorywise ∧
        A.item_fit_type = ItemFitType.converge_in_category_first then do
      let st1 ← pmfUpdateItems P nf c.st A.beta A.categorywise
        A.observed_user_preferences
        (if upd = UpdMode.dflt then UpdMode.in_category else upd)
      pure { c with st := st1 }
    else if A.beta.isSome ∧ A.categorywise ∧
        A.item_fit_type = ItemFitType.converge_out_category_first then do
      let st1 ← pmfUpdateItems P nf c.st A.beta A.categorywise
        A.observed_user_preferences
        (if upd = UpdMode.dflt then UpdMode.out_category else upd)
      pure { c with st := st1 }
    else
      pure c
  else do
    let st1 ← pmfUpdateItems P nf c.st none false false UpdMode.dflt
    pure { c with st := st1 }

/-- One iteration of the update section of PoissonMF._update (pmf.py lines
234-326): the user-side branchwork, then the item-side branchwork. -/
def pmfBody {α : Type} [LinearOrderedField α] (P : PmfParams α) (nf : NumFuns α)
    (A : PmfUpdArgs α) (upd : UpdMode) (i : Nat) (c : PmfCtx α) :
    Except PyErr (PmfCtx α) := do
  let c1 ← pmfUserSection P nf A upd i c
  pmfItemSection P nf A upd i c1

/-- How one run of the _update loop exited (observational: tolerance break
at iteration i, or the xrange(max_iter) bound was exhausted). -/
inductive ExitK where
  | tolStop : Nat → ExitK
  | maxed : ExitK
  deriving DecidableEq

/-- What one run of PoissonMF._update produces: the instance state, the
returned (pred_ll, best_pll_dict) pair, and the observational exit kind
and number of iterations executed. -/
structure PmfUpdRes (α : Type) where
  st : PmfState α
  pred_ll : Fv α
  best : PmfBest α
  exitk : ExitK
  iters : Nat

/-- The phase logic run when the tolerance stop fires (pmf.py lines
345-374): when update == 'default' and item_fit_type is a
converge-*-first policy, optionally (zero_untrained_components) restore
the cached non-priority subset of gamma_b/rho_b -- NameError when the
clamp never ran and the caches are unassigned -- and then recurse into a
fresh _update run on the opposite category (passed in as `recur`; the
recursive call leaves theta, user_fit_type, zero_untrained_components,
initialize_users and only_update at their defaults).  The recursive run
has its own best dict and caches; only its state survives. -/
def pmfStopActs {α : Type} [LinearOrderedField α] (A : PmfUpdArgs α) (upd : UpdMode)
    (recur : PmfUpdArgs α → UpdMode → PmfState α → Except PyErr (PmfUpdRes α))
    (c2 : PmfCtx α) : Except PyErr (PmfCtx α) := do
  if upd = UpdMode.dflt ∧ A.item_fit_type ≠ ItemFitType.dflt then do
    let cA ←
      if A.item_fit_type = ItemFitType.converge_in_category_first then do
        let cr ←
          if A.zero_untrained_components then do
            let g ← readO .nameError c2.cache_out_gamma
            let r ← readO .nameError c2.cache_out_rho
            let b ← readO .nameError A.beta
            let mask : Nat → Nat → Bool := fun ii kk => decide (b ii kk ≠ 0)
            let gb ← getO c2.st.gamma_b
            let rb ← getO c2.st.rho_b
            pure { c2 with st := { c2.st with
              gamma_b := some (setMaskM (fun ii kk => ! mask ii kk) g gb),
              rho_b := some (setMaskM (fun ii kk => ! mask ii kk) r rb) } }
          else pure c2
        let r ← recur
          ⟨A.beta, none, A.observed_user_preferences, A.categorywise,
           A.item_fit_type, .dflt, false, .no_init, none⟩
          UpdMode.out_category cr.st
        pure { cr with st := r.st }
      else pure c2
    let cB ←
      if A.item_fit_type = ItemFitType.converge_out_category_first then do
        let cr ←
          if A.zero_untrained_components then do
            let g ← readO .nameError cA.cache_in_gamma
            let r ← readO .nameError cA.cache_in_rho
            let b ← readO .nameError A.beta
            let mask : Nat → Nat → Bool := fun ii kk => decide (b ii kk ≠ 0)
            let gb ← getO cA.st.gamma_b
            let rb ← getO cA.st.rho_b
            pure { cA with st := { cA.st with
              gamma_b := some (setMaskM mask g gb),
              rho_b := some (setMaskM mask r rb) } }
          else pure cA
        let r ← recur
          ⟨A.beta, none, A.observed_user_preferences, A.categorywise,
           A.item_fit_type, .dflt, false, .no_init, none⟩
          UpdMode.in_category cr.st
        pure { cr with st := r.st }
      else pure cA
    pure cB
  else pure c2

/-- The loop of PoissonMF._update (pmf.py lines 230-377), parametrized by
the recursive _update entry used by the phase logic.  Arguments after
recur: remaining iterations of xrange(max_iter), the iteration counter i,
old_pll, the binding state of the local pred_ll (None before the first
iteration; a fully exhausted loop returns the last bound value, and raises
NameError at the return statement when max_iter was 0), and the loop
context.  Each iteration runs the update section, evaluates
pred_loglikeli, raises on nan (lines 328-330), tracks the best snapshot
(lines 331-339), computes improvement (line 340), and on improvement < tol
and i > min_iter runs the phase logic (pmfStopActs) and breaks; otherwise
old_pll = pred_ll and the loop continues. -/
def pmfUpdateLoop {α : Type} [LinearOrderedField α] (P : PmfParams α)
    (nf : NumFuns α) (A : PmfUpdArgs α) (upd : UpdMode)
    (recur : PmfUpdArgs α → UpdMode → PmfState α → Except PyErr (PmfUpdRes α)) :
    Nat → Nat → Fv α → Option (Fv α) → PmfCtx α → Except PyErr (PmfUpdRes α)
  | 0, i, _, last, c =>
      (match last with
      | some p => .ok ⟨c.st, p, c.best, .maxed, i⟩
      | none => .error .nameError)
  | fuel' + 1, i, old_pll, _, c => do
      let c1 ← pmfBody P nf A upd i c
      let pll := pmfPredLL P nf c1.st
      if pll.isnan then .error .nanPll
      else do
        let best1 := if Fv.flt c1.best.pred_ll pll then
            (⟨pll, some c1.st.Eb, some c1.st.Elogb, some c1.st.Et,
              some c1.st.Elogt⟩ : PmfBest α)
          else c1.best
        let c2 := { c1 with best := best1 }
        let improvement := fvImprovement pll old_pll
        if Fv.flt improvement (.fin P.tol) ∧ (i : Int) > P.min_iter then do
          let c3 ← pmfStopActs A upd recur c2
          .ok ⟨c3.st, pll, c3.best, .tolStop i, i + 1⟩
        else
          pmfUpdateLoop P nf A upd recur fuel' (i + 1) pll (some pll) c2

/-- One call of PoissonMF._update at a given recursion budget: loop from
i = 0, old_pll = -inf, a fresh best_pll_dict and unassigned cache locals.
The source recurses at most once (from update == 'default' into a
non-default update), so any budget of at least 2 yields the source
behaviour. -/
def pmfUpdateRec {α : Type} [LinearOrderedField α] (P : PmfParams α)
    (nf : NumFuns α) :
    Nat → PmfUpdArgs α → UpdMode → PmfState α → Except PyErr (PmfUpdRes α)
  | 0, _, _, _ => .error .recursionError
  | rdepth + 1, A, upd, st =>
      pmfUpdateLoop P nf A upd (pmfUpdateRec P nf rdepth) P.max_iter 0 .ninf
        none ⟨st, pmfBestInit, none, none, none, none⟩

/-- One full call of PoissonMF._update: loop from i = 0, old_pll = -inf,
a fresh best_pll_dict and unassigned cache locals; the recursion budget 1
covers the single level of phase recursion the source can perform. -/
def pmfUpdateRun {α : Type} [LinearOrderedField α] (P : PmfParams α) (nf : NumFuns α)
    (A : PmfUpdArgs α) (upd : UpdMode) (st : PmfState α) :
    Except PyErr (PmfUpdRes α) :=
  pmfUpdateRec P nf 2 A upd st

/-- The rounds loop of PoissonMF.fit for user_fit_type != 'default'
(pmf.py lines 137-182).  State threaded per round: the instance state, the
local best_validation_ll (initially -inf), the locals best_Eb / best_Et
(unassigned until some round improves; read after the loop at lines
181-182, NameError if still unassigned), and the locals only_update /
initialize_users (assigned inside the loop only when user_fit_type ==
'converge_separately'; the log call at line 150 reads only_update and the
_update argument list at lines 152-160 reads observed_user_preferences and
initialize_users, each raising NameError when unassigned).  After each
round the best-snapshot entries of the returned dict are loaded into
Eb/Et/Elogb/Elogt (lines 162-169, KeyError on a missing key) and the
best-round bookkeeping runs (lines 170-178). -/
def pmfFitRoundsAux {α : Type} [LinearOrderedField α] (P : PmfParams α)
    (nf : NumFuns α) (beta theta : Option (Mt α)) (categorywise : Bool)
    (item_fit_type : ItemFitType) (user_fit_type : UserFitType)
    (zero_untrained_components : Bool) (oupVar : Option Bool) :
    Nat → Nat → PmfState α → Fv α → Option (Mt α) → Option (Mt α) →
    Option OnlyUpd → Option InitUsersMode → Except PyErr (PmfState α)
  | 0, _, st, _, bestEb, bestEt, _, _ => do
      let eb ← readO .nameError bestEb
      let et ← readO .nameError bestEt
      pure { st with Eb := eb, Et := et }
  | fuel + 1, switch_idx, st, bestV, bestEb, bestEt, ouVar, iuVar => do
      let (ouVar, iuVar) :=
        if user_fit_type = UserFitType.converge_separately then
          (some (if switch_idx % 2 = 0 then OnlyUpd.items else OnlyUpd.users),
           some (if switch_idx = 1 then InitUsersMode.dflt else InitUsersMode.no_init))
        else (ouVar, iuVar)
      let ou ← readO .nameError ouVar
      let oup ← readO .nameError oupVar
      let iu ← readO .nameError iuVar
      let r ← pmfUpdateRun P nf
        ⟨beta, theta, oup, categorywise, item_fit_type, user_fit_type,
         zero_untrained_components, iu, some ou⟩ UpdMode.dflt st
      let validation_ll := r.best.pred_ll
      let bEb ← readO .keyError r.best.best_Eb
      let bEt ← readO .keyError r.best.best_Et
      let bElogb ← readO .keyError r.best.best_Elogb
      let bElogt ← readO .keyError r.best.best_Elogt
      let st1 := { r.st with Eb := bEb, Et := bEt, Elogb := bElogb, Elogt := bElogt }
      let (bestV, bestEb, bestEt) :=
        if Fv.flt bestV validation_ll then (validation_ll, some st1.Eb, some st1.Et)
        else (bestV, bestEb, bestEt)
      pmfFitRoundsAux P nf beta theta categorywise item_fit_type user_fit_type
        zero_untrained_components oupVar fuel (switch_idx + 1) st1 bestV bestEb
        bestEt (some ou) (some iu)

/-- PoissonMF.fit (pmf.py lines 114-189).  The local
observed_user_preferences is assigned (to True) only when theta is an
ndarray (lines 132-133); _init_items and _init_users run (lines 135-136);
for user_fit_type != 'default' the 10-round scheduler runs
(self.max_iter_fixed = 10, lines 137-182), otherwise a single default
_update (lines 183-188). -/
def pmfFit {α : Type} [LinearOrderedField α] (P : PmfParams α) (nf : NumFuns α)
    (beta theta : Option (Mt α)) (categorywise : Bool)
    (item_fit_type : ItemFitType) (user_fit_type : UserFitType)
    (zero_untrained_components : Bool) : Except PyErr (PmfState α) :=
  let oupVar : Option Bool := if theta.isSome then some true else none
  let st0 := pmfInitUsers P nf theta (pmfInitItems P nf beta categorywise pmfBlank)
  if user_fit_type ≠ UserFitType.dflt then
    pmfFitRoundsAux P nf beta theta categorywise item_fit_type user_fit_type
      zero_untrained_components oupVar 10 0 st0 .ninf none none none none
  else do
    let r ← pmfUpdateRun P nf
      ⟨beta, none, false, categorywise, item_fit_type, user_fit_type,
       zero_untrained_components, .no_init, none⟩ UpdMode.dflt st0
    pure r.st

/-! ## HPoissonMF (hpmf.py) -/

/-- Hyperparameters, dimensions, sparse data and initial Gamma draws for
the hierarchical variant (hpmf.py); the user-activity and item-popularity
hyperprior draws included. -/
structure HpmfParams (α : Type) where
  n_components : Nat
  n_items : Nat
  n_users : Nat
  max_iter : Nat
  min_iter : Int
  tol : α
  a : α
  c : α
  a_ksi : α
  b_ksi : α
  c_eta : α
  d_eta : α
  rows : List Nat
  cols : List Nat
  xdata : List α
  vadRows : List Nat
  vadCols : List Nat
  vadX : List α
  initUserGamma : Mt α
  initUserRho : Mt α
  initKsiGamma : Vc α
  initKsiRho : Vc α
  initItemGamma : Mt α
  initItemRho : Mt α
  initEtaGamma : Vc α
  initEtaRho : Vc α

/-- The attributes of an HPoissonMF instance.  The user side is always
variational in this variant; the item side (including the eta hyperprior)
is None when an observed beta is supplied to _init_items.  After the first
_update_users call gamma_ksi is the scalar a_ksi + K*a; scalars that
broadcast in every later elementwise use are stored as constant vectors. -/
structure HpmfState (α : Type) where
  gamma_t : Mt α
  rho_t : Mt α
  Et : Mt α
  Elogt : Mt α
  gamma_ksi : Vc α
  rho_ksi : Vc α
  Eksi : Vc α
  gamma_b : Option (Mt α)
  rho_b : Option (Mt α)
  Eb : Mt α
  Elogb : Option (Mt α)
  gamma_eta : Option (Vc α)
  rho_eta : Option (Vc α)
  Eeta : Option (Vc α)

/-- State before the initializers ran. -/
def hpmfBlank {α : Type} [LinearOrderedField α] : HpmfState α :=
  ⟨fun _ _ => 0, fun _ _ => 0, fun _ _ => 0, fun _ _ => 0,
   fun _ => 0, fun _ => 0, fun _ => 0,
   none, none, fun _ _ => 0, none, none, none, none⟩

/-- HPoissonMF._init_users (hpmf.py lines 73-91): variational user factors
and the user-activity hyperprior, expectations computed (the log-mean of
ksi is discarded by the source). -/
def hpmfInitUsers {α : Type} [LinearOrderedField α] (P : HpmfParams α)
    (nf : NumFuns α) (st : HpmfState α) : HpmfState α :=
  let e := _compute_expectations nf P.initUserGamma P.initUserRho
  { st with gamma_t := P.initUserGamma, rho_t := P.initUserRho,
            Et := e.1, Elogt := e.2,
            gamma_ksi := P.initKsiGamma, rho_ksi := P.initKsiRho,
            Eksi := fun u => P.initKsiGamma u / P.initKsiRho u }

/-- HPoissonMF._init_items (hpmf.py lines 93-123): any observed beta (there
is no categorywise parameter in this variant) is installed as Eb with ALL
variational item state, including the eta hyperprior, set to None;
otherwise normal variational initialization. -/
def hpmfInitItems {α : Type} [LinearOrderedField α] (P : HpmfParams α)
    (nf : NumFuns α) (beta : Option (Mt α)) (st : HpmfState α) : HpmfState α :=
  match beta with
  | some b =>
      { st with Eb := b, Elogb := none, gamma_b := none, rho_b := none,
                Eeta := none, gamma_eta := none, rho_eta := none }
  | none =>
      let e := _compute_expectations nf P.initItemGamma P.initItemRho
      { st with gamma_b := some P.initItemGamma, rho_b := some P.initItemRho,
                Eb := e.1, Elogb := some e.2,
                gamma_eta := some P.initEtaGamma, rho_eta := some P.initEtaRho,
                Eeta := some (fun i => P.initEtaGamma i / P.initEtaRho i) }

/-- HPoissonMF._xexplog (hpmf.py lines 322-330): with an ndarray beta the
kernel pairs Eb with exp(Elogt); otherwise exp(Elogb) with exp(Elogt). -/
def hpmfXexplog {α : Type} [LinearOrderedField α] (P : HpmfParams α)
    (nf : NumFuns α) (st : HpmfState α) (beta : Option (Mt α)) :
    Except PyErr (List α) := do
  if beta.isSome then
    pure (innerAll (flattenM st.Eb P.n_components)
      (flattenM (fun k u => nf.expf (st.Elogt k u)) P.n_users)
      P.n_components P.n_users P.rows P.cols)
  else do
    let expElogb ← expO nf st.Elogb
    pure (innerAll (flattenM expElogb P.n_components)
      (flattenM (fun k u => nf.expf (st.Elogt k u)) P.n_users)
      P.n_components P.n_users P.rows P.cols)

/-- HPoissonMF.pred_loglikeli (hpmf.py lines 332-335). -/
def hpmfPredLL {α : Type} [LinearOrderedField α] (P : HpmfParams α)
    (nf : NumFuns α) (st : HpmfState α) : Fv α :=
  let xpred := innerAll (flattenM st.Eb P.n_components) (flattenM st.Et P.n_users)
    P.n_components P.n_users P.vadRows P.vadCols
  fvMean (List.zipWith
    (fun x p => Fv.fsub (Fv.fmul (.fin x) (npLog nf p)) (.fin p)) P.vadX xpred)

/-- HPoissonMF._update_users (hpmf.py lines 270-288).  The only call site
(line 182) passes beta only, so categorywise keeps its default False there.
gamma_t is computed against Eb when beta is an ndarray and categorywise is
off, else against exp(Elogb); rho_t = Eksi + column sums of Eb; then the
user expectations and the user-activity hyperprior are recomputed
(gamma_ksi becomes the scalar a_ksi + n_components * a). -/
def hpmfUpdateUsers {α : Type} [LinearOrderedField α] (P : HpmfParams α)
    (nf : NumFuns α) (st : HpmfState α) (beta : Option (Mt α))
    (categorywise : Bool) : Except PyErr (HpmfState α) := do
  let xexplog ← hpmfXexplog P nf st beta
  let vals := List.zipWith (fun x e => x / e) P.xdata xexplog
  let gamma_t ←
    if beta.isSome ∧ ¬categorywise then
      pure (fun k u => P.a +
        nf.expf (st.Elogt k u) * ratioTDot P.rows P.cols vals st.Eb u k)
    else do
      let expElogb ← expO nf st.Elogb
      pure (fun k u => P.a +
        nf.expf (st.Elogt k u) * ratioTDot P.rows P.cols vals expElogb u k)
  let rho_t : Mt α := fun k u => st.Eksi u + colSum st.Eb P.n_items k
  let e := _compute_expectations nf gamma_t rho_t
  let gamma_ksi : Vc α := fun _ => P.a_ksi + (P.n_components : α) * P.a
  let rho_ksi : Vc α := fun u => P.b_ksi + colSum e.1 P.n_components u
  pure { st with gamma_t := gamma_t, rho_t := rho_t, Et := e.1, Elogt := e.2,
                 gamma_ksi := gamma_ksi, rho_ksi := rho_ksi,
                 Eksi := fun u => gamma_ksi u / rho_ksi u }

/-- HPoissonMF._update_items (hpmf.py lines 290-320).  The ratio uses
_xexplog without beta, so it always reads exp(Elogb) (TypeError when the
item side is None).  With an ndarray beta and categorywise, only the
mask-selected entries are overwritten (update values other than
in_category/out_category select neither); rho_b_updated = Eeta + row sums
of Et broadcasts to the (n_items, n_components) shape.  Otherwise the full
matrices are overwritten.  The item-popularity hyperprior is then updated
regardless (gamma_eta becomes the scalar c_eta + n_components * c). -/
def hpmfUpdateItems {α : Type} [LinearOrderedField α] (P : HpmfParams α)
    (nf : NumFuns α) (st : HpmfState α) (beta : Option (Mt α))
    (categorywise : Bool) (upd : UpdMode) : Except PyErr (HpmfState α) := do
  let xexplog ← hpmfXexplog P nf st none
  let vals := List.zipWith (fun x e => x / e) P.xdata xexplog
  let st1 ←
    if beta.isSome ∧ categorywise then do
      let b ← readO .typeError beta
      let mask : Nat → Nat → Bool := fun i k => decide (b i k ≠ 0)
      let expElogb ← expO nf st.Elogb
      let gamma_b_updated : Mt α := fun i k => P.c +
        expElogb i k * ratioDot P.rows P.cols vals
          (fun u kk => nf.expf (st.Elogt kk u)) i k
      let eeta ← readO (β := Vc α) .typeError st.Eeta
      let rho_b_updated : Mt α := fun i k => eeta i + rowSum st.Et P.n_users k
      let gOld ← getO st.gamma_b
      let rOld ← getO st.rho_b
      let gr :=
        match upd with
        | UpdMode.in_category =>
            (setMaskM mask gamma_b_updated gOld, setMaskM mask rho_b_updated rOld)
        | UpdMode.out_category =>
            (setMaskM (fun i k => ! mask i k) gamma_b_updated gOld,
             setMaskM (fun i k => ! mask i k) rho_b_updated rOld)
        | _ => (gOld, rOld)
      let e := _compute_expectations nf gr.1 gr.2
      pure { st with gamma_b := some gr.1, rho_b := some gr.2,
                     Eb := e.1, Elogb := some e.2 }
    else do
      let expElogb ← expO nf st.Elogb
      let gamma_b : Mt α := fun i k => P.c +
        expElogb i k * ratioDot P.rows P.cols vals
          (fun u kk => nf.expf (st.Elogt kk u)) i k
      let eeta ← readO (β := Vc α) .typeError st.Eeta
      let rho_b : Mt α := fun i k => eeta i + rowSum st.Et P.n_users k
      let e := _compute_expectations nf gamma_b rho_b
      pure { st with gamma_b := some gamma_b, rho_b := some rho_b,
                     Eb := e.1, Elogb := some e.2 }
  let gamma_eta : Vc α := fun _ => P.c_eta + (P.n_components : α) * P.c
  let rho_eta : Vc α := fun i => P.d_eta + rowSum st1.Eb P.n_components i
  pure { st1 with gamma_eta := some gamma_eta, rho_eta := some rho_eta,
                  Eeta := some (fun i => gamma_eta i / rho_eta i) }

/-- The mutable context of one run of the HPoissonMF._update loop: the
instance state plus the function-local clamp caches. -/
structure HpmfCtx (α : Type) where
  st : HpmfState α
  cache_out_gamma : Option (Mt α)
  cache_out_rho : Option (Mt α)
  cache_in_gamma : Option (Mt α)
  cache_in_rho : Option (Mt α)

/-- The clamp step of HPoissonMF._update (hpmf.py lines 186-203), executed
when zero_untrained_components and i == 1 and update == 'default'. -/
def hpmfClamp {α : Type} [LinearOrderedField α] (beta : Option (Mt α))
    (item_fit_type : ItemFitType) (c : HpmfCtx α) : Except PyErr (HpmfCtx α) := do
  let b ← readO .attributeError beta
  let mask : Nat → Nat → Bool := fun i k => decide (b i k ≠ 0)
  match item_fit_type with
  | .converge_in_category_first => do
      let g ← getO c.st.gamma_b
      let r ← getO c.st.rho_b
      pure { c with
        st := { c.st with
          gamma_b := some (setMaskC (fun i k => ! mask i k) small_num g),
          rho_b := some (setMaskC (fun i k => ! mask i k) small_num r) },
        cache_out_gamma := some g, cache_out_rho := some r }
  | .converge_out_category_first => do
      let g ← getO c.st.gamma_b
      let r ← getO c.st.rho_b
      pure { c with
        st := { c.st with
          gamma_b := some (setMaskC mask small_num g),
          rho_b := some (setMaskC mask small_num r) },
        cache_in_gamma := some g, cache_in_rho := some r }
  | _ => pure c

/-- The item-side branchwork of one iteration of HPoissonMF._update
(hpmf.py lines 183-234), including the clamp step (which fires at i == 1
in this variant). -/
def hpmfItemSection {α : Type} [LinearOrderedField α] (P : HpmfParams α)
    (nf : NumFuns α) (beta : Option (Mt α)) (categorywise : Bool)
    (item_fit_type : ItemFitType) (zero_untrained_components : Bool)
    (upd : UpdMode) (i : Nat) (c : HpmfCtx α) : Except PyErr (HpmfCtx α) :=
  if beta.isSome ∧ ¬categorywise then
    pure c
  else if item_fit_type ≠ ItemFitType.dflt then do
    let c ←
      if zero_untrained_components ∧ i = 1 ∧ upd = UpdMode.dflt then
        hpmfClamp beta item_fit_type c
      else pure c
    if beta.isSome ∧ categorywise ∧
        item_fit_type = ItemFitType.alternating_updates then do
      let st2 ← hpmfUpdateItems P nf c.st beta categorywise
        (if i % 2 = 0 then UpdMode.in_category else UpdMode.out_category)
      pure { c with st := st2 }
    else if beta.isSome ∧ categorywise ∧
        item_fit_type = ItemFitType.converge_in_category_first then do
      let st2 ← hpmfUpdateItems P nf c.st beta categorywise
        (if upd = UpdMode.dflt then UpdMode.in_category else upd)
      pure { c with st := st2 }
    else if beta.isSome ∧ categorywise ∧
        item_fit_type = ItemFitType.converge_out_category_first then do
      let st2 ← hpmfUpdateItems P nf c.st beta categorywise
        (if upd = UpdMode.dflt then UpdMode.out_category else upd)
      pure { c with st := st2 }
    else
      pure c
  else do
    let st2 ← hpmfUpdateItems P nf c.st none false UpdMode.dflt
    pure { c with st := st2 }

/-- One iteration of the update section of HPoissonMF._update (hpmf.py
lines 182-234): the unconditional user update, then the item-side
branchwork. -/
def hpmfBody {α : Type} [LinearOrderedField α] (P : HpmfParams α) (nf : NumFuns α)
    (beta : Option (Mt α)) (categorywise : Bool) (item_fit_type : ItemFitType)
    (zero_untrained_components : Bool) (upd : UpdMode) (i : Nat)
    (c : HpmfCtx α) : Except PyErr (HpmfCtx α) := do
  let st1 ← hpmfUpdateUsers P nf c.st beta false
  hpmfItemSection P nf beta categorywise item_fit_type
    zero_untrained_components upd i { c with st := st1 }

/-- What one run of HPoissonMF._update produces: the instance state plus
the observational exit kind and iteration count (the source method returns
None, so an exhausted loop simply falls through -- no value is needed at
exit, unlike the PoissonMF variant). -/
structure HpmfUpdRes (α : Type) where
  st : HpmfState α
  exitk : ExitK
  iters : Nat

/-- The phase logic of HPoissonMF._update on the tolerance stop (hpmf.py
lines 245-265): same structure as the PoissonMF variant (the recursive
phase call leaves zero_untrained_components at its default False). -/
def hpmfStopActs {α : Type} [LinearOrderedField α] (beta : Option (Mt α))
    (item_fit_type : ItemFitType) (zuc : Bool) (upd : UpdMode)
    (recur : UpdMode → HpmfState α → Except PyErr (HpmfUpdRes α))
    (c1 : HpmfCtx α) : Except PyErr (HpmfCtx α) := do
  if upd = UpdMode.dflt ∧ item_fit_type ≠ ItemFitType.dflt then do
    let cA ←
      if item_fit_type = ItemFitType.converge_in_category_first then do
        let cr ←
          if zuc then do
            let g ← readO .nameError c1.cache_out_gamma
            let r ← readO .nameError c1.cache_out_rho
            let b ← readO .nameError beta
            let mask : Nat → Nat → Bool := fun ii kk => decide (b ii kk ≠ 0)
            let gb ← getO c1.st.gamma_b
            let rb ← getO c1.st.rho_b
            pure { c1 with st := { c1.st with
              gamma_b := some (setMaskM (fun ii kk => ! mask ii kk) g gb),
              rho_b := some (setMaskM (fun ii kk => ! mask ii kk) r rb) } }
          else pure c1
        let r ← recur UpdMode.out_category cr.st
        pure { cr with st := r.st }
      else pure c1
    let cB ←
      if item_fit_type = ItemFitType.converge_out_category_first then do
        let cr ←
          if zuc then do
            let g ← readO .nameError cA.cache_in_gamma
            let r ← readO .nameError cA.cache_in_rho
            let b ← readO .nameError beta
            let mask : Nat → Nat → Bool := fun ii kk => decide (b ii kk ≠ 0)
            let gb ← getO cA.st.gamma_b
            let rb ← getO cA.st.rho_b
            pure { cA with st := { cA.st with
              gamma_b := some (setMaskM mask g gb),
              rho_b := some (setMaskM mask r rb) } }
          else pure cA
        let r ← recur UpdMode.in_category cr.st
        pure { cr with st := r.st }
      else pure cA
    pure cB
  else pure c1

/-- The loop of HPoissonMF._update (hpmf.py lines 177-268): same control
shape as the PoissonMF loop (nan check lines 236-238, improvement line
239, stop condition line 244, phase logic hpmfStopActs) but with no
best-snapshot dict and no value returned (an exhausted loop simply falls
through). -/
def hpmfUpdateLoop {α : Type} [LinearOrderedField α] (P : HpmfParams α)
    (nf : NumFuns α) (beta : Option (Mt α)) (categorywise : Bool)
    (item_fit_type : ItemFitType) (zuc : Bool) (upd : UpdMode)
    (recur : UpdMode → HpmfState α → Except PyErr (HpmfUpdRes α)) :
    Nat → Nat → Fv α → HpmfCtx α → Except PyErr (HpmfUpdRes α)
  | 0, i, _, c => .ok ⟨c.st, .maxed, i⟩
  | fuel' + 1, i, old_pll, c => do
      let c1 ← hpmfBody P nf beta categorywise item_fit_type zuc upd i c
      let pll := hpmfPredLL P nf c1.st
      if pll.isnan then .error .nanPll
      else do
        let improvement := fvImprovement pll old_pll
        if Fv.flt improvement (.fin P.tol) ∧ (i : Int) > P.min_iter then do
          let c3 ← hpmfStopActs beta item_fit_type zuc upd recur c1
          .ok ⟨c3.st, .tolStop i, i + 1⟩
        else
          hpmfUpdateLoop P nf beta categorywise item_fit_type zuc upd recur
            fuel' (i + 1) pll c1

/-- One call of HPoissonMF._update at a given recursion budget (the
recursive phase call leaves zero_untrained_components at its default
False). -/
def hpmfUpdateRec {α : Type} [LinearOrderedField α] (P : HpmfParams α)
    (nf : NumFuns α) (beta : Option (Mt α)) (categorywise : Bool)
    (item_fit_type : ItemFitType) :
    Nat → Bool → UpdMode → HpmfState α → Except PyErr (HpmfUpdRes α)
  | 0, _, _, _ => .error .recursionError
  | rdepth + 1, zuc, upd, st =>
      hpmfUpdateLoop P nf beta categorywise item_fit_type zuc upd
        (hpmfUpdateRec P nf beta categorywise item_fit_type rdepth false)
        P.max_iter 0 .ninf ⟨st, none, none, none, none⟩

/-- One full call of HPoissonMF._update. -/
def hpmfUpdateRun {α : Type} [LinearOrderedField α] (P : HpmfParams α)
    (nf : NumFuns α) (beta : Option (Mt α)) (categorywise : Bool)
    (item_fit_type : ItemFitType) (zuc : Bool) (upd : UpdMode)
    (st : HpmfState α) : Except PyErr (HpmfUpdRes α) :=
  hpmfUpdateRec P nf beta categorywise item_fit_type 2 zuc upd st

/-- HPoissonMF.fit (hpmf.py lines 125-146): initialize items and users,
then one default _update. -/
def hpmfFit {α : Type} [LinearOrderedField α] (P : HpmfParams α) (nf : NumFuns α)
    (beta : Option (Mt α)) (categorywise : Bool) (item_fit_type : ItemFitType)
    (zuc : Bool) : Except PyErr (HpmfState α) := do
  let st0 := hpmfInitUsers P nf (hpmfInitItems P nf beta hpmfBlank)
  let r ← hpmfUpdateRun P nf beta categorywise item_fit_type zuc UpdMode.dflt st0
  pure r.st

/-! ## The concrete real-valued library functions -/

/-- The digamma function (scipy.special.psi): the derivative of the log of
the Gamma function. -/
noncomputable def realPsi : ℝ → ℝ := deriv (fun x => Real.log (Real.Gamma x))

/-- The real instantiation of the abstracted numeric library functions. -/
noncomputable def realNumFuns : NumFuns ℝ := ⟨realPsi, Real.log, Real.exp⟩

/-! ## Concrete instances used by witnesses and counterexamples -/

/-- A concrete rational instantiation of the abstracted library functions,
used to evaluate the model on concrete inputs. -/
def cqNF : NumFuns ℚ := ⟨fun q => q - 1, fun q => q - 1, fun q => q + 1⟩

/-- Concrete PoissonMF parameters: a 1-item, 1-user, 1-component problem
with one training triple and one validation triple. -/
def cqPmfP : PmfParams ℚ where
  n_components := 1
  n_items := 1
  n_users := 1
  max_iter := 3
  min_iter := 0
  tol := 1
  a := 1
  b := 1
  c := 1
  d := 1
  rows := [0]
  cols := [0]
  xdata := [1]
  vadRows := [0]
  vadCols := [0]
  vadX := [1]
  initUserGamma := fun _ _ => 1
  initUserRho := fun _ _ => 1
  initItemGamma := fun _ _ => 2
  initItemRho := fun _ _ => 1

/-- Concrete HPoissonMF parameters: a 2-item, 1-user, 1-component problem;
the training triple sits on item 0 and the validation triple on item 1. -/
def cqHpmfP : HpmfParams ℚ where
  n_components := 1
  n_items := 2
  n_users := 1
  max_iter := 2
  min_iter := 0
  tol := 1
  a := 1
  c := 1
  a_ksi := 1
  b_ksi := 1
  c_eta := 1
  d_eta := 1
  rows := [0]
  cols := [0]
  xdata := [1]
  vadRows := [1]
  vadCols := [0]
  vadX := [1]
  initUserGamma := fun _ _ => 1
  initUserRho := fun _ _ => 1
  initKsiGamma := fun _ => 1
  initKsiRho := fun _ => 1
  initItemGamma := fun _ _ => 2
  initItemRho := fun _ _ => 1
  initEtaGamma := fun _ => 1
  initEtaRho := fun _ => 1

/-- The fixed observed beta of the C1 scenario: item 0 has weight 1, item 1
is identically zero, so the validation triple on item 1 has prediction 0. -/
def cqBetaZeroRow : Mt ℚ := fun i _ => if i = 0 then 1 else 0

/-- A concrete PoissonMF state with all variational item/user attributes
present (as after a categorywise initialization). -/
def cqStItems : PmfState ℚ :=
  ⟨none, none, fun _ _ => 1, some (fun _ _ => 0),
   some (fun _ _ => 2), some (fun _ _ => 3), fun _ _ => 1, some (fun _ _ => 0)⟩

/-- The default keyword arguments of PoissonMF._update as fit passes them
when user_fit_type is 'default' (no observed matrices). -/
def cqA0 : PmfUpdArgs ℚ :=
  ⟨none, none, false, false, .dflt, .dflt, false, .no_init, none⟩

/-- The loop context at entry of the default concrete PoissonMF run. -/
def cqC0 : PmfCtx ℚ :=
  ⟨pmfInitUsers cqPmfP cqNF none (pmfInitItems cqPmfP cqNF none false pmfBlank),
   pmfBestInit, none, none, none, none⟩

/-- The loop context at entry of the default concrete HPoissonMF run. -/
def cqHC0 : HpmfCtx ℚ :=
  ⟨hpmfInitUsers cqHpmfP cqNF (hpmfInitItems cqHpmfP cqNF none hpmfBlank),
   none, none, none, none⟩

/-- The concrete PoissonMF parameters with an empty validation set: np.mean
over an empty array is nan, so pred_loglikeli is nan on every state. -/
def cqPmfNanP : PmfParams ℚ := { cqPmfP with vadRows := [], vadCols := [], vadX := [] }

/-- The concrete HPoissonMF parameters with an empty validation set. -/
def cqHpmfNanP : HpmfParams ℚ := { cqHpmfP with vadRows := [], vadCols := [], vadX := [] }

/-- Concrete PoissonMF parameters with zero components: every prediction is
the empty sum 0, so pred_loglikeli is -inf (never nan) on every state. -/
def cqPmfKZ : PmfParams ℚ := { cqPmfP with n_components := 0 }

/-- Concrete HPoissonMF parameters with zero components. -/
def cqHpmfKZ : HpmfParams ℚ := { cqHpmfP with n_components := 0 }

/-- Loop context at entry of the empty-validation PoissonMF run. -/
def cqCN0 : PmfCtx ℚ :=
  ⟨pmfInitUsers cqPmfNanP cqNF none (pmfInitItems cqPmfNanP cqNF none false pmfBlank),
   pmfBestInit, none, none, none, none⟩

/-- Loop context at entry of the empty-validation HPoissonMF run. -/
def cqHCN0 : HpmfCtx ℚ :=
  ⟨hpmfInitUsers cqHpmfNanP cqNF (hpmfInitItems cqHpmfNanP cqNF none hpmfBlank),
   none, none, none, none⟩

/-- The default _update arguments with an observed beta (categorywise off). -/
def cqAB : PmfUpdArgs ℚ := { cqA0 with beta := some cqBetaZeroRow }

/-- Loop context at entry of the fixed-beta concrete HPoissonMF run. -/
def cqHB0 : HpmfCtx ℚ :=
  ⟨hpmfInitUsers cqHpmfP cqNF (hpmfInitItems cqHpmfP cqNF (some cqBetaZeroRow) hpmfBlank),
   none, none, none, none⟩

/-- _update arguments for the categorywise converge_in_category_first
policy with zero_untrained_components set. -/
def cqACI : PmfUpdArgs ℚ :=
  { cqAB with categorywise := true,
              item_fit_type := .converge_in_category_first,
              zero_untrained_components := true }

/-- The same policy arguments with zero_untrained_components at its
default False (as PoissonMF.fit passes them by default). -/
def cqACI0 : PmfUpdArgs ℚ := { cqACI with zero_untrained_components := false }

/-- Loop context around the all-attributes-present PoissonMF state. -/
def cqCItems : PmfCtx ℚ := ⟨cqStItems, pmfBestInit, none, none, none, none⟩

/-- A concrete HPoissonMF state with the full item variational state
present (as after a variational item initialization). -/
def cqHStItems : HpmfState ℚ :=
  ⟨fun _ _ => 1, fun _ _ => 1, fun _ _ => 1, fun _ _ => 0,
   fun _ => 1, fun _ => 1, fun _ => 1,
   some (fun _ _ => 2), some (fun _ _ => 3), fun _ _ => 1, some (fun _ _ => 0),
   some (fun _ => 1), some (fun _ => 1), some (fun _ => 1)⟩

/-- Loop context around that HPoissonMF state. -/
def cqHCItems : HpmfCtx ℚ := ⟨cqHStItems, none, none, none, none⟩

/-- A loop context as it stands at the tolerance stop of a clamped
converge_in_category_first run: the out-category caches hold the original
pre-clamp matrices. -/
def cqCStop : PmfCtx ℚ :=
  ⟨cqStItems, pmfBestInit, some (fun _ _ => 7), some (fun _ _ => 8), none, none⟩

/-- A stub recursive _update entry that returns its input state unchanged;
used to observe what state the phase logic hands to the recursive call. -/
def cqRecurStub : PmfUpdArgs ℚ → UpdMode → PmfState ℚ → Except PyErr (PmfUpdRes ℚ) :=
  fun _ _ st => .ok ⟨st, .fin 0, pmfBestInit, .maxed, 0⟩

/-- _update arguments for the categorywise converge_out_category_first
policy with zero_untrained_components set. -/
def cqACO : PmfUpdArgs ℚ :=
  { cqAB with categorywise := true,
              item_fit_type := .converge_out_category_first,
              zero_untrained_components := true }

/-- The same out-category-first policy arguments with
zero_untrained_components at its default False. -/
def cqACO0 : PmfUpdArgs ℚ := { cqACO with zero_untrained_components := false }

/-- A loop context as it stands at the tolerance stop of a clamped
converge_out_category_first run: the in-category caches hold the original
pre-clamp matrices. -/
def cqCStopIn : PmfCtx ℚ :=
  ⟨cqStItems, pmfBestInit, none, none, some (fun _ _ => 7), some (fun _ _ => 8)⟩

/-- Decidable equality for Except results with decidable payloads, used to
evaluate the model on concrete inputs. -/
instance {ε β : Type} [DecidableEq ε] [DecidableEq β] : DecidableEq (Except ε β)
  | .ok a, .ok b =>
      if h : a = b then .isTrue (by rw [h])
      else .isFalse (by intro hc; cases hc; exact h rfl)
  | .ok _, .error _ => .isFalse (by intro h; cases h)
  | .error _, .ok _ => .isFalse (by intro h; cases h)
  | .error e, .error f =>
      if h : e = f then .isTrue (by rw [h])
      else .isFalse (by intro hc; cases hc; exact h rfl)

/-! ## Theorems: helper lemmas -/

theorem fvImprovement_ninf_nan {α : Type} [LinearOrderedField α] (pll : Fv α) :
    fvImprovement pll (.ninf) = .nan := by
  cases pll <;> rfl

theorem flt_nan_left {α : Type} [LinearOrderedField α] (y : Fv α) :
    Fv.flt (.nan : Fv α) y = false := by
  cases y <;> rfl

theorem hasDerivAt_logGamma {x : ℝ} (hx : 0 < x) :
    HasDerivAt (fun y => Real.log (Real.Gamma y)) (realPsi x) x := by
  have hne : ∀ m : ℕ, x ≠ -(m : ℝ) := by
    intro m
    have : -(m : ℝ) ≤ 0 := neg_nonpos.mpr (Nat.cast_nonneg m)
    exact fun h => absurd hx (by rw [h]; exact not_lt.mpr this)
  have hd : DifferentiableAt ℝ (fun y => Real.log (Real.Gamma y)) x :=
    (Real.differentiableAt_Gamma hne).log (Real.Gamma_pos_of_pos hx).ne'
  exact hd.hasDerivAt

theorem realPsi_le_log {x : ℝ} (hx : 0 < x) : realPsi x ≤ Real.log x := by
  have hΓx : 0 < Real.Gamma x := Real.Gamma_pos_of_pos hx
  have hmem : x ∈ Set.Ioi (0 : ℝ) := hx
  have hmem' : x + 1 ∈ Set.Ioi (0 : ℝ) := by
    simp only [Set.mem_Ioi]; linarith
  have hdiff : DifferentiableAt ℝ (Real.log ∘ Real.Gamma) x :=
    (hasDerivAt_logGamma hx).differentiableAt
  have hle : deriv (Real.log ∘ Real.Gamma) x ≤
      slope (Real.log ∘ Real.Gamma) x (x + 1) :=
    Real.convexOn_log_Gamma.deriv_le_slope hmem hmem' (by linarith) hdiff
  have hslope : slope (Real.log ∘ Real.Gamma) x (x + 1) = Real.log x := by
    rw [slope_def_field]
    have hΓ1 : Real.Gamma (x + 1) = x * Real.Gamma x := Real.Gamma_add_one hx.ne'
    simp only [Function.comp]
    rw [hΓ1, Real.log_mul hx.ne' hΓx.ne']
    ring
  have hpsi : realPsi x = deriv (Real.log ∘ Real.Gamma) x := rfl
  rw [hpsi]
  exact hslope ▸ hle

theorem realPsi_add_one {x : ℝ} (hx : 0 < x) :
    realPsi (x + 1) = realPsi x + x⁻¹ := by
  have h1 : HasDerivAt (fun y : ℝ => Real.log (Real.Gamma (y + 1)))
      (realPsi (x + 1)) x := by
    have hshift : HasDerivAt (fun y : ℝ => y + 1) 1 x := (hasDerivAt_id x).add_const 1
    have := (hasDerivAt_logGamma (by linarith : (0:ℝ) < x + 1)).comp x hshift
    simpa using this
  have h2 : HasDerivAt (fun y : ℝ => Real.log y + Real.log (Real.Gamma y))
      (x⁻¹ + realPsi x) x :=
    (Real.hasDerivAt_log hx.ne').add (hasDerivAt_logGamma hx)
  have hev : (fun y : ℝ => Real.log (Real.Gamma (y + 1))) =ᶠ[nhds x]
      (fun y : ℝ => Real.log y + Real.log (Real.Gamma y)) := by
    filter_upwards [eventually_gt_nhds hx] with y hy
    rw [Real.Gamma_add_one hy.ne',
        Real.log_mul hy.ne' (Real.Gamma_pos_of_pos hy).ne']
  have h1' : HasDerivAt (fun y : ℝ => Real.log y + Real.log (Real.Gamma y))
      (realPsi (x + 1)) x := h1.congr_of_eventuallyEq hev.symm
  have := h1'.unique h2
  linarith

theorem realPsi_lt_log {x : ℝ} (hx : 0 < x) : realPsi x < Real.log x := by
  rcases lt_or_eq_of_le (realPsi_le_log hx) with h | h
  · exact h
  · exfalso
    have h1 : realPsi (x + 1) = Real.log x + x⁻¹ := by
      rw [realPsi_add_one hx, h]
    have h2 : realPsi (x + 1) ≤ Real.log (x + 1) :=
      realPsi_le_log (by linarith)
    have h3 : Real.log (x + 1) - Real.log x < x⁻¹ := by
      have hq : (0:ℝ) < (x + 1) / x := by positivity
      have hq1 : (x + 1) / x ≠ 1 := by
        intro hc
        field_simp at hc
      have := Real.log_lt_sub_one_of_pos hq hq1
      rw [Real.log_div (by linarith) hx.ne'] at this
      have hx1 : (x + 1) / x - 1 = x⁻¹ := by field_simp
      linarith
    linarith

/-! ## Claim C9 -/

/-- C9: for every elementwise strictly positive shape and rate,
_compute_expectations returns mean = shape/rate and
log_mean = digamma(shape) - log(rate) elementwise, with mean > 0 and
log_mean < log(mean) in every entry. -/
theorem claim_C9_compute_expectations (shape rate : Mt ℝ) (i k : Nat)
    (hs : 0 < shape i k) (hr : 0 < rate i k) :
    (_compute_expectations realNumFuns shape rate).1 i k = shape i k / rate i k ∧
    (_compute_expectations realNumFuns shape rate).2 i k =
      realPsi (shape i k) - Real.log (rate i k) ∧
    0 < (_compute_expectations realNumFuns shape rate).1 i k ∧
    (_compute_expectations realNumFuns shape rate).2 i k <
      Real.log ((_compute_expectations realNumFuns shape rate).1 i k) := by
  refine ⟨rfl, rfl, div_pos hs hr, ?_⟩
  show realPsi (shape i k) - Real.log (rate i k) <
    Real.log (shape i k / rate i k)
  rw [Real.log_div hs.ne' hr.ne']
  have := realPsi_lt_log hs
  linarith

/-- Witness for C9 at the constant matrices shape = rate = 1, entry (0,0). -/
theorem claim_C9_compute_expectations_witness :
    (0:ℝ) < (fun _ _ => (1:ℝ)) 0 0 ∧
    ((_compute_expectations realNumFuns (fun _ _ => (1:ℝ)) (fun _ _ => (1:ℝ))).1 0 0 =
        (1:ℝ) / 1 ∧
      (_compute_expectations realNumFuns (fun _ _ => (1:ℝ)) (fun _ _ => (1:ℝ))).2 0 0 =
        realPsi 1 - Real.log 1 ∧
      0 < (_compute_expectations realNumFuns (fun _ _ => (1:ℝ)) (fun _ _ => (1:ℝ))).1 0 0 ∧
      (_compute_expectations realNumFuns (fun _ _ => (1:ℝ)) (fun _ _ => (1:ℝ))).2 0 0 <
        Real.log ((_compute_expectations realNumFuns (fun _ _ => (1:ℝ))
          (fun _ _ => (1:ℝ))).1 0 0)) :=
  ⟨by norm_num,
   claim_C9_compute_expectations (fun _ _ => 1) (fun _ _ => 1) 0 0
     (by norm_num) (by norm_num)⟩

/-! ## Claim C8 -/

theorem foldl_add_eq_sum {α : Type} [AddCommMonoid α] (f : Nat → α) :
    ∀ (n : Nat) (a : α),
      (List.range n).foldl (fun acc j => acc + f j) a = a + ∑ j in Finset.range n, f j
  | 0, a => by simp
  | n + 1, a => by
      rw [List.range_succ, List.foldl_append, foldl_add_eq_sum f n a,
        Finset.sum_range_succ]
      simp [add_assoc]

theorem innerEntry_eq_sum {α : Type} [Field α] (A B : Mt α) (K U r c : Nat)
    (hc : c < U) :
    innerEntry (flattenM A K) (flattenM B U) K U r c =
      ∑ k in Finset.range K, A r k * B k c := by
  rw [innerEntry, foldl_add_eq_sum, zero_add]
  refine Finset.sum_congr rfl (fun j hj => ?_)
  have hjK : j < K := Finset.mem_range.mp hj
  have h1 : flattenM A K (r * K + j) = A r j := by
    have hK : 0 < K := Nat.pos_of_ne_zero (by omega)
    simp only [flattenM]
    rw [Nat.mul_comm r K, Nat.mul_add_div hK, Nat.div_eq_of_lt hjK,
      Nat.add_zero, Nat.mul_add_mod, Nat.mod_eq_of_lt hjK]
  have h2 : flattenM B U (j * U + c) = B j c := by
    have hU : 0 < U := Nat.pos_of_ne_zero (by omega)
    simp only [flattenM]
    rw [Nat.mul_comm j U, Nat.mul_add_div hU, Nat.div_eq_of_lt hc,
      Nat.add_zero, Nat.mul_add_mod, Nat.mod_eq_of_lt hc]
  rw [h1, h2]

theorem getD_map_of_lt {β γ : Type} (f : β → γ) :
    ∀ (l : List β) (n : Nat), n < l.length → ∀ (d : γ) (d' : β),
      (List.map f l).getD n d = f (l.getD n d')
  | [], n, h, _, _ => absurd h (by simp)
  | b :: l, 0, _, d, d' => rfl
  | b :: l, n + 1, h, d, d' => by
      simp only [List.map_cons, List.getD_cons_succ]
      exact getD_map_of_lt f l n (by simpa using h) d d'

theorem getD_zip_of_lt {β γ : Type} :
    ∀ (l : List β) (l' : List γ) (n : Nat), n < l.length → n < l'.length →
      ∀ (d : β) (d' : γ), (l.zip l').getD n (d, d') = (l.getD n d, l'.getD n d')
  | [], _, n, h, _, _, _ => absurd h (by simp)
  | _ :: _, [], n, _, h', _, _ => absurd h' (by simp)
  | b :: l, c :: l', 0, _, _, d, d' => rfl
  | b :: l, c :: l', n + 1, h, h', d, d' => by
      simp only [List.zip_cons_cons, List.getD_cons_succ]
      exact getD_zip_of_lt l l' n (by simpa using h) (by simpa using h') d d'

/-- C8: the n-th entry of _inner(beta, theta, rows, cols), with the two
factor matrices laid out row-major exactly as the weave kernel reads them,
equals the naive per-pair sum over the components; permuting the index
pair list permutes the results identically; an empty index list yields an
empty result. -/
theorem claim_C8_inner {α : Type} [Field α] (A B : Mt α) (K U : Nat)
    (rows cols rows' cols' : List Nat) :
    (∀ n, n < rows.length → n < cols.length → cols.getD n 0 < U →
      (innerAll (flattenM A K) (flattenM B U) K U rows cols).getD n 0 =
        ∑ k in Finset.range K, A (rows.getD n 0) k * B k (cols.getD n 0)) ∧
    (∀ (fa fb : Vc α), (rows.zip cols).Perm (rows'.zip cols') →
      (innerAll fa fb K U rows cols).Perm (innerAll fa fb K U rows' cols')) ∧
    innerAll (flattenM A K) (flattenM B U) K U [] cols' = [] := by
  refine ⟨?_, ?_, rfl⟩
  · intro n h1 h2 h3
    have hz : n < (rows.zip cols).length := by
      rw [List.length_zip]; omega
    rw [innerAll, getD_map_of_lt _ _ _ hz _ (0, 0),
      getD_zip_of_lt rows cols n h1 h2 0 0]
    exact innerEntry_eq_sum A B K U _ _ h3
  · intro fa fb hperm
    exact hperm.map _

/-- Witness for C8: concrete 2-by-2 matrices over the rationals with the
index pair list [(0,1),(1,0)] and its reversal. -/
theorem claim_C8_inner_witness :
    ((0:Nat) < [0, 1].length ∧ (0:Nat) < [1, 0].length ∧
      ([1, 0].getD 0 0 < 2) ∧
      ([(0:Nat), 1].zip [1, 0]).Perm ([(1:Nat), 0].zip [0, 1])) ∧
    (innerAll (flattenM (fun i k => (i + 2 * k : ℚ)) 2)
        (flattenM (fun k u => (3 * k + u : ℚ)) 2) 2 2 [0, 1] [1, 0]).getD 0 0 =
      ∑ k in Finset.range 2,
        (([0,1].getD 0 0 : Nat) + 2 * k : ℚ) * (3 * k + ([1,0].getD 0 0 : Nat)) ∧
    (innerAll (flattenM (fun i k => (i + 2 * k : ℚ)) 2)
        (flattenM (fun k u => (3 * k + u : ℚ)) 2) 2 2 [0, 1] [1, 0]).Perm
      (innerAll (flattenM (fun i k => (i + 2 * k : ℚ)) 2)
        (flattenM (fun k u => (3 * k + u : ℚ)) 2) 2 2 [1, 0] [0, 1]) := by
  have h := claim_C8_inner (fun i k => (i + 2 * k : ℚ))
    (fun k u => (3 * k + u : ℚ)) 2 2 [0, 1] [1, 0] [1, 0] [0, 1]
  refine ⟨⟨by norm_num, by norm_num, by norm_num, by decide⟩, ?_, ?_⟩
  · exact h.1 0 (by norm_num) (by norm_num) (by norm_num)
  · exact h.2.1 _ _ (by decide)

/-! ## Claim C10 -/

/-- C10: whenever theta is not supplied as an ndarray, PoissonMF.fit with
user_fit_type = 'converge_separately' raises NameError before any round
completes: the local observed_user_preferences is assigned only when theta
is an ndarray (fit lines 132-133) yet is read unconditionally in the
argument list of the first _update call of the separate-convergence branch
(line 154).  This holds for every beta, categorywise flag, item fit policy
and zero_untrained_components flag, so the separate-convergence policy is
reachable only with a fixed theta. -/
theorem claim_C10_converge_separately_nameerror {α : Type}
    [LinearOrderedField α] (P : PmfParams α) (nf : NumFuns α)
    (beta : Option (Mt α)) (categorywise : Bool) (ift : ItemFitType)
    (zuc : Bool) :
    pmfFit P nf beta none categorywise ift UserFitType.converge_separately zuc =
      .error .nameError := rfl

/-! ## Claim C3 -/

/-- C3: which matrix feeds the reconstruction-ratio kernel when the item
side is fixed.  (1) In HPoissonMF, _xexplog with an ndarray beta applies
the kernel to the raw expectation Eb (paired with exp(Elogt)), as the
claim states.  (2) In PoissonMF the Eb branch of _xexplog additionally
requires observed_item_attributes, which _update_users never passes: with
a fixed beta (so Elogb is None, per _init_items) the user update evaluates
np.exp(self.Elogb) and dies with TypeError instead of using Eb.  (3) Even
when Elogb and Elogt are present, the call shape used by _update_users
(observed_item_attributes defaulted to False) applies the kernel to
exp(Elogb), never to Eb. -/
theorem claim_C3_fixed_beta_kernel {α : Type} [LinearOrderedField α] :
    (∀ (P : HpmfParams α) (nf : NumFuns α) (st : HpmfState α) (b : Mt α),
      hpmfXexplog P nf st (some b) =
        .ok (innerAll (flattenM st.Eb P.n_components)
          (flattenM (fun k u => nf.expf (st.Elogt k u)) P.n_users)
          P.n_components P.n_users P.rows P.cols)) ∧
    (∀ (P : PmfParams α) (nf : NumFuns α) (st : PmfState α) (b : Mt α)
      (ou : Option OnlyUpd), st.Elogb = none →
      pmfUpdateUsers P nf st (some b) false ou = .error .typeError) ∧
    (∀ (P : PmfParams α) (nf : NumFuns α) (st : PmfState α) (b : Mt α)
      (eb et : Mt α), st.Elogb = some eb → st.Elogt = some et →
      pmfXexplog P nf st (some b) false false =
        .ok (innerAll (flattenM (fun i k => nf.expf (eb i k)) P.n_components)
          (flattenM (fun k u => nf.expf (et k u)) P.n_users)
          P.n_components P.n_users P.rows P.cols)) := by
  refine ⟨fun P nf st b => rfl, ?_, ?_⟩
  · intro P nf st b ou h
    simp only [pmfUpdateUsers, pmfXexplog, h]
    rfl
  · intro P nf st b eb et hb ht
    simp only [pmfXexplog, hb, ht]
    rfl

/-- Witness for C3 at concrete rational states: the blank PoissonMF state
has Elogb = None (as after _init_items with an observed beta), and a state
with both log-expectations present exercises the third conjunct. -/
theorem claim_C3_fixed_beta_kernel_witness :
    (hpmfXexplog cqHpmfP cqNF hpmfBlank (some cqBetaZeroRow) =
      .ok (innerAll (flattenM (hpmfBlank (α := ℚ)).Eb cqHpmfP.n_components)
        (flattenM (fun k u => cqNF.expf ((hpmfBlank (α := ℚ)).Elogt k u))
          cqHpmfP.n_users)
        cqHpmfP.n_components cqHpmfP.n_users cqHpmfP.rows cqHpmfP.cols)) ∧
    ((pmfBlank (α := ℚ)).Elogb = none ∧
      pmfUpdateUsers cqPmfP cqNF pmfBlank (some cqBetaZeroRow) false none =
        .error .typeError) ∧
    pmfXexplog cqPmfP cqNF
      ⟨none, none, fun _ _ => 0, some (fun _ _ => 0), none, none,
        fun _ _ => 0, some (fun _ _ => 0)⟩ (some cqBetaZeroRow) false false =
      .ok (innerAll (flattenM (fun _ _ => cqNF.expf ((0:ℚ))) cqPmfP.n_components)
        (flattenM (fun _ _ => cqNF.expf ((0:ℚ))) cqPmfP.n_users)
        cqPmfP.n_components cqPmfP.n_users cqPmfP.rows cqPmfP.cols) := by
  have h := claim_C3_fixed_beta_kernel (α := ℚ)
  exact ⟨h.1 cqHpmfP cqNF hpmfBlank cqBetaZeroRow,
    ⟨rfl, h.2.1 cqPmfP cqNF pmfBlank cqBetaZeroRow none rfl⟩,
    h.2.2 cqPmfP cqNF _ cqBetaZeroRow (fun _ _ => 0) (fun _ _ => 0) rfl rfl⟩


theorem setMaskM_eval_false {α : Type} (sel : Nat → Nat → Bool) (src m : Mt α)
    (i k : Nat) (h : sel i k = false) : setMaskM sel src m i k = m i k := by
  simp [setMaskM, h]

theorem setMaskM_eval_true {α : Type} (sel : Nat → Nat → Bool) (src m : Mt α)
    (i k : Nat) (h : sel i k = true) : setMaskM sel src m i k = src i k := by
  simp [setMaskM, h]

/-! ## Claim C5 -/

/-- C5: for every call of the item-factor update with a boolean category
mask (an ndarray beta with categorywise on) and update in
{in_category, out_category}, the resulting gamma_b/rho_b are exactly the
pre-call matrices overwritten on the mask-selected subset with the freshly
computed update values (gamma_b_updated, and rho_b_updated spread over the
matrix shape): entries outside the subset are bit-identical to their
pre-call values, entries inside carry the update values.  Stated for
PoissonMF with observed_user_preferences off (conjunct 1) and on
(conjunct 2), and for HPoissonMF (conjunct 3); the hypotheses supply the
attribute values the branch reads and the ratio denominator _xexplog
returns, and `sel` abbreviates the selected subset (the mask for
in_category, its complement for out_category). -/
theorem claim_C5_masked_update_frame {α : Type} [LinearOrderedField α] :
    (∀ (P : PmfParams α) (nf : NumFuns α) (st : PmfState α) (b : Mt α)
      (upd : UpdMode) (g r eb et : Mt α) (xe : List α),
      st.gamma_b = some g → st.rho_b = some r → st.Elogb = some eb →
      st.Elogt = some et →
      pmfXexplog P nf st none false false = .ok xe →
      upd = UpdMode.in_category ∨ upd = UpdMode.out_category →
      ∀ (sel : Nat → Nat → Bool), sel = (fun i k =>
        if upd = UpdMode.in_category then decide (b i k ≠ 0)
        else !decide (b i k ≠ 0)) →
      ∀ (gU rU : Mt α),
      gU = (fun i k => P.c + nf.expf (eb i k) *
        ratioDot P.rows P.cols (List.zipWith (fun x e => x / e) P.xdata xe)
          (fun u kk => nf.expf (et kk u)) i k) →
      rU = (fun i k => P.d + rowSum st.Et P.n_users
        ((i * P.n_components + k) / P.n_items)) →
      (pmfUpdateItems P nf st (some b) true false upd).map
          (fun s => (s.gamma_b, s.rho_b)) =
        .ok (some (setMaskM sel gU g), some (setMaskM sel rU r)) ∧
      (∀ i k, sel i k = false →
        setMaskM sel gU g i k = g i k ∧ setMaskM sel rU r i k = r i k) ∧
      (∀ i k, sel i k = true →
        setMaskM sel gU g i k = gU i k ∧ setMaskM sel rU r i k = rU i k)) ∧
    (∀ (P : PmfParams α) (nf : NumFuns α) (st : PmfState α) (b : Mt α)
      (upd : UpdMode) (g r eb : Mt α) (xe : List α),
      st.gamma_b = some g → st.rho_b = some r → st.Elogb = some eb →
      pmfXexplog P nf st none false true = .ok xe →
      upd = UpdMode.in_category ∨ upd = UpdMode.out_category →
      ∀ (sel : Nat → Nat → Bool), sel = (fun i k =>
        if upd = UpdMode.in_category then decide (b i k ≠ 0)
        else !decide (b i k ≠ 0)) →
      ∀ (gU rU : Mt α),
      gU = (fun i k => P.c + nf.expf (eb i k) *
        ratioDot P.rows P.cols (List.zipWith (fun x e => x / e) P.xdata xe)
          (fun u kk => st.Et kk u) i k) →
      rU = (fun i k => P.d + rowSum st.Et P.n_users
        ((i * P.n_components + k) / P.n_items)) →
      (pmfUpdateItems P nf st (some b) true true upd).map
          (fun s => (s.gamma_b, s.rho_b)) =
        .ok (some (setMaskM sel gU g), some (setMaskM sel rU r)) ∧
      (∀ i k, sel i k = false →
        setMaskM sel gU g i k = g i k ∧ setMaskM sel rU r i k = r i k) ∧
      (∀ i k, sel i k = true →
        setMaskM sel gU g i k = gU i k ∧ setMaskM sel rU r i k = rU i k)) ∧
    (∀ (P : HpmfParams α) (nf : NumFuns α) (st : HpmfState α) (b : Mt α)
      (upd : UpdMode) (g r eb : Mt α) (ee : Vc α) (xe : List α),
      st.gamma_b = some g → st.rho_b = some r → st.Elogb = some eb →
      st.Eeta = some ee →
      hpmfXexplog P nf st none = .ok xe →
      upd = UpdMode.in_category ∨ upd = UpdMode.out_category →
      ∀ (sel : Nat → Nat → Bool), sel = (fun i k =>
        if upd = UpdMode.in_category then decide (b i k ≠ 0)
        else !decide (b i k ≠ 0)) →
      ∀ (gU rU : Mt α),
      gU = (fun i k => P.c + nf.expf (eb i k) *
        ratioDot P.rows P.cols (List.zipWith (fun x e => x / e) P.xdata xe)
          (fun u kk => nf.expf (st.Elogt kk u)) i k) →
      rU = (fun i k => ee i + rowSum st.Et P.n_users k) →
      (hpmfUpdateItems P nf st (some b) true upd).map
          (fun s => (s.gamma_b, s.rho_b)) =
        .ok (some (setMaskM sel gU g), some (setMaskM sel rU r)) ∧
      (∀ i k, sel i k = false →
        setMaskM sel gU g i k = g i k ∧ setMaskM sel rU r i k = r i k) ∧
      (∀ i k, sel i k = true →
        setMaskM sel gU g i k = gU i k ∧ setMaskM sel rU r i k = rU i k)) := by
  refine ⟨?_, ?_, ?_⟩
  · intro P nf st b upd g r eb et xe hg hr hb ht hxe hupd sel hsel gU rU hgU hrU
    subst hsel hgU hrU
    refine ⟨?_, ?_, ?_⟩
    · rcases hupd with rfl | rfl <;>
        · simp only [pmfUpdateItems, hxe, hg, hr, hb, ht]
          rfl
    · intro i k hik
      exact ⟨setMaskM_eval_false _ _ _ i k hik, setMaskM_eval_false _ _ _ i k hik⟩
    · intro i k hik
      exact ⟨setMaskM_eval_true _ _ _ i k hik, setMaskM_eval_true _ _ _ i k hik⟩
  · intro P nf st b upd g r eb xe hg hr hb hxe hupd sel hsel gU rU hgU hrU
    subst hsel hgU hrU
    refine ⟨?_, ?_, ?_⟩
    · rcases hupd with rfl | rfl <;>
        · simp only [pmfUpdateItems, hxe, hg, hr, hb]
          rfl
    · intro i k hik
      exact ⟨setMaskM_eval_false _ _ _ i k hik, setMaskM_eval_false _ _ _ i k hik⟩
    · intro i k hik
      exact ⟨setMaskM_eval_true _ _ _ i k hik, setMaskM_eval_true _ _ _ i k hik⟩
  · intro P nf st b upd g r eb ee xe hg hr hb he hxe hupd sel hsel gU rU hgU hrU
    subst hsel hgU hrU
    refine ⟨?_, ?_, ?_⟩
    · rcases hupd with rfl | rfl <;>
        · simp only [hpmfUpdateItems, hxe, hg, hr, hb, he]
          rfl
    · intro i k hik
      exact ⟨setMaskM_eval_false _ _ _ i k hik, setMaskM_eval_false _ _ _ i k hik⟩
    · intro i k hik
      exact ⟨setMaskM_eval_true _ _ _ i k hik, setMaskM_eval_true _ _ _ i k hik⟩

/-- Witness for C5: the first conjunct applied to a concrete rational
state, an all-ones mask and update = in_category. -/
theorem claim_C5_masked_update_frame_witness :
    (pmfUpdateItems cqPmfP cqNF cqStItems (some (fun _ _ => (1:ℚ))) true false
        UpdMode.in_category).map (fun s => (s.gamma_b, s.rho_b)) =
      .ok
        (some (setMaskM
          (fun i k => if UpdMode.in_category = UpdMode.in_category
            then decide ((fun _ _ => (1:ℚ)) i k ≠ 0)
            else !decide ((fun _ _ => (1:ℚ)) i k ≠ 0))
          (fun i k => cqPmfP.c + cqNF.expf ((fun _ _ => (0:ℚ)) i k) *
            ratioDot cqPmfP.rows cqPmfP.cols
              (List.zipWith (fun x e => x / e) cqPmfP.xdata [1])
              (fun u kk => cqNF.expf ((fun _ _ => (0:ℚ)) kk u)) i k)
          (fun _ _ => (2:ℚ))),
         some (setMaskM
          (fun i k => if UpdMode.in_category = UpdMode.in_category
            then decide ((fun _ _ => (1:ℚ)) i k ≠ 0)
            else !decide ((fun _ _ => (1:ℚ)) i k ≠ 0))
          (fun i k => cqPmfP.d + rowSum cqStItems.Et cqPmfP.n_users
            ((i * cqPmfP.n_components + k) / cqPmfP.n_items))
          (fun _ _ => (3:ℚ)))) :=
  (claim_C5_masked_update_frame.1 cqPmfP cqNF cqStItems (fun _ _ => 1)
    UpdMode.in_category (fun _ _ => 2) (fun _ _ => 3) (fun _ _ => 0)
    (fun _ _ => 0) [1] rfl rfl rfl rfl (by decide) (Or.inl rfl) _ rfl _ _ rfl rfl).1

/-! ## Loop lemmas shared by claims C1 and C2 -/

theorem ebind_ok {ε σ τ : Type} (a : σ) (f : σ → Except ε τ) :
    (Except.ok a >>= f) = f a := rfl

theorem ebind_err {ε σ τ : Type} (e : ε) (f : σ → Except ε τ) :
    ((Except.error e : Except ε σ) >>= f) = .error e := rfl


theorem bind_ne_nan {σ τ : Type} {x : Except PyErr σ} {f : σ → Except PyErr τ}
    (hx : x ≠ .error .nanPll) (hf : ∀ a, f a ≠ .error .nanPll) :
    (x >>= f) ≠ .error .nanPll := by
  cases x with
  | error e =>
      rw [ebind_err]
      intro hcon
      injection hcon with h1
      exact hx (by rw [h1])
  | ok a => rw [ebind_ok]; exact hf a

theorem ok_ne_nan {σ : Type} (a : σ) :
    (Except.ok a : Except PyErr σ) ≠ .error .nanPll := by simp

theorem pure_ne_nan {σ : Type} (a : σ) :
    (pure a : Except PyErr σ) ≠ .error .nanPll := by simp [pure, Except.pure]

theorem expO_ne_nan {α : Type} (nf : NumFuns α) (o : Option (Mt α)) :
    expO nf o ≠ .error .nanPll := by cases o <;> simp [expO]

theorem getO_ne_nan {α : Type} (o : Option (Mt α)) :
    getO o ≠ .error .nanPll := by cases o <;> simp [getO]

theorem readO_ne_nan {β : Type} (e : PyErr) (he : e ≠ .nanPll) (o : Option β) :
    readO e o ≠ .error .nanPll := by
  cases o <;> simp [readO]
  exact he

theorem pmfXexplog_ne_nan {α : Type} [LinearOrderedField α] (P : PmfParams α)
    (nf : NumFuns α) (st : PmfState α) (b : Option (Mt α)) (oia oup : Bool) :
    pmfXexplog P nf st b oia oup ≠ .error .nanPll := by
  unfold pmfXexplog
  split
  · exact bind_ne_nan (expO_ne_nan _ _) (fun a => pure_ne_nan _)
  · split
    · exact bind_ne_nan (expO_ne_nan _ _) (fun a => pure_ne_nan _)
    · exact bind_ne_nan (expO_ne_nan _ _) (fun a =>
        bind_ne_nan (expO_ne_nan _ _) (fun a2 => pure_ne_nan _))

theorem pmfUpdateUsers_ne_nan {α : Type} [LinearOrderedField α] (P : PmfParams α)
    (nf : NumFuns α) (st : PmfState α) (b : Option (Mt α)) (oup : Bool)
    (ou : Option OnlyUpd) : pmfUpdateUsers P nf st b oup ou ≠ .error .nanPll := by
  unfold pmfUpdateUsers
  refine bind_ne_nan (pmfXexplog_ne_nan _ _ _ _ _ _) (fun xe => ?_)
  dsimp only
  split
  · refine bind_ne_nan (pure_ne_nan _) (fun m => ?_)
    dsimp only
    split
    · exact bind_ne_nan (pure_ne_nan _) (fun g => pure_ne_nan _)
    · exact bind_ne_nan (expO_ne_nan _ _) (fun a =>
        bind_ne_nan (pure_ne_nan _) (fun g => pure_ne_nan _))
  · refine bind_ne_nan (expO_ne_nan _ _) (fun m => ?_)
    dsimp only
    split
    · exact bind_ne_nan (pure_ne_nan _) (fun g => pure_ne_nan _)
    · exact bind_ne_nan (expO_ne_nan _ _) (fun a =>
        bind_ne_nan (pure_ne_nan _) (fun g => pure_ne_nan _))

theorem pmfUpdateItems_ne_nan {α : Type} [LinearOrderedField α] (P : PmfParams α)
    (nf : NumFuns α) (st : PmfState α) (b : Option (Mt α)) (cw oup : Bool)
    (upd : UpdMode) : pmfUpdateItems P nf st b cw oup upd ≠ .error .nanPll := by
  unfold pmfUpdateItems
  refine bind_ne_nan (pmfXexplog_ne_nan _ _ _ _ _ _) (fun xe => ?_)
  repeat' first
    | exact pure_ne_nan _
    | exact ok_ne_nan _
    | exact expO_ne_nan _ _
    | exact getO_ne_nan _
    | exact readO_ne_nan _ (by simp) _
    | split
    | refine bind_ne_nan ?_ (fun y => ?_)
    | dsimp only

theorem pmfClamp_ne_nan {α : Type} [LinearOrderedField α] (A : PmfUpdArgs α)
    (c : PmfCtx α) : pmfClamp A c ≠ .error .nanPll := by
  unfold pmfClamp
  refine bind_ne_nan (readO_ne_nan _ (by simp) _) (fun b => ?_)
  dsimp only
  split
  · exact bind_ne_nan (getO_ne_nan _) (fun g =>
      bind_ne_nan (getO_ne_nan _) (fun r => pure_ne_nan _))
  · exact bind_ne_nan (getO_ne_nan _) (fun g =>
      bind_ne_nan (getO_ne_nan _) (fun r => pure_ne_nan _))
  · exact pure_ne_nan _

theorem pmfUserSection_ne_nan {α : Type} [LinearOrderedField α] (P : PmfParams α)
    (nf : NumFuns α) (A : PmfUpdArgs α) (upd : UpdMode) (i : Nat)
    (c : PmfCtx α) : pmfUserSection P nf A upd i c ≠ .error .nanPll := by
  unfold pmfUserSection
  repeat' first
    | exact pure_ne_nan _
    | exact ok_ne_nan _
    | exact pmfUpdateUsers_ne_nan _ _ _ _ _ _
    | split
    | refine bind_ne_nan ?_ (fun y => ?_)
    | dsimp only

theorem pmfItemSection_ne_nan {α : Type} [LinearOrderedField α] (P : PmfParams α)
    (nf : NumFuns α) (A : PmfUpdArgs α) (upd : UpdMode) (i : Nat)
    (c : PmfCtx α) : pmfItemSection P nf A upd i c ≠ .error .nanPll := by
  unfold pmfItemSection
  repeat' first
    | exact pure_ne_nan _
    | exact ok_ne_nan _
    | exact pmfUpdateItems_ne_nan _ _ _ _ _ _ _
    | exact pmfClamp_ne_nan _ _
    | split
    | refine bind_ne_nan ?_ (fun y => ?_)
    | dsimp only

theorem pmfBody_ne_nan {α : Type} [LinearOrderedField α] (P : PmfParams α)
    (nf : NumFuns α) (A : PmfUpdArgs α) (upd : UpdMode) (i : Nat)
    (c : PmfCtx α) : pmfBody P nf A upd i c ≠ .error .nanPll := by
  unfold pmfBody
  exact bind_ne_nan (pmfUserSection_ne_nan _ _ _ _ _ _)
    (fun c1 => pmfItemSection_ne_nan _ _ _ _ _ _)

theorem pmfStopActs_ne_nan {α : Type} [LinearOrderedField α] (A : PmfUpdArgs α)
    (upd : UpdMode)
    (recur : PmfUpdArgs α → UpdMode → PmfState α → Except PyErr (PmfUpdRes α))
    (Hr : ∀ A2 u2 st, recur A2 u2 st ≠ .error .nanPll) (c2 : PmfCtx α) :
    pmfStopActs A upd recur c2 ≠ .error .nanPll := by
  unfold pmfStopActs
  repeat' first
    | exact pure_ne_nan _
    | exact ok_ne_nan _
    | exact Hr _ _ _
    | exact getO_ne_nan _
    | exact readO_ne_nan _ (by simp) _
    | split
    | refine bind_ne_nan ?_ (fun y => ?_)
    | dsimp only

theorem pmf_loop_ne_nan {α : Type} [LinearOrderedField α] (P : PmfParams α)
    (nf : NumFuns α) (A : PmfUpdArgs α) (upd : UpdMode)
    (recur : PmfUpdArgs α → UpdMode → PmfState α → Except PyErr (PmfUpdRes α))
    (Hn : ∀ st, (pmfPredLL P nf st).isnan = false)
    (Hr : ∀ A2 u2 st, recur A2 u2 st ≠ .error .nanPll) :
    ∀ (fuel i : Nat) (old : Fv α) (last : Option (Fv α)) (c : PmfCtx α),
      pmfUpdateLoop P nf A upd recur fuel i old last c ≠ .error .nanPll
  | 0, i, old, last, c => by
      cases last <;> simp [pmfUpdateLoop]
  | fuel' + 1, i, old, last, c => by
      rw [pmfUpdateLoop]
      refine bind_ne_nan (pmfBody_ne_nan _ _ _ _ _ _) (fun c1 => ?_)
      rw [if_neg (by rw [Hn c1.st]; simp)]
      dsimp only
      split
      · exact bind_ne_nan (pmfStopActs_ne_nan _ _ _ Hr _) (fun c3 => ok_ne_nan _)
      · exact pmf_loop_ne_nan P nf A upd recur Hn Hr fuel' (i + 1) _ _ _

theorem pmf_rec_ne_nan {α : Type} [LinearOrderedField α] (P : PmfParams α)
    (nf : NumFuns α) (Hn : ∀ st, (pmfPredLL P nf st).isnan = false) :
    ∀ (rdepth : Nat) (A : PmfUpdArgs α) (upd : UpdMode) (st : PmfState α),
      pmfUpdateRec P nf rdepth A upd st ≠ .error .nanPll
  | 0, A, upd, st => by simp [pmfUpdateRec]
  | rdepth + 1, A, upd, st => by
      rw [pmfUpdateRec]
      exact pmf_loop_ne_nan P nf A upd _ Hn
        (fun A2 u2 st2 => pmf_rec_ne_nan P nf Hn rdepth A2 u2 st2) _ _ _ _ _

theorem hpmfXexplog_ne_nan {α : Type} [LinearOrderedField α] (P : HpmfParams α)
    (nf : NumFuns α) (st : HpmfState α) (b : Option (Mt α)) :
    hpmfXexplog P nf st b ≠ .error .nanPll := by
  unfold hpmfXexplog
  split
  · exact pure_ne_nan _
  · exact bind_ne_nan (expO_ne_nan _ _) (fun a => pure_ne_nan _)

theorem hpmfUpdateUsers_ne_nan {α : Type} [LinearOrderedField α]
    (P : HpmfParams α) (nf : NumFuns α) (st : HpmfState α) (b : Option (Mt α))
    (cw : Bool) : hpmfUpdateUsers P nf st b cw ≠ .error .nanPll := by
  unfold hpmfUpdateUsers
  refine bind_ne_nan (hpmfXexplog_ne_nan _ _ _ _) (fun xe => ?_)
  repeat' first
    | exact pure_ne_nan _
    | exact ok_ne_nan _
    | exact expO_ne_nan _ _
    | split
    | refine bind_ne_nan ?_ (fun y => ?_)
    | dsimp only

theorem hpmfUpdateItems_ne_nan {α : Type} [LinearOrderedField α]
    (P : HpmfParams α) (nf : NumFuns α) (st : HpmfState α) (b : Option (Mt α))
    (cw : Bool) (upd : UpdMode) :
    hpmfUpdateItems P nf st b cw upd ≠ .error .nanPll := by
  unfold hpmfUpdateItems
  refine bind_ne_nan (hpmfXexplog_ne_nan _ _ _ _) (fun xe => ?_)
  repeat' first
    | exact pure_ne_nan _
    | exact ok_ne_nan _
    | exact expO_ne_nan _ _
    | exact getO_ne_nan _
    | exact readO_ne_nan _ (by simp) _
    | split
    | refine bind_ne_nan ?_ (fun y => ?_)
    | dsimp only

theorem hpmfClamp_ne_nan {α : Type} [LinearOrderedField α] (b : Option (Mt α))
    (ift : ItemFitType) (c : HpmfCtx α) :
    hpmfClamp b ift c ≠ .error .nanPll := by
  unfold hpmfClamp
  refine bind_ne_nan (readO_ne_nan _ (by simp) _) (fun bb => ?_)
  dsimp only
  split
  · exact bind_ne_nan (getO_ne_nan _) (fun g =>
      bind_ne_nan (getO_ne_nan _) (fun r => pure_ne_nan _))
  · exact bind_ne_nan (getO_ne_nan _) (fun g =>
      bind_ne_nan (getO_ne_nan _) (fun r => pure_ne_nan _))
  · exact pure_ne_nan _

theorem hpmfItemSection_ne_nan {α : Type} [LinearOrderedField α]
    (P : HpmfParams α) (nf : NumFuns α) (b : Option (Mt α)) (cw : Bool)
    (ift : ItemFitType) (zuc : Bool) (upd : UpdMode) (i : Nat)
    (c : HpmfCtx α) :
    hpmfItemSection P nf b cw ift zuc upd i c ≠ .error .nanPll := by
  unfold hpmfItemSection
  repeat' first
    | exact pure_ne_nan _
    | exact ok_ne_nan _
    | exact hpmfUpdateItems_ne_nan _ _ _ _ _ _
    | exact hpmfClamp_ne_nan _ _ _
    | split
    | refine bind_ne_nan ?_ (fun y => ?_)
    | dsimp only

theorem hpmfBody_ne_nan {α : Type} [LinearOrderedField α] (P : HpmfParams α)
    (nf : NumFuns α) (b : Option (Mt α)) (cw : Bool) (ift : ItemFitType)
    (zuc : Bool) (upd : UpdMode) (i : Nat) (c : HpmfCtx α) :
    hpmfBody P nf b cw ift zuc upd i c ≠ .error .nanPll := by
  unfold hpmfBody
  exact bind_ne_nan (hpmfUpdateUsers_ne_nan _ _ _ _ _)
    (fun s1 => hpmfItemSection_ne_nan _ _ _ _ _ _ _ _ _)

theorem hpmfStopActs_ne_nan {α : Type} [LinearOrderedField α]
    (b : Option (Mt α)) (ift : ItemFitType) (zuc : Bool) (upd : UpdMode)
    (recur : UpdMode → HpmfState α → Except PyErr (HpmfUpdRes α))
    (Hr : ∀ u2 st, recur u2 st ≠ .error .nanPll) (c1 : HpmfCtx α) :
    hpmfStopActs b ift zuc upd recur c1 ≠ .error .nanPll := by
  unfold hpmfStopActs
  repeat' first
    | exact pure_ne_nan _
    | exact ok_ne_nan _
    | exact Hr _ _
    | exact getO_ne_nan _
    | exact readO_ne_nan _ (by simp) _
    | split
    | refine bind_ne_nan ?_ (fun y => ?_)
    | dsimp only

theorem hpmf_loop_ne_nan {α : Type} [LinearOrderedField α] (P : HpmfParams α)
    (nf : NumFuns α) (b : Option (Mt α)) (cw : Bool) (ift : ItemFitType)
    (zuc : Bool) (upd : UpdMode)
    (recur : UpdMode → HpmfState α → Except PyErr (HpmfUpdRes α))
    (Hn : ∀ st, (hpmfPredLL P nf st).isnan = false)
    (Hr : ∀ u2 st, recur u2 st ≠ .error .nanPll) :
    ∀ (fuel i : Nat) (old : Fv α) (c : HpmfCtx α),
      hpmfUpdateLoop P nf b cw ift zuc upd recur fuel i old c ≠ .error .nanPll
  | 0, i, old, c => by simp [hpmfUpdateLoop]
  | fuel' + 1, i, old, c => by
      rw [hpmfUpdateLoop]
      refine bind_ne_nan (hpmfBody_ne_nan _ _ _ _ _ _ _ _ _) (fun c1 => ?_)
      rw [if_neg (by rw [Hn c1.st]; simp)]
      dsimp only
      split
      · exact bind_ne_nan (hpmfStopActs_ne_nan _ _ _ _ _ Hr _)
          (fun c3 => ok_ne_nan _)
      · exact hpmf_loop_ne_nan P nf b cw ift zuc upd recur Hn Hr fuel' (i + 1) _ _

theorem hpmf_rec_ne_nan {α : Type} [LinearOrderedField α] (P : HpmfParams α)
    (nf : NumFuns α) (b : Option (Mt α)) (cw : Bool) (ift : ItemFitType)
    (Hn : ∀ st, (hpmfPredLL P nf st).isnan = false) :
    ∀ (rdepth : Nat) (zuc : Bool) (upd : UpdMode) (st : HpmfState α),
      hpmfUpdateRec P nf b cw ift rdepth zuc upd st ≠ .error .nanPll
  | 0, zuc, upd, st => by simp [hpmfUpdateRec]
  | rdepth + 1, zuc, upd, st => by
      rw [hpmfUpdateRec]
      exact hpmf_loop_ne_nan P nf b cw ift zuc upd _ Hn
        (fun u2 st2 => hpmf_rec_ne_nan P nf b cw ift Hn rdepth false u2 st2)
        _ _ _ _

/-! ## Loop stop characterization (claims C1 and C2) -/

theorem ebind_ok_inv {ε σ τ : Type} {x : Except ε σ} {f : σ → Except ε τ} {b : τ}
    (h : (x >>= f) = .ok b) : ∃ a, x = .ok a ∧ f a = .ok b := by
  cases x with
  | error e => rw [ebind_err] at h; exact Except.noConfusion h
  | ok a => rw [ebind_ok] at h; exact ⟨a, rfl, h⟩

theorem pmf_loop_ok_facts {α : Type} [LinearOrderedField α] (P : PmfParams α)
    (nf : NumFuns α) (A : PmfUpdArgs α) (upd : UpdMode)
    (recur : PmfUpdArgs α → UpdMode → PmfState α → Except PyErr (PmfUpdRes α)) :
    ∀ (fuel i : Nat) (old : Fv α) (last : Option (Fv α)) (c : PmfCtx α)
      (res : PmfUpdRes α),
      pmfUpdateLoop P nf A upd recur fuel i old last c = .ok res →
      res.iters ≤ i + fuel ∧
        ∀ j, res.exitk = .tolStop j → i ≤ j ∧ (j : Int) > P.min_iter
  | 0, i, old, last, c, res => by
      intro h
      cases last with
      | none => simp [pmfUpdateLoop] at h
      | some p =>
          simp only [pmfUpdateLoop] at h
          cases h
          refine ⟨show i ≤ i + 0 by omega, ?_⟩
          intro j hj
          exact ExitK.noConfusion hj
  | fuel' + 1, i, old, last, c, res => by
      intro h
      rw [pmfUpdateLoop] at h
      rcases ebind_ok_inv h with ⟨c1, hb, h⟩
      try dsimp only at h
      split at h
      · exact Except.noConfusion h
      · try dsimp only at h
        split at h
        · rename_i hcond
          rcases ebind_ok_inv h with ⟨c3, hs, h⟩
          try dsimp only at h
          cases h
          refine ⟨show i + 1 ≤ i + (fuel' + 1) by omega, ?_⟩
          intro j hj
          cases hj
          exact ⟨Nat.le_refl i, hcond.2⟩
        · have ih := pmf_loop_ok_facts P nf A upd recur fuel' (i + 1) _ _ _ res h
          refine ⟨by omega, ?_⟩
          intro j hj
          have := ih.2 j hj
          exact ⟨by omega, this.2⟩

theorem hpmf_loop_ok_facts {α : Type} [LinearOrderedField α] (P : HpmfParams α)
    (nf : NumFuns α) (b : Option (Mt α)) (cw : Bool) (ift : ItemFitType)
    (zuc : Bool) (upd : UpdMode)
    (recur : UpdMode → HpmfState α → Except PyErr (HpmfUpdRes α)) :
    ∀ (fuel i : Nat) (old : Fv α) (c : HpmfCtx α) (res : HpmfUpdRes α),
      hpmfUpdateLoop P nf b cw ift zuc upd recur fuel i old c = .ok res →
      res.iters ≤ i + fuel ∧
        ∀ j, res.exitk = .tolStop j → i ≤ j ∧ (j : Int) > P.min_iter
  | 0, i, old, c, res => by
      intro h
      simp only [hpmfUpdateLoop] at h
      cases h
      refine ⟨show i ≤ i + 0 by omega, ?_⟩
      intro j hj
      exact ExitK.noConfusion hj
  | fuel' + 1, i, old, c, res => by
      intro h
      rw [hpmfUpdateLoop] at h
      rcases ebind_ok_inv h with ⟨c1, hb, h⟩
      try dsimp only at h
      split at h
      · exact Except.noConfusion h
      · try dsimp only at h
        split at h
        · rename_i hcond
          rcases ebind_ok_inv h with ⟨c3, hs, h⟩
          try dsimp only at h
          cases h
          refine ⟨show i + 1 ≤ i + (fuel' + 1) by omega, ?_⟩
          intro j hj
          cases hj
          exact ⟨Nat.le_refl i, hcond.2⟩
        · have ih := hpmf_loop_ok_facts P nf b cw ift zuc upd recur fuel' (i + 1) _ _ res h
          refine ⟨by omega, ?_⟩
          intro j hj
          have := ih.2 j hj
          exact ⟨by omega, this.2⟩

/-- Claim C2: in both inference loops, for every iteration i the
tolerance-based stop is taken exactly when the relative improvement
(pred_ll - old_pll)/|old_pll| is below tol AND i > min_iter; it is never
taken at an iteration ≤ min_iter, never on the first iteration (old_pll =
-inf makes the improvement nan, so the comparison is unconditionally a
continue), and the loop halts after at most max_iter iterations. -/
theorem claim_C2_stop_rule {α : Type} [LinearOrderedField α] :
    (∀ (P : PmfParams α) (nf : NumFuns α) (A : PmfUpdArgs α) (upd : UpdMode)
       (recur : PmfUpdArgs α → UpdMode → PmfState α → Except PyErr (PmfUpdRes α))
       (fuel i : Nat) (old : Fv α) (last : Option (Fv α)) (c : PmfCtx α)
       (c1 : PmfCtx α),
       pmfBody P nf A upd i c = .ok c1 →
       (pmfPredLL P nf c1.st).isnan = false →
       ((Fv.flt (fvImprovement (pmfPredLL P nf c1.st) old) (.fin P.tol) = true ∧
           (i : Int) > P.min_iter) →
         ∀ res, pmfUpdateLoop P nf A upd recur (fuel + 1) i old last c = .ok res →
           res.exitk = .tolStop i ∧ res.iters = i + 1) ∧
       (¬(Fv.flt (fvImprovement (pmfPredLL P nf c1.st) old) (.fin P.tol) = true ∧
           (i : Int) > P.min_iter) →
         ∀ res j, pmfUpdateLoop P nf A upd recur (fuel + 1) i old last c = .ok res →
           res.exitk = .tolStop j → i < j) ∧
       (old = .ninf →
         ∀ res j, pmfUpdateLoop P nf A upd recur (fuel + 1) i old last c = .ok res →
           res.exitk = .tolStop j → i < j)) ∧
    (∀ (P : PmfParams α) (nf : NumFuns α) (rdepth : Nat) (A : PmfUpdArgs α)
       (upd : UpdMode) (st : PmfState α) (res : PmfUpdRes α),
       pmfUpdateRec P nf (rdepth + 1) A upd st = .ok res →
       res.iters ≤ P.max_iter ∧
         ∀ j, res.exitk = .tolStop j → (j : Int) > P.min_iter) ∧
    (∀ (P : HpmfParams α) (nf : NumFuns α) (b : Option (Mt α)) (cw : Bool)
       (ift : ItemFitType) (zuc : Bool) (upd : UpdMode)
       (recur : UpdMode → HpmfState α → Except PyErr (HpmfUpdRes α))
       (fuel i : Nat) (old : Fv α) (c : HpmfCtx α) (c1 : HpmfCtx α),
       hpmfBody P nf b cw ift zuc upd i c = .ok c1 →
       (hpmfPredLL P nf c1.st).isnan = false →
       ((Fv.flt (fvImprovement (hpmfPredLL P nf c1.st) old) (.fin P.tol) = true ∧
           (i : Int) > P.min_iter) →
         ∀ res, hpmfUpdateLoop P nf b cw ift zuc upd recur (fuel + 1) i old c = .ok res →
           res.exitk = .tolStop i ∧ res.iters = i + 1) ∧
       (¬(Fv.flt (fvImprovement (hpmfPredLL P nf c1.st) old) (.fin P.tol) = true ∧
           (i : Int) > P.min_iter) →
         ∀ res j, hpmfUpdateLoop P nf b cw ift zuc upd recur (fuel + 1) i old c = .ok res →
           res.exitk = .tolStop j → i < j) ∧
       (old = .ninf →
         ∀ res j, hpmfUpdateLoop P nf b cw ift zuc upd recur (fuel + 1) i old c = .ok res →
           res.exitk = .tolStop j → i < j)) ∧
    (∀ (P : HpmfParams α) (nf : NumFuns α) (b : Option (Mt α)) (cw : Bool)
       (ift : ItemFitType) (rdepth : Nat) (zuc : Bool) (upd : UpdMode)
       (st : HpmfState α) (res : HpmfUpdRes α),
       hpmfUpdateRec P nf b cw ift (rdepth + 1) zuc upd st = .ok res →
       res.iters ≤ P.max_iter ∧
         ∀ j, res.exitk = .tolStop j → (j : Int) > P.min_iter) := by
  refine ⟨?_, ?_, ?_, ?_⟩
  · intro P nf A upd recur fuel i old last c c1 hb hn
    have hcont : ¬(Fv.flt (fvImprovement (pmfPredLL P nf c1.st) old) (.fin P.tol) = true ∧
        (i : Int) > P.min_iter) →
        ∀ res j, pmfUpdateLoop P nf A upd recur (fuel + 1) i old last c = .ok res →
          res.exitk = .tolStop j → i < j := by
      intro hnc res j h hj
      rw [pmfUpdateLoop] at h
      rw [hb, ebind_ok] at h
      try dsimp only at h
      simp only [hn, Bool.false_eq_true, if_false] at h
      rw [if_neg hnc] at h
      have := (pmf_loop_ok_facts P nf A upd recur fuel (i + 1) _ _ _ res h).2 j hj
      omega
    refine ⟨?_, hcont, ?_⟩
    · intro hcond res h
      rw [pmfUpdateLoop] at h
      rw [hb, ebind_ok] at h
      try dsimp only at h
      simp only [hn, Bool.false_eq_true, if_false] at h
      rw [if_pos hcond] at h
      rcases ebind_ok_inv h with ⟨c3, _, h⟩
      try dsimp only at h
      cases h
      exact ⟨rfl, rfl⟩
    · intro hold
      subst hold
      exact hcont (by simp [fvImprovement_ninf_nan, flt_nan_left])
  · intro P nf rdepth A upd st res h
    rw [pmfUpdateRec] at h
    have := pmf_loop_ok_facts P nf A upd _ P.max_iter 0 _ _ _ res h
    exact ⟨by omega, fun j hj => (this.2 j hj).2⟩
  · intro P nf b cw ift zuc upd recur fuel i old c c1 hb hn
    have hcont : ¬(Fv.flt (fvImprovement (hpmfPredLL P nf c1.st) old) (.fin P.tol) = true ∧
        (i : Int) > P.min_iter) →
        ∀ res j, hpmfUpdateLoop P nf b cw ift zuc upd recur (fuel + 1) i old c = .ok res →
          res.exitk = .tolStop j → i < j := by
      intro hnc res j h hj
      rw [hpmfUpdateLoop] at h
      rw [hb, ebind_ok] at h
      try dsimp only at h
      simp only [hn, Bool.false_eq_true, if_false] at h
      rw [if_neg hnc] at h
      have := (hpmf_loop_ok_facts P nf b cw ift zuc upd recur fuel (i + 1) _ _ res h).2 j hj
      omega
    refine ⟨?_, hcont, ?_⟩
    · intro hcond res h
      rw [hpmfUpdateLoop] at h
      rw [hb, ebind_ok] at h
      try dsimp only at h
      simp only [hn, Bool.false_eq_true, if_false] at h
      rw [if_pos hcond] at h
      rcases ebind_ok_inv h with ⟨c3, _, h⟩
      try dsimp only at h
      cases h
      exact ⟨rfl, rfl⟩
    · intro hold
      subst hold
      exact hcont (by simp [fvImprovement_ninf_nan, flt_nan_left])
  · intro P nf b cw ift rdepth zuc upd st res h
    rw [hpmfUpdateRec] at h
    have := hpmf_loop_ok_facts P nf b cw ift zuc upd _ P.max_iter 0 _ _ res h
    exact ⟨by omega, fun j hj => (this.2 j hj).2⟩

set_option maxRecDepth 40000 in
theorem claim_C2_stop_rule_witness :
    ((pmfUpdateLoop cqPmfP cqNF cqA0 .dflt (pmfUpdateRec cqPmfP cqNF 0)
        (0 + 1) 1 (.fin (-1)) (some (.fin (-1))) cqC0).map
      (fun r => (r.exitk, r.iters)) = .ok (.tolStop 1, 2)) ∧
    ((pmfUpdateRec cqPmfP cqNF (0 + 1) cqA0 .dflt cqC0.st).map
      (fun r => decide (r.iters ≤ cqPmfP.max_iter)) = .ok true) ∧
    ((hpmfUpdateLoop cqHpmfP cqNF none false .dflt false .dflt
        (hpmfUpdateRec cqHpmfP cqNF none false .dflt 0 false)
        (0 + 1) 1 (.fin (-1)) cqHC0).map
      (fun r => (r.exitk, r.iters)) = .ok (.tolStop 1, 2)) ∧
    ((hpmfUpdateRec cqHpmfP cqNF none false .dflt (0 + 1) false .dflt cqHC0.st).map
      (fun r => decide (r.iters ≤ cqHpmfP.max_iter)) = .ok true) := by
  refine ⟨?_, ?_, ?_, ?_⟩
  · cases hb : pmfBody cqPmfP cqNF cqA0 .dflt 1 cqC0 with
    | error e =>
        have hok : (pmfBody cqPmfP cqNF cqA0 .dflt 1 cqC0).toOption.isSome = true := by
          decide
        rw [hb] at hok
        exact Bool.noConfusion hok
    | ok c1 =>
        have hn : (pmfPredLL cqPmfP cqNF c1.st).isnan = false := by
          have hm : (pmfBody cqPmfP cqNF cqA0 .dflt 1 cqC0).map
              (fun cc => (pmfPredLL cqPmfP cqNF cc.st).isnan) = .ok false := by decide
          rw [hb] at hm
          simpa [Except.map] using hm
        have hcond : Fv.flt (fvImprovement (pmfPredLL cqPmfP cqNF c1.st) (.fin (-1)))
            (.fin cqPmfP.tol) = true ∧ ((1 : Nat) : Int) > cqPmfP.min_iter := by
          refine ⟨?_, by decide⟩
          have hm : (pmfBody cqPmfP cqNF cqA0 .dflt 1 cqC0).map
              (fun cc => Fv.flt (fvImprovement (pmfPredLL cqPmfP cqNF cc.st) (.fin (-1)))
                (.fin cqPmfP.tol)) = .ok true := by decide
          rw [hb] at hm
          simpa [Except.map] using hm
        cases hstep : pmfUpdateLoop cqPmfP cqNF cqA0 .dflt (pmfUpdateRec cqPmfP cqNF 0)
            (0 + 1) 1 (.fin (-1)) (some (.fin (-1))) cqC0 with
        | error e =>
            have hok : (pmfUpdateLoop cqPmfP cqNF cqA0 .dflt (pmfUpdateRec cqPmfP cqNF 0)
                (0 + 1) 1 (.fin (-1)) (some (.fin (-1))) cqC0).toOption.isSome = true := by
              decide
            rw [hstep] at hok
            exact Bool.noConfusion hok
        | ok r =>
            have hco := ((@claim_C2_stop_rule ℚ _).1 cqPmfP cqNF cqA0 .dflt
              (pmfUpdateRec cqPmfP cqNF 0) 0 1 (.fin (-1)) (some (.fin (-1))) cqC0 c1
              hb hn).1 hcond r hstep
            simp only [Except.map]
            rw [hco.1, hco.2]
  · cases hrun : pmfUpdateRec cqPmfP cqNF (0 + 1) cqA0 .dflt cqC0.st with
    | error e =>
        have hok : (pmfUpdateRec cqPmfP cqNF (0 + 1) cqA0 .dflt cqC0.st).toOption.isSome
            = true := by decide
        rw [hrun] at hok
        exact Bool.noConfusion hok
    | ok r =>
        have h2 := (@claim_C2_stop_rule ℚ _).2.1 cqPmfP cqNF 0 cqA0 .dflt cqC0.st r hrun
        simp only [Except.map]
        rw [decide_eq_true h2.1]
  · cases hb : hpmfBody cqHpmfP cqNF none false .dflt false .dflt 1 cqHC0 with
    | error e =>
        have hok : (hpmfBody cqHpmfP cqNF none false .dflt false .dflt 1
            cqHC0).toOption.isSome = true := by decide
        rw [hb] at hok
        exact Bool.noConfusion hok
    | ok c1 =>
        have hn : (hpmfPredLL cqHpmfP cqNF c1.st).isnan = false := by
          have hm : (hpmfBody cqHpmfP cqNF none false .dflt false .dflt 1 cqHC0).map
              (fun cc => (hpmfPredLL cqHpmfP cqNF cc.st).isnan) = .ok false := by decide
          rw [hb] at hm
          simpa [Except.map] using hm
        have hcond : Fv.flt (fvImprovement (hpmfPredLL cqHpmfP cqNF c1.st) (.fin (-1)))
            (.fin cqHpmfP.tol) = true ∧ ((1 : Nat) : Int) > cqHpmfP.min_iter := by
          refine ⟨?_, by decide⟩
          have hm : (hpmfBody cqHpmfP cqNF none false .dflt false .dflt 1 cqHC0).map
              (fun cc => Fv.flt (fvImprovement (hpmfPredLL cqHpmfP cqNF cc.st) (.fin (-1)))
                (.fin cqHpmfP.tol)) = .ok true := by decide
          rw [hb] at hm
          simpa [Except.map] using hm
        cases hstep : hpmfUpdateLoop cqHpmfP cqNF none false .dflt false .dflt
            (hpmfUpdateRec cqHpmfP cqNF none false .dflt 0 false)
            (0 + 1) 1 (.fin (-1)) cqHC0 with
        | error e =>
            have hok : (hpmfUpdateLoop cqHpmfP cqNF none false .dflt false .dflt
                (hpmfUpdateRec cqHpmfP cqNF none false .dflt 0 false)
                (0 + 1) 1 (.fin (-1)) cqHC0).toOption.isSome = true := by decide
            rw [hstep] at hok
            exact Bool.noConfusion hok
        | ok r =>
            have hco := ((@claim_C2_stop_rule ℚ _).2.2.1 cqHpmfP cqNF none false .dflt
              false .dflt (hpmfUpdateRec cqHpmfP cqNF none false .dflt 0 false) 0 1
              (.fin (-1)) cqHC0 c1 hb hn).1 hcond r hstep
            simp only [Except.map]
            rw [hco.1, hco.2]
  · cases hrun : hpmfUpdateRec cqHpmfP cqNF none false .dflt (0 + 1) false .dflt cqHC0.st with
    | error e =>
        have hok : (hpmfUpdateRec cqHpmfP cqNF none false .dflt (0 + 1) false .dflt
            cqHC0.st).toOption.isSome = true := by decide
        rw [hrun] at hok
        exact Bool.noConfusion hok
    | ok r =>
        have h2 := (@claim_C2_stop_rule ℚ _).2.2.2 cqHpmfP cqNF none false .dflt 0 false
          .dflt cqHC0.st r hrun
        simp only [Except.map]
        rw [decide_eq_true h2.1]

/-- Claim C1 (amended): the inference loops abort immediately, with the
fatal non-retried nan error, exactly when the held-out predictive
log-likelihood at the end of an iteration is NaN: any iteration whose
pred_ll is nan turns the whole run into the nanPll error at once (both
variants), and when pred_ll is never nan no run ever produces that error --
in particular an infinite pred_ll does not abort the fit. -/
theorem claim_C1_nan_abort {α : Type} [LinearOrderedField α] :
    (∀ (P : PmfParams α) (nf : NumFuns α) (A : PmfUpdArgs α) (upd : UpdMode)
       (recur : PmfUpdArgs α → UpdMode → PmfState α → Except PyErr (PmfUpdRes α))
       (fuel i : Nat) (old : Fv α) (last : Option (Fv α)) (c c1 : PmfCtx α),
       pmfBody P nf A upd i c = .ok c1 →
       (pmfPredLL P nf c1.st).isnan = true →
       pmfUpdateLoop P nf A upd recur (fuel + 1) i old last c = .error .nanPll) ∧
    (∀ (P : HpmfParams α) (nf : NumFuns α) (b : Option (Mt α)) (cw : Bool)
       (ift : ItemFitType) (zuc : Bool) (upd : UpdMode)
       (recur : UpdMode → HpmfState α → Except PyErr (HpmfUpdRes α))
       (fuel i : Nat) (old : Fv α) (c c1 : HpmfCtx α),
       hpmfBody P nf b cw ift zuc upd i c = .ok c1 →
       (hpmfPredLL P nf c1.st).isnan = true →
       hpmfUpdateLoop P nf b cw ift zuc upd recur (fuel + 1) i old c = .error .nanPll) ∧
    (∀ (P : PmfParams α) (nf : NumFuns α),
       (∀ st, (pmfPredLL P nf st).isnan = false) →
       ∀ (rdepth : Nat) (A : PmfUpdArgs α) (upd : UpdMode) (st : PmfState α),
         pmfUpdateRec P nf rdepth A upd st ≠ .error .nanPll) ∧
    (∀ (P : HpmfParams α) (nf : NumFuns α) (b : Option (Mt α)) (cw : Bool)
       (ift : ItemFitType),
       (∀ st, (hpmfPredLL P nf st).isnan = false) →
       ∀ (rdepth : Nat) (zuc : Bool) (upd : UpdMode) (st : HpmfState α),
         hpmfUpdateRec P nf b cw ift rdepth zuc upd st ≠ .error .nanPll) := by
  refine ⟨?_, ?_, ?_, ?_⟩
  · intro P nf A upd recur fuel i old last c c1 hb hnan
    rw [pmfUpdateLoop, hb, ebind_ok]
    try dsimp only
    rw [if_pos hnan]
  · intro P nf b cw ift zuc upd recur fuel i old c c1 hb hnan
    rw [hpmfUpdateLoop, hb, ebind_ok]
    try dsimp only
    rw [if_pos hnan]
  · intro P nf Hn rdepth A upd st
    exact pmf_rec_ne_nan P nf Hn rdepth A upd st
  · intro P nf b cw ift Hn rdepth zuc upd st
    exact hpmf_rec_ne_nan P nf b cw ift Hn rdepth zuc upd st

set_option maxRecDepth 40000 in
/-- Counterexample to claim C1 as stated: an HPoissonMF fit whose held-out
predictive log-likelihood is -inf (non-finite) at the end of every
iteration runs through all max_iter = 2 iterations and exits normally --
the loop checks np.isnan only, so it continues past non-finite values. -/
theorem claim_C1_nan_abort_counterexample :
    (hpmfUpdateRun cqHpmfP cqNF (some cqBetaZeroRow) false ItemFitType.dflt false
      UpdMode.dflt (hpmfInitUsers cqHpmfP cqNF
        (hpmfInitItems cqHpmfP cqNF (some cqBetaZeroRow) hpmfBlank))).map
      (fun r => (r.exitk, r.iters, hpmfPredLL cqHpmfP cqNF r.st)) =
      .ok (ExitK.maxed, 2, Fv.ninf) := by decide

theorem claim_C1_nan_abort_witness :
    (pmfUpdateLoop cqPmfNanP cqNF cqA0 .dflt (pmfUpdateRec cqPmfNanP cqNF 0)
      (0 + 1) 0 .ninf none cqCN0 = .error .nanPll) ∧
    (hpmfUpdateLoop cqHpmfNanP cqNF none false .dflt false .dflt
      (hpmfUpdateRec cqHpmfNanP cqNF none false .dflt 0 false)
      (0 + 1) 0 .ninf cqHCN0 = .error .nanPll) ∧
    (pmfUpdateRec cqPmfKZ cqNF 2 cqA0 .dflt cqC0.st ≠ .error .nanPll) ∧
    (hpmfUpdateRec cqHpmfKZ cqNF none false .dflt 2 false .dflt cqHC0.st ≠
      .error .nanPll) := by
  refine ⟨?_, ?_, ?_, ?_⟩
  · cases hb : pmfBody cqPmfNanP cqNF cqA0 .dflt 0 cqCN0 with
    | error e =>
        have hok : (pmfBody cqPmfNanP cqNF cqA0 .dflt 0 cqCN0).toOption.isSome = true := by
          decide
        rw [hb] at hok
        exact Bool.noConfusion hok
    | ok c1 =>
        have hnan : (pmfPredLL cqPmfNanP cqNF c1.st).isnan = true := by
          have hm : (pmfBody cqPmfNanP cqNF cqA0 .dflt 0 cqCN0).map
              (fun cc => (pmfPredLL cqPmfNanP cqNF cc.st).isnan) = .ok true := by decide
          rw [hb] at hm
          simpa [Except.map] using hm
        exact (@claim_C1_nan_abort ℚ _).1 cqPmfNanP cqNF cqA0 .dflt
          (pmfUpdateRec cqPmfNanP cqNF 0) 0 0 .ninf none cqCN0 c1 hb hnan
  · cases hb : hpmfBody cqHpmfNanP cqNF none false .dflt false .dflt 0 cqHCN0 with
    | error e =>
        have hok : (hpmfBody cqHpmfNanP cqNF none false .dflt false .dflt 0
            cqHCN0).toOption.isSome = true := by decide
        rw [hb] at hok
        exact Bool.noConfusion hok
    | ok c1 =>
        have hnan : (hpmfPredLL cqHpmfNanP cqNF c1.st).isnan = true := by
          have hm : (hpmfBody cqHpmfNanP cqNF none false .dflt false .dflt 0 cqHCN0).map
              (fun cc => (hpmfPredLL cqHpmfNanP cqNF cc.st).isnan) = .ok true := by decide
          rw [hb] at hm
          simpa [Except.map] using hm
        exact (@claim_C1_nan_abort ℚ _).2.1 cqHpmfNanP cqNF none false .dflt false .dflt
          (hpmfUpdateRec cqHpmfNanP cqNF none false .dflt 0 false) 0 0 .ninf cqHCN0 c1
          hb hnan
  · exact (@claim_C1_nan_abort ℚ _).2.2.1 cqPmfKZ cqNF (fun st => rfl) 2 cqA0 .dflt cqC0.st
  · exact (@claim_C1_nan_abort ℚ _).2.2.2 cqHpmfKZ cqNF none false .dflt (fun st => rfl)
      2 false .dflt cqHC0.st

/-! ## Fixed observed beta (claim C6) -/

theorem hpmfUpdateUsers_fixedb_frame {α : Type} [LinearOrderedField α]
    (P : HpmfParams α) (nf : NumFuns α) (st : HpmfState α) (b : Mt α)
    (s1 : HpmfState α) (h : hpmfUpdateUsers P nf st (some b) false = .ok s1) :
    s1.Eb = st.Eb ∧ s1.gamma_b = st.gamma_b ∧ s1.rho_b = st.rho_b ∧
    s1.Elogb = st.Elogb ∧ s1.Eeta = st.Eeta ∧ s1.gamma_eta = st.gamma_eta ∧
    s1.rho_eta = st.rho_eta := by
  simp [hpmfUpdateUsers, hpmfXexplog, pure, Except.pure, ebind_ok] at h
  subst h
  exact ⟨rfl, rfl, rfl, rfl, rfl, rfl, rfl⟩

theorem hpmfItemSection_fixedb {α : Type} [LinearOrderedField α]
    (P : HpmfParams α) (nf : NumFuns α) (b : Mt α) (ift : ItemFitType)
    (zuc : Bool) (upd : UpdMode) (i : Nat) (c : HpmfCtx α) :
    hpmfItemSection P nf (some b) false ift zuc upd i c = .ok c := by
  unfold hpmfItemSection
  rw [if_pos ⟨rfl, by simp⟩]
  rfl

theorem hpmfBody_fixedb_frame {α : Type} [LinearOrderedField α]
    (P : HpmfParams α) (nf : NumFuns α) (b : Mt α) (ift : ItemFitType)
    (zuc : Bool) (upd : UpdMode) (i : Nat) (c c1 : HpmfCtx α)
    (h : hpmfBody P nf (some b) false ift zuc upd i c = .ok c1) :
    (c1.st.Eb = c.st.Eb ∧ c1.st.gamma_b = c.st.gamma_b ∧
     c1.st.rho_b = c.st.rho_b ∧ c1.st.Elogb = c.st.Elogb ∧
     c1.st.Eeta = c.st.Eeta ∧ c1.st.gamma_eta = c.st.gamma_eta ∧
     c1.st.rho_eta = c.st.rho_eta) ∧
    (c1.cache_out_gamma = c.cache_out_gamma ∧ c1.cache_out_rho = c.cache_out_rho ∧
     c1.cache_in_gamma = c.cache_in_gamma ∧ c1.cache_in_rho = c.cache_in_rho) := by
  unfold hpmfBody at h
  rcases ebind_ok_inv h with ⟨s1, hu, h⟩
  try dsimp only at h
  rw [hpmfItemSection_fixedb] at h
  cases h
  have hf := hpmfUpdateUsers_fixedb_frame P nf c.st b s1 hu
  exact ⟨⟨hf.1, hf.2.1, hf.2.2.1, hf.2.2.2.1, hf.2.2.2.2.1, hf.2.2.2.2.2.1,
    hf.2.2.2.2.2.2⟩, rfl, rfl, rfl, rfl⟩

theorem epure_bind {ε σ τ : Type} (a : σ) (f : σ → Except ε τ) :
    ((pure a : Except ε σ) >>= f) = f a := rfl

theorem hpmfStopActs_fixedb_frame {α : Type} [LinearOrderedField α]
    (b : Mt α) (ift : ItemFitType) (zuc : Bool) (upd : UpdMode)
    (recur : UpdMode → HpmfState α → Except PyErr (HpmfUpdRes α))
    (Hr : ∀ u2 st2 r2, recur u2 st2 = .ok r2 →
      st2.Eb = b ∧ st2.gamma_b = none ∧ st2.rho_b = none ∧ st2.Elogb = none ∧
        st2.Eeta = none ∧ st2.gamma_eta = none ∧ st2.rho_eta = none →
      r2.st.Eb = b ∧ r2.st.gamma_b = none ∧ r2.st.rho_b = none ∧
        r2.st.Elogb = none ∧ r2.st.Eeta = none ∧ r2.st.gamma_eta = none ∧
        r2.st.rho_eta = none)
    (c1 c3 : HpmfCtx α)
    (hst : c1.st.Eb = b ∧ c1.st.gamma_b = none ∧ c1.st.rho_b = none ∧
      c1.st.Elogb = none ∧ c1.st.Eeta = none ∧ c1.st.gamma_eta = none ∧
      c1.st.rho_eta = none)
    (hca : c1.cache_out_gamma = none ∧ c1.cache_out_rho = none ∧
      c1.cache_in_gamma = none ∧ c1.cache_in_rho = none)
    (h : hpmfStopActs (some b) ift zuc upd recur c1 = .ok c3) :
    (c3.st.Eb = b ∧ c3.st.gamma_b = none ∧ c3.st.rho_b = none ∧
      c3.st.Elogb = none ∧ c3.st.Eeta = none ∧ c3.st.gamma_eta = none ∧
      c3.st.rho_eta = none) ∧
    (c3.cache_out_gamma = none ∧ c3.cache_out_rho = none ∧
      c3.cache_in_gamma = none ∧ c3.cache_in_rho = none) := by
  unfold hpmfStopActs at h
  by_cases h1 : (upd = UpdMode.dflt ∧ ift ≠ ItemFitType.dflt)
  · rw [if_pos h1] at h
    by_cases h2 : ift = ItemFitType.converge_in_category_first
    · subst h2
      rw [if_pos rfl] at h
      cases hz : zuc with
      | true =>
          rw [hz] at h
          rw [hca.1] at h
          simp only [readO, if_true, ebind_err] at h
          exact Except.noConfusion h
      | false =>
          rw [hz] at h
          simp only [Bool.false_eq_true, if_false] at h
          try simp only [epure_bind] at h
          try dsimp only at h
          rcases ebind_ok_inv h with ⟨r2, hr2, h⟩
          try dsimp only at h
          try simp only [epure_bind] at h
          try dsimp only at h
          have hre := Hr _ _ _ hr2 hst
          rw [if_neg (by decide :
            ¬(ItemFitType.converge_in_category_first =
              ItemFitType.converge_out_category_first))] at h
          try simp only [epure_bind] at h
          cases h
          exact ⟨hre, hca⟩
    · rw [if_neg h2] at h
      try simp only [epure_bind] at h
      try dsimp only at h
      by_cases h3 : ift = ItemFitType.converge_out_category_first
      · subst h3
        rw [if_pos rfl] at h
        cases hz : zuc with
        | true =>
            rw [hz] at h
            rw [hca.2.2.1] at h
            simp only [readO, if_true, ebind_err] at h
            exact Except.noConfusion h
        | false =>
            rw [hz] at h
            simp only [Bool.false_eq_true, if_false] at h
            try simp only [epure_bind] at h
            try dsimp only at h
            rcases ebind_ok_inv h with ⟨r2, hr2, h⟩
            try dsimp only at h
            try simp only [epure_bind] at h
            try dsimp only at h
            try simp only [epure_bind] at h
            cases h
            have hre := Hr _ _ _ hr2 hst
            exact ⟨hre, hca⟩
      · rw [if_neg h3] at h
        try simp only [epure_bind] at h
        cases h
        exact ⟨hst, hca⟩
  · rw [if_neg h1] at h
    cases h
    exact ⟨hst, hca⟩

theorem hpmf_loop_fixedb_frame {α : Type} [LinearOrderedField α]
    (P : HpmfParams α) (nf : NumFuns α) (b : Mt α) (ift : ItemFitType)
    (zuc : Bool) (upd : UpdMode)
    (recur : UpdMode → HpmfState α → Except PyErr (HpmfUpdRes α))
    (Hr : ∀ u2 st2 r2, recur u2 st2 = .ok r2 →
      st2.Eb = b ∧ st2.gamma_b = none ∧ st2.rho_b = none ∧ st2.Elogb = none ∧
        st2.Eeta = none ∧ st2.gamma_eta = none ∧ st2.rho_eta = none →
      r2.st.Eb = b ∧ r2.st.gamma_b = none ∧ r2.st.rho_b = none ∧
        r2.st.Elogb = none ∧ r2.st.Eeta = none ∧ r2.st.gamma_eta = none ∧
        r2.st.rho_eta = none) :
    ∀ (fuel i : Nat) (old : Fv α) (c : HpmfCtx α) (res : HpmfUpdRes α),
      hpmfUpdateLoop P nf (some b) false ift zuc upd recur fuel i old c = .ok res →
      (c.st.Eb = b ∧ c.st.gamma_b = none ∧ c.st.rho_b = none ∧
        c.st.Elogb = none ∧ c.st.Eeta = none ∧ c.st.gamma_eta = none ∧
        c.st.rho_eta = none) →
      (c.cache_out_gamma = none ∧ c.cache_out_rho = none ∧
        c.cache_in_gamma = none ∧ c.cache_in_rho = none) →
      res.st.Eb = b ∧ res.st.gamma_b = none ∧ res.st.rho_b = none ∧
        res.st.Elogb = none ∧ res.st.Eeta = none ∧ res.st.gamma_eta = none ∧
        res.st.rho_eta = none
  | 0, i, old, c, res => by
      intro h hst hca
      simp only [hpmfUpdateLoop] at h
      cases h
      exact hst
  | fuel' + 1, i, old, c, res => by
      intro h hst hca
      rw [hpmfUpdateLoop] at h
      rcases ebind_ok_inv h with ⟨c1, hb, h⟩
      try dsimp only at h
      have hbf := hpmfBody_fixedb_frame P nf b ift zuc upd i c c1 hb
      have hst1 : c1.st.Eb = b ∧ c1.st.gamma_b = none ∧ c1.st.rho_b = none ∧
          c1.st.Elogb = none ∧ c1.st.Eeta = none ∧ c1.st.gamma_eta = none ∧
          c1.st.rho_eta = none :=
        ⟨hbf.1.1.trans hst.1, hbf.1.2.1.trans hst.2.1, hbf.1.2.2.1.trans hst.2.2.1,
         hbf.1.2.2.2.1.trans hst.2.2.2.1, hbf.1.2.2.2.2.1.trans hst.2.2.2.2.1,
         hbf.1.2.2.2.2.2.1.trans hst.2.2.2.2.2.1,
         hbf.1.2.2.2.2.2.2.trans hst.2.2.2.2.2.2⟩
      have hca1 : c1.cache_out_gamma = none ∧ c1.cache_out_rho = none ∧
          c1.cache_in_gamma = none ∧ c1.cache_in_rho = none :=
        ⟨hbf.2.1.trans hca.1, hbf.2.2.1.trans hca.2.1,
         hbf.2.2.2.1.trans hca.2.2.1, hbf.2.2.2.2.trans hca.2.2.2⟩
      cases hnn : (hpmfPredLL P nf c1.st).isnan with
      | true =>
          rw [if_pos hnn] at h
          exact Except.noConfusion h
      | false =>
          rw [if_neg (by simp [hnn])] at h
          try dsimp only at h
          by_cases hc : (Fv.flt (fvImprovement (hpmfPredLL P nf c1.st) old)
              (.fin P.tol) = true ∧ (i : Int) > P.min_iter)
          · rw [if_pos hc] at h
            rcases ebind_ok_inv h with ⟨c3, hs, h⟩
            try dsimp only at h
            cases h
            exact (hpmfStopActs_fixedb_frame b ift zuc upd recur Hr c1 c3 hst1
              hca1 hs).1
          · rw [if_neg hc] at h
            exact hpmf_loop_fixedb_frame P nf b ift zuc upd recur Hr fuel'
              (i + 1) _ c1 res h hst1 hca1

theorem hpmf_rec_fixedb_frame {α : Type} [LinearOrderedField α]
    (P : HpmfParams α) (nf : NumFuns α) (b : Mt α) (ift : ItemFitType) :
    ∀ (rdepth : Nat) (zuc : Bool) (upd : UpdMode) (st : HpmfState α)
      (res : HpmfUpdRes α),
      hpmfUpdateRec P nf (some b) false ift rdepth zuc upd st = .ok res →
      (st.Eb = b ∧ st.gamma_b = none ∧ st.rho_b = none ∧ st.Elogb = none ∧
        st.Eeta = none ∧ st.gamma_eta = none ∧ st.rho_eta = none) →
      res.st.Eb = b ∧ res.st.gamma_b = none ∧ res.st.rho_b = none ∧
        res.st.Elogb = none ∧ res.st.Eeta = none ∧ res.st.gamma_eta = none ∧
        res.st.rho_eta = none
  | 0, zuc, upd, st, res => by
      intro h hst
      simp [hpmfUpdateRec] at h
  | rdepth + 1, zuc, upd, st, res => by
      intro h hst
      rw [hpmfUpdateRec] at h
      exact hpmf_loop_fixedb_frame P nf b ift zuc upd _
        (fun u2 st2 r2 h2 hst2 =>
          hpmf_rec_fixedb_frame P nf b ift rdepth false u2 st2 r2 h2 hst2)
        P.max_iter 0 .ninf _ res h hst ⟨rfl, rfl, rfl, rfl⟩

/-- _update_users with observed_user_preferences off and a None Elogb
raises TypeError inside _xexplog (np.exp(None)), whatever beta and
only_update are passed. -/
theorem pmfUpdateUsers_Elogb_none {α : Type} [LinearOrderedField α]
    (P : PmfParams α) (nf : NumFuns α) (st : PmfState α) (b' : Option (Mt α))
    (ou : Option OnlyUpd) (hE : st.Elogb = none) :
    pmfUpdateUsers P nf st b' false ou = .error .typeError := by
  simp [pmfUpdateUsers, pmfXexplog, hE, expO, ebind_err]

/-- A PoissonMF fixed-beta fit (categorywise off, default user_fit_type)
never completes: _init_items discards Elogb, and the first _update_users
call of the first iteration raises TypeError. -/
theorem pmfFit_fixedb_dflt_crash {α : Type} [LinearOrderedField α]
    (P : PmfParams α) (nf : NumFuns α) (b : Mt α) (ift : ItemFitType)
    (zuc : Bool) (hmax : 0 < P.max_iter) :
    pmfFit P nf (some b) none false ift UserFitType.dflt zuc =
      .error .typeError := by
  have hE : (pmfInitUsers P nf none
      (pmfInitItems P nf (some b) false pmfBlank)).Elogb = none := by
    simp [pmfInitUsers, pmfInitItems]
  have hus : pmfUserSection P nf
      ⟨some b, none, false, false, ift, .dflt, zuc, .no_init, none⟩ .dflt 0
      ⟨pmfInitUsers P nf none (pmfInitItems P nf (some b) false pmfBlank),
       pmfBestInit, none, none, none, none⟩ = .error .typeError := by
    unfold pmfUserSection
    rw [if_neg (by simp)]
    rw [if_neg (by simp)]
    try dsimp only
    rw [pmfUpdateUsers_Elogb_none P nf _ (some b) none hE]
    rfl
  have hbody : pmfBody P nf
      ⟨some b, none, false, false, ift, .dflt, zuc, .no_init, none⟩ .dflt 0
      ⟨pmfInitUsers P nf none (pmfInitItems P nf (some b) false pmfBlank),
       pmfBestInit, none, none, none, none⟩ = .error .typeError := by
    unfold pmfBody
    rw [hus, ebind_err]
  have hrec : pmfUpdateRec P nf 2
      ⟨some b, none, false, false, ift, .dflt, zuc, .no_init, none⟩ .dflt
      (pmfInitUsers P nf none (pmfInitItems P nf (some b) false pmfBlank)) =
      .error .typeError := by
    rw [show (2 : Nat) = 1 + 1 from rfl, pmfUpdateRec]
    cases hm : P.max_iter with
    | zero => rw [hm] at hmax; exact absurd hmax (by omega)
    | succ m =>
        rw [pmfUpdateLoop]
        rw [hbody, ebind_err]
  unfold pmfFit pmfUpdateRun
  rw [if_neg (by simp)]
  try dsimp only
  rw [hrec, ebind_err]

/-- Claim C6 (amended): with a fixed observed item matrix beta
(categorywise off) the item side is excluded from the update rotation in
both variants: the PoissonMF item section is the identity, both _init_items
calls install beta as Eb with the shape/rate/log-expectation (and, for
HPoissonMF, the eta hyperprior) state set to None, every HPoissonMF
iteration leaves the item side untouched, and a successful HPoissonMF fit
returns Eb equal to the supplied beta exactly with the item variational
state still None.  A PoissonMF fixed-beta fit, however, never completes:
its first user update reads the Elogb that _init_items discarded and
raises TypeError (conjunct 6), so the end-of-fit guarantee is realized
only by HPoissonMF. -/
theorem claim_C6_fixed_beta {α : Type} [LinearOrderedField α] :
    (∀ (P : PmfParams α) (nf : NumFuns α) (A : PmfUpdArgs α) (upd : UpdMode)
       (i : Nat) (c : PmfCtx α),
       A.beta.isSome = true → A.categorywise = false →
       pmfItemSection P nf A upd i c = .ok c) ∧
    (∀ (P : PmfParams α) (nf : NumFuns α) (b : Mt α) (st : PmfState α),
       (pmfInitItems P nf (some b) false st).Eb = b ∧
       (pmfInitItems P nf (some b) false st).gamma_b = none ∧
       (pmfInitItems P nf (some b) false st).rho_b = none ∧
       (pmfInitItems P nf (some b) false st).Elogb = none) ∧
    (∀ (P : HpmfParams α) (nf : NumFuns α) (b : Mt α) (st : HpmfState α),
       (hpmfInitItems P nf (some b) st).Eb = b ∧
       (hpmfInitItems P nf (some b) st).gamma_b = none ∧
       (hpmfInitItems P nf (some b) st).rho_b = none ∧
       (hpmfInitItems P nf (some b) st).Elogb = none ∧
       (hpmfInitItems P nf (some b) st).Eeta = none ∧
       (hpmfInitItems P nf (some b) st).gamma_eta = none ∧
       (hpmfInitItems P nf (some b) st).rho_eta = none) ∧
    (∀ (P : HpmfParams α) (nf : NumFuns α) (b : Mt α) (ift : ItemFitType)
       (zuc : Bool) (upd : UpdMode) (i : Nat) (c c1 : HpmfCtx α),
       hpmfBody P nf (some b) false ift zuc upd i c = .ok c1 →
       c1.st.Eb = c.st.Eb ∧ c1.st.gamma_b = c.st.gamma_b ∧
       c1.st.rho_b = c.st.rho_b ∧ c1.st.Elogb = c.st.Elogb ∧
       c1.st.Eeta = c.st.Eeta ∧ c1.st.gamma_eta = c.st.gamma_eta ∧
       c1.st.rho_eta = c.st.rho_eta) ∧
    (∀ (P : HpmfParams α) (nf : NumFuns α) (b : Mt α) (ift : ItemFitType)
       (zuc : Bool) (stf : HpmfState α),
       hpmfFit P nf (some b) false ift zuc = .ok stf →
       stf.Eb = b ∧ stf.gamma_b = none ∧ stf.rho_b = none ∧ stf.Elogb = none ∧
       stf.Eeta = none ∧ stf.gamma_eta = none ∧ stf.rho_eta = none) ∧
    (∀ (P : PmfParams α) (nf : NumFuns α) (b : Mt α) (ift : ItemFitType)
       (zuc : Bool), 0 < P.max_iter →
       pmfFit P nf (some b) none false ift UserFitType.dflt zuc =
         .error .typeError) := by
  refine ⟨?_, ?_, ?_, ?_, ?_, ?_⟩
  · intro P nf A upd i c h1 h2
    unfold pmfItemSection
    rw [if_pos (Or.inl ⟨h1, by simp [h2]⟩)]
    rfl
  · intro P nf b st
    refine ⟨?_, ?_, ?_, ?_⟩ <;> simp [pmfInitItems]
  · intro P nf b st
    exact ⟨rfl, rfl, rfl, rfl, rfl, rfl, rfl⟩
  · intro P nf b ift zuc upd i c c1 h
    exact (hpmfBody_fixedb_frame P nf b ift zuc upd i c c1 h).1
  · intro P nf b ift zuc stf h
    unfold hpmfFit at h
    rcases ebind_ok_inv h with ⟨r, hr, h⟩
    try dsimp only at h
    cases h
    unfold hpmfUpdateRun at hr
    exact hpmf_rec_fixedb_frame P nf b ift 2 zuc .dflt _ r hr
      ⟨rfl, rfl, rfl, rfl, rfl, rfl, rfl⟩
  · intro P nf b ift zuc hmax
    exact pmfFit_fixedb_dflt_crash P nf b ift zuc hmax

/-- Counterexample to claim C6 as stated: supplying a fixed observed beta
to PoissonMF.fit (categorywise off) does not produce a fit whose Eb equals
beta -- the fit raises TypeError in its first iteration and produces no
fit at all. -/
theorem claim_C6_counterexample :
    (pmfFit cqPmfP cqNF (some cqBetaZeroRow) none false .dflt .dflt
      false).map (fun _ => true) = .error .typeError := by decide

set_option maxRecDepth 40000 in
theorem claim_C6_fixed_beta_witness :
    (pmfItemSection cqPmfP cqNF cqAB .dflt 0 cqC0 = .ok cqC0) ∧
    ((pmfInitItems cqPmfP cqNF (some cqBetaZeroRow) false pmfBlank).Eb =
        cqBetaZeroRow ∧
      (pmfInitItems cqPmfP cqNF (some cqBetaZeroRow) false pmfBlank).gamma_b = none ∧
      (pmfInitItems cqPmfP cqNF (some cqBetaZeroRow) false pmfBlank).rho_b = none ∧
      (pmfInitItems cqPmfP cqNF (some cqBetaZeroRow) false pmfBlank).Elogb = none) ∧
    ((hpmfInitItems cqHpmfP cqNF (some cqBetaZeroRow) hpmfBlank).Eb = cqBetaZeroRow) ∧
    ((hpmfBody cqHpmfP cqNF (some cqBetaZeroRow) false .dflt false .dflt 0 cqHB0).map
        (fun cc => (cc.st.gamma_b, cc.st.rho_b, cc.st.Elogb)) =
      .ok (none, none, none)) ∧
    ((hpmfFit cqHpmfP cqNF (some cqBetaZeroRow) false .dflt false).map
        (fun st => (st.Eb 0 0, st.Eb 1 0, st.gamma_b, st.rho_b, st.Elogb)) =
      .ok (1, 0, none, none, none)) ∧
    ((pmfFit cqPmfP cqNF (some cqBetaZeroRow) none false .alternating_updates
        .dflt false).map (fun _ => true) = .error .typeError) := by
  refine ⟨?_, ?_, ?_, ?_, ?_, ?_⟩
  · exact (@claim_C6_fixed_beta ℚ _).1 cqPmfP cqNF cqAB .dflt 0 cqC0 rfl rfl
  · exact (@claim_C6_fixed_beta ℚ _).2.1 cqPmfP cqNF cqBetaZeroRow pmfBlank
  · exact ((@claim_C6_fixed_beta ℚ _).2.2.1 cqHpmfP cqNF cqBetaZeroRow hpmfBlank).1
  · cases hb : hpmfBody cqHpmfP cqNF (some cqBetaZeroRow) false .dflt false .dflt 0 cqHB0 with
    | error e =>
        have hok : (hpmfBody cqHpmfP cqNF (some cqBetaZeroRow) false .dflt false .dflt 0
            cqHB0).toOption.isSome = true := by decide
        rw [hb] at hok
        exact Bool.noConfusion hok
    | ok c1 =>
        have h4 := (@claim_C6_fixed_beta ℚ _).2.2.2.1 cqHpmfP cqNF cqBetaZeroRow .dflt
          false .dflt 0 cqHB0 c1 hb
        simp only [Except.map]
        rw [h4.2.1, h4.2.2.1, h4.2.2.2.1]
        rfl
  · cases hfit : hpmfFit cqHpmfP cqNF (some cqBetaZeroRow) false .dflt false with
    | error e =>
        have hok : (hpmfFit cqHpmfP cqNF (some cqBetaZeroRow) false .dflt
            false).toOption.isSome = true := by decide
        rw [hfit] at hok
        exact Bool.noConfusion hok
    | ok stf =>
        have h5 := (@claim_C6_fixed_beta ℚ _).2.2.2.2.1 cqHpmfP cqNF cqBetaZeroRow
          .dflt false stf hfit
        simp only [Except.map]
        rw [h5.1, h5.2.1, h5.2.2.1, h5.2.2.2.1]
        rfl
  · rw [(@claim_C6_fixed_beta ℚ _).2.2.2.2.2 cqPmfP cqNF cqBetaZeroRow
      .alternating_updates false (by decide)]
    rfl

/-! ## Clamp scheduling under the converge-first policies (claim C4) -/

theorem pmfClamp_convIn_spec {α : Type} [LinearOrderedField α] (A : PmfUpdArgs α)
    (c : PmfCtx α) (b g r : Mt α)
    (hift : A.item_fit_type = ItemFitType.converge_in_category_first)
    (hbeta : A.beta = some b)
    (hg : c.st.gamma_b = some g) (hr : c.st.rho_b = some r) :
    ∀ c2, pmfClamp A c = .ok c2 →
      c2.st.gamma_b =
        some (setMaskC (fun ii kk => ! decide (b ii kk ≠ 0)) small_num g) ∧
      c2.st.rho_b =
        some (setMaskC (fun ii kk => ! decide (b ii kk ≠ 0)) small_num r) ∧
      c2.cache_out_gamma = some g ∧ c2.cache_out_rho = some r ∧
      c2.st.Eb = c.st.Eb ∧ c2.st.Elogb = c.st.Elogb := by
  intro c2 h
  unfold pmfClamp at h
  rw [hbeta] at h
  simp only [readO, ebind_ok] at h
  try dsimp only at h
  rw [hift] at h
  try dsimp only at h
  rw [hg] at h
  simp only [getO, ebind_ok] at h
  try dsimp only at h
  rw [hr] at h
  simp only [getO, ebind_ok] at h
  try dsimp only at h
  cases h
  exact ⟨rfl, rfl, rfl, rfl, rfl, rfl⟩

theorem hpmfClamp_convIn_spec {α : Type} [LinearOrderedField α]
    (c : HpmfCtx α) (b g r : Mt α)
    (hg : c.st.gamma_b = some g) (hr : c.st.rho_b = some r) :
    ∀ c2, hpmfClamp (some b) ItemFitType.converge_in_category_first c = .ok c2 →
      c2.st.gamma_b =
        some (setMaskC (fun ii kk => ! decide (b ii kk ≠ 0)) small_num g) ∧
      c2.st.rho_b =
        some (setMaskC (fun ii kk => ! decide (b ii kk ≠ 0)) small_num r) ∧
      c2.cache_out_gamma = some g ∧ c2.cache_out_rho = some r ∧
      c2.st.Eb = c.st.Eb ∧ c2.st.Elogb = c.st.Elogb := by
  intro c2 h
  unfold hpmfClamp at h
  simp only [readO, ebind_ok] at h
  try dsimp only at h
  rw [hg] at h
  simp only [getO, ebind_ok] at h
  try dsimp only at h
  rw [hr] at h
  simp only [getO, ebind_ok] at h
  try dsimp only at h
  cases h
  exact ⟨rfl, rfl, rfl, rfl, rfl, rfl⟩

theorem hpmfUpdateItems_Elogb_none {α : Type} [LinearOrderedField α]
    (P : HpmfParams α) (nf : NumFuns α) (st : HpmfState α) (b' : Option (Mt α))
    (cw : Bool) (upd : UpdMode) (hE : st.Elogb = none) :
    hpmfUpdateItems P nf st b' cw upd = .error .typeError := by
  unfold hpmfUpdateItems hpmfXexplog
  rw [if_neg (by simp)]
  rw [hE]
  simp [expO, ebind_err]

theorem hpmfItemSection_cw_convIn_crash {α : Type} [LinearOrderedField α]
    (P : HpmfParams α) (nf : NumFuns α) (b : Mt α) (zuc : Bool) (c : HpmfCtx α)
    (hE : c.st.Elogb = none) :
    hpmfItemSection P nf (some b) true ItemFitType.converge_in_category_first
      zuc UpdMode.dflt 0 c = .error .typeError := by
  unfold hpmfItemSection
  rw [if_neg (by simp)]
  rw [if_pos (by decide)]
  rw [if_neg (by simp)]
  rw [epure_bind]
  try dsimp only
  rw [if_neg (by simp)]
  rw [if_pos ⟨rfl, rfl, rfl⟩]
  rw [if_pos rfl]
  rw [hpmfUpdateItems_Elogb_none P nf c.st (some b) true .in_category hE]
  rfl

theorem hpmfUpdateUsers_fixedb_ok {α : Type} [LinearOrderedField α]
    (P : HpmfParams α) (nf : NumFuns α) (st : HpmfState α) (b : Mt α) :
    ∃ s1, hpmfUpdateUsers P nf st (some b) false = .ok s1 := ⟨_, rfl⟩

theorem hpmfFit_cw_convIn_crash {α : Type} [LinearOrderedField α]
    (P : HpmfParams α) (nf : NumFuns α) (b : Mt α) (zuc : Bool)
    (hmax : 0 < P.max_iter) :
    hpmfFit P nf (some b) true ItemFitType.converge_in_category_first zuc =
      .error .typeError := by
  obtain ⟨s1, hu⟩ := hpmfUpdateUsers_fixedb_ok P nf
    (hpmfInitUsers P nf (hpmfInitItems P nf (some b) hpmfBlank)) b
  have hs1E : s1.Elogb = none := by
    have hf := hpmfUpdateUsers_fixedb_frame P nf
      (hpmfInitUsers P nf (hpmfInitItems P nf (some b) hpmfBlank)) b s1 hu
    exact hf.2.2.2.1.trans rfl
  have hbody : hpmfBody P nf (some b) true ItemFitType.converge_in_category_first
      zuc UpdMode.dflt 0
      ⟨hpmfInitUsers P nf (hpmfInitItems P nf (some b) hpmfBlank),
       none, none, none, none⟩ = .error .typeError := by
    unfold hpmfBody
    rw [hu, ebind_ok]
    try dsimp only
    exact hpmfItemSection_cw_convIn_crash P nf b zuc _ hs1E
  have hrec : hpmfUpdateRec P nf (some b) true ItemFitType.converge_in_category_first
      2 zuc UpdMode.dflt
      (hpmfInitUsers P nf (hpmfInitItems P nf (some b) hpmfBlank)) =
      .error .typeError := by
    rw [show (2 : Nat) = 1 + 1 from rfl, hpmfUpdateRec]
    cases hm : P.max_iter with
    | zero => rw [hm] at hmax; exact absurd hmax (by omega)
    | succ m =>
        rw [hpmfUpdateLoop]
        rw [hbody, ebind_err]
  unfold hpmfFit hpmfUpdateRun
  try dsimp only
  rw [hrec, ebind_err]

theorem pmfClamp_convOut_spec {α : Type} [LinearOrderedField α] (A : PmfUpdArgs α)
    (c : PmfCtx α) (b g r : Mt α)
    (hift : A.item_fit_type = ItemFitType.converge_out_category_first)
    (hbeta : A.beta = some b)
    (hg : c.st.gamma_b = some g) (hr : c.st.rho_b = some r) :
    ∀ c2, pmfClamp A c = .ok c2 →
      c2.st.gamma_b =
        some (setMaskC (fun ii kk => decide (b ii kk ≠ 0)) small_num g) ∧
      c2.st.rho_b =
        some (setMaskC (fun ii kk => decide (b ii kk ≠ 0)) small_num r) ∧
      c2.cache_in_gamma = some g ∧ c2.cache_in_rho = some r ∧
      c2.st.Eb = c.st.Eb ∧ c2.st.Elogb = c.st.Elogb := by
  intro c2 h
  unfold pmfClamp at h
  rw [hbeta] at h
  simp only [readO, ebind_ok] at h
  try dsimp only at h
  rw [hift] at h
  try dsimp only at h
  rw [hg] at h
  simp only [getO, ebind_ok] at h
  try dsimp only at h
  rw [hr] at h
  simp only [getO, ebind_ok] at h
  try dsimp only at h
  cases h
  exact ⟨rfl, rfl, rfl, rfl, rfl, rfl⟩

theorem hpmfClamp_convOut_spec {α : Type} [LinearOrderedField α]
    (c : HpmfCtx α) (b g r : Mt α)
    (hg : c.st.gamma_b = some g) (hr : c.st.rho_b = some r) :
    ∀ c2, hpmfClamp (some b) ItemFitType.converge_out_category_first c = .ok c2 →
      c2.st.gamma_b =
        some (setMaskC (fun ii kk => decide (b ii kk ≠ 0)) small_num g) ∧
      c2.st.rho_b =
        some (setMaskC (fun ii kk => decide (b ii kk ≠ 0)) small_num r) ∧
      c2.cache_in_gamma = some g ∧ c2.cache_in_rho = some r ∧
      c2.st.Eb = c.st.Eb ∧ c2.st.Elogb = c.st.Elogb := by
  intro c2 h
  unfold hpmfClamp at h
  simp only [readO, ebind_ok] at h
  try dsimp only at h
  rw [hg] at h
  simp only [getO, ebind_ok] at h
  try dsimp only at h
  rw [hr] at h
  simp only [getO, ebind_ok] at h
  try dsimp only at h
  cases h
  exact ⟨rfl, rfl, rfl, rfl, rfl, rfl⟩

theorem hpmfItemSection_cw_convOut_crash {α : Type} [LinearOrderedField α]
    (P : HpmfParams α) (nf : NumFuns α) (b : Mt α) (zuc : Bool) (c : HpmfCtx α)
    (hE : c.st.Elogb = none) :
    hpmfItemSection P nf (some b) true ItemFitType.converge_out_category_first
      zuc UpdMode.dflt 0 c = .error .typeError := by
  unfold hpmfItemSection
  rw [if_neg (by simp)]
  rw [if_pos (by decide)]
  rw [if_neg (by simp)]
  rw [epure_bind]
  try dsimp only
  rw [if_neg (by simp)]
  rw [if_neg (by simp)]
  rw [if_pos ⟨rfl, rfl, rfl⟩]
  rw [if_pos rfl]
  rw [hpmfUpdateItems_Elogb_none P nf c.st (some b) true .out_category hE]
  rfl

theorem hpmfFit_cw_convOut_crash {α : Type} [LinearOrderedField α]
    (P : HpmfParams α) (nf : NumFuns α) (b : Mt α) (zuc : Bool)
    (hmax : 0 < P.max_iter) :
    hpmfFit P nf (some b) true ItemFitType.converge_out_category_first zuc =
      .error .typeError := by
  obtain ⟨s1, hu⟩ := hpmfUpdateUsers_fixedb_ok P nf
    (hpmfInitUsers P nf (hpmfInitItems P nf (some b) hpmfBlank)) b
  have hs1E : s1.Elogb = none := by
    have hf := hpmfUpdateUsers_fixedb_frame P nf
      (hpmfInitUsers P nf (hpmfInitItems P nf (some b) hpmfBlank)) b s1 hu
    exact hf.2.2.2.1.trans rfl
  have hbody : hpmfBody P nf (some b) true ItemFitType.converge_out_category_first
      zuc UpdMode.dflt 0
      ⟨hpmfInitUsers P nf (hpmfInitItems P nf (some b) hpmfBlank),
       none, none, none, none⟩ = .error .typeError := by
    unfold hpmfBody
    rw [hu, ebind_ok]
    try dsimp only
    exact hpmfItemSection_cw_convOut_crash P nf b zuc _ hs1E
  have hrec : hpmfUpdateRec P nf (some b) true
      ItemFitType.converge_out_category_first 2 zuc UpdMode.dflt
      (hpmfInitUsers P nf (hpmfInitItems P nf (some b) hpmfBlank)) =
      .error .typeError := by
    rw [show (2 : Nat) = 1 + 1 from rfl, hpmfUpdateRec]
    cases hm : P.max_iter with
    | zero => rw [hm] at hmax; exact absurd hmax (by omega)
    | succ m =>
        rw [hpmfUpdateLoop]
        rw [hbody, ebind_err]
  unfold hpmfFit hpmfUpdateRun
  try dsimp only
  rw [hrec, ebind_err]

/-- Claim C4 (amended): under the converge-*-first policies the clamp step
caches the untrained subset of gamma_b/rho_b and overwrites it with the
constant small_num = 1e-5, but only when zero_untrained_components is set
(default False): in PoissonMF it fires at iteration 0, leaving the caches
untouched when zero_untrained_components is off; in HPoissonMF it is coded
at iteration 1, so nothing is clamped or cached on the very first loop
entry; on the tolerance stop PoissonMF restores the cached subset into
gamma_b/rho_b and recurses into a second run on the opposite category; and
the HPoissonMF categorywise policies crash with TypeError before any item
update because _init_items has discarded the item variational state.
Conjuncts 1-7 settle converge_in_category_first (the out-category subset
is clamped, cached and restored); conjuncts 8-14 are the symmetric
converge_out_category_first facts (the in-category subset is clamped,
cached and restored, and the recursion targets in_category). -/
theorem claim_C4_clamp_schedule {α : Type} [LinearOrderedField α] :
    (∀ (A : PmfUpdArgs α) (c : PmfCtx α) (b g r : Mt α),
       A.item_fit_type = ItemFitType.converge_in_category_first →
       A.beta = some b → c.st.gamma_b = some g → c.st.rho_b = some r →
       ∀ c2, pmfClamp A c = .ok c2 →
         c2.st.gamma_b =
           some (setMaskC (fun ii kk => ! decide (b ii kk ≠ 0)) small_num g) ∧
         c2.st.rho_b =
           some (setMaskC (fun ii kk => ! decide (b ii kk ≠ 0)) small_num r) ∧
         c2.cache_out_gamma = some g ∧ c2.cache_out_rho = some r) ∧
    (∀ (P : PmfParams α) (nf : NumFuns α) (A : PmfUpdArgs α) (c : PmfCtx α)
       (b g r : Mt α),
       A.item_fit_type = ItemFitType.converge_in_category_first →
       A.beta = some b → A.categorywise = true → A.only_update = none →
       A.zero_untrained_components = true →
       c.st.gamma_b = some g → c.st.rho_b = some r →
       ∀ res, pmfItemSection P nf A UpdMode.dflt 0 c = .ok res →
         res.cache_out_gamma = some g ∧ res.cache_out_rho = some r) ∧
    (∀ (P : PmfParams α) (nf : NumFuns α) (A : PmfUpdArgs α) (c : PmfCtx α)
       (b : Mt α) (i : Nat),
       A.item_fit_type = ItemFitType.converge_in_category_first →
       A.beta = some b → A.categorywise = true → A.only_update = none →
       A.zero_untrained_components = false →
       ∀ res, pmfItemSection P nf A UpdMode.dflt i c = .ok res →
         res.cache_out_gamma = c.cache_out_gamma ∧
         res.cache_out_rho = c.cache_out_rho) ∧
    (∀ (P : HpmfParams α) (nf : NumFuns α) (b : Mt α) (zuc : Bool)
       (c : HpmfCtx α),
       ∀ res, hpmfItemSection P nf (some b) true
           ItemFitType.converge_in_category_first zuc UpdMode.dflt 0 c = .ok res →
         res.cache_out_gamma = c.cache_out_gamma ∧
         res.cache_out_rho = c.cache_out_rho) ∧
    (∀ (P : HpmfParams α) (nf : NumFuns α) (b g r : Mt α) (c : HpmfCtx α),
       c.st.gamma_b = some g → c.st.rho_b = some r →
       ∀ res, hpmfItemSection P nf (some b) true
           ItemFitType.converge_in_category_first true UpdMode.dflt 1 c = .ok res →
         res.cache_out_gamma = some g ∧ res.cache_out_rho = some r) ∧
    (∀ (A : PmfUpdArgs α) (c2 : PmfCtx α) (b g0 r0 gb rb : Mt α)
       (recur : PmfUpdArgs α → UpdMode → PmfState α → Except PyErr (PmfUpdRes α)),
       A.item_fit_type = ItemFitType.converge_in_category_first →
       A.zero_untrained_components = true → A.beta = some b →
       c2.cache_out_gamma = some g0 → c2.cache_out_rho = some r0 →
       c2.st.gamma_b = some gb → c2.st.rho_b = some rb →
       ∀ res, pmfStopActs A UpdMode.dflt recur c2 = .ok res →
         ∃ rr, recur
             ⟨some b, none, A.observed_user_preferences, A.categorywise,
              ItemFitType.converge_in_category_first, .dflt, false, .no_init, none⟩
             UpdMode.out_category
             { c2.st with
               gamma_b := some (setMaskM (fun ii kk => ! decide (b ii kk ≠ 0)) g0 gb),
               rho_b := some (setMaskM (fun ii kk => ! decide (b ii kk ≠ 0)) r0 rb) }
             = .ok rr ∧
           res.st = rr.st) ∧
    (∀ (P : HpmfParams α) (nf : NumFuns α) (b : Mt α) (zuc : Bool),
       0 < P.max_iter →
       hpmfFit P nf (some b) true ItemFitType.converge_in_category_first zuc =
         .error .typeError) ∧
    (∀ (A : PmfUpdArgs α) (c : PmfCtx α) (b g r : Mt α),
       A.item_fit_type = ItemFitType.converge_out_category_first →
       A.beta = some b → c.st.gamma_b = some g → c.st.rho_b = some r →
       ∀ c2, pmfClamp A c = .ok c2 →
         c2.st.gamma_b =
           some (setMaskC (fun ii kk => decide (b ii kk ≠ 0)) small_num g) ∧
         c2.st.rho_b =
           some (setMaskC (fun ii kk => decide (b ii kk ≠ 0)) small_num r) ∧
         c2.cache_in_gamma = some g ∧ c2.cache_in_rho = some r) ∧
    (∀ (P : PmfParams α) (nf : NumFuns α) (A : PmfUpdArgs α) (c : PmfCtx α)
       (b g r : Mt α),
       A.item_fit_type = ItemFitType.converge_out_category_first →
       A.beta = some b → A.categorywise = true → A.only_update = none →
       A.zero_untrained_components = true →
       c.st.gamma_b = some g → c.st.rho_b = some r →
       ∀ res, pmfItemSection P nf A UpdMode.dflt 0 c = .ok res →
         res.cache_in_gamma = some g ∧ res.cache_in_rho = some r) ∧
    (∀ (P : PmfParams α) (nf : NumFuns α) (A : PmfUpdArgs α) (c : PmfCtx α)
       (b : Mt α) (i : Nat),
       A.item_fit_type = ItemFitType.converge_out_category_first →
       A.beta = some b → A.categorywise = true → A.only_update = none →
       A.zero_untrained_components = false →
       ∀ res, pmfItemSection P nf A UpdMode.dflt i c = .ok res →
         res.cache_in_gamma = c.cache_in_gamma ∧
         res.cache_in_rho = c.cache_in_rho) ∧
    (∀ (P : HpmfParams α) (nf : NumFuns α) (b : Mt α) (zuc : Bool)
       (c : HpmfCtx α),
       ∀ res, hpmfItemSection P nf (some b) true
           ItemFitType.converge_out_category_first zuc UpdMode.dflt 0 c =
           .ok res →
         res.cache_in_gamma = c.cache_in_gamma ∧
         res.cache_in_rho = c.cache_in_rho) ∧
    (∀ (P : HpmfParams α) (nf : NumFuns α) (b g r : Mt α) (c : HpmfCtx α),
       c.st.gamma_b = some g → c.st.rho_b = some r →
       ∀ res, hpmfItemSection P nf (some b) true
           ItemFitType.converge_out_category_first true UpdMode.dflt 1 c =
           .ok res →
         res.cache_in_gamma = some g ∧ res.cache_in_rho = some r) ∧
    (∀ (A : PmfUpdArgs α) (c2 : PmfCtx α) (b g0 r0 gb rb : Mt α)
       (recur : PmfUpdArgs α → UpdMode → PmfState α → Except PyErr (PmfUpdRes α)),
       A.item_fit_type = ItemFitType.converge_out_category_first →
       A.zero_untrained_components = true → A.beta = some b →
       c2.cache_in_gamma = some g0 → c2.cache_in_rho = some r0 →
       c2.st.gamma_b = some gb → c2.st.rho_b = some rb →
       ∀ res, pmfStopActs A UpdMode.dflt recur c2 = .ok res →
         ∃ rr, recur
             ⟨some b, none, A.observed_user_preferences, A.categorywise,
              ItemFitType.converge_out_category_first, .dflt, false, .no_init,
              none⟩
             UpdMode.in_category
             { c2.st with
               gamma_b := some (setMaskM (fun ii kk => decide (b ii kk ≠ 0)) g0 gb),
               rho_b := some (setMaskM (fun ii kk => decide (b ii kk ≠ 0)) r0 rb) }
             = .ok rr ∧
           res.st = rr.st) ∧
    (∀ (P : HpmfParams α) (nf : NumFuns α) (b : Mt α) (zuc : Bool),
       0 < P.max_iter →
       hpmfFit P nf (some b) true ItemFitType.converge_out_category_first zuc =
         .error .typeError) := by
  refine ⟨?_, ?_, ?_, ?_, ?_, ?_, ?_, ?_, ?_, ?_, ?_, ?_, ?_, ?_⟩
  · intro A c b g r hift hbeta hg hr c2 h
    have hs := pmfClamp_convIn_spec A c b g r hift hbeta hg hr c2 h
    exact ⟨hs.1, hs.2.1, hs.2.2.1, hs.2.2.2.1⟩
  · intro P nf A c b g r hift hbeta hcw honly hzuc hg hr res h
    unfold pmfItemSection at h
    rw [hbeta, hcw, honly, hift, hzuc] at h
    rw [if_neg (by simp)] at h
    rw [if_pos (by decide)] at h
    rw [if_pos ⟨rfl, rfl, rfl⟩] at h
    rcases ebind_ok_inv h with ⟨c2, hc2, h⟩
    try dsimp only at h
    have hsp := pmfClamp_convIn_spec A c b g r hift hbeta hg hr c2 hc2
    rw [if_neg (by simp)] at h
    rw [if_pos ⟨rfl, rfl, rfl⟩] at h
    rw [if_pos rfl] at h
    rcases ebind_ok_inv h with ⟨st1, hst1, h⟩
    try dsimp only at h
    cases h
    exact ⟨hsp.2.2.1, hsp.2.2.2.1⟩
  · intro P nf A c b i hift hbeta hcw honly hzuc res h
    unfold pmfItemSection at h
    rw [hbeta, hcw, honly, hift, hzuc] at h
    rw [if_neg (by simp)] at h
    rw [if_pos (by decide)] at h
    rw [if_neg (by simp)] at h
    rw [epure_bind] at h
    try dsimp only at h
    rw [if_neg (by simp)] at h
    rw [if_pos ⟨rfl, rfl, rfl⟩] at h
    rw [if_pos rfl] at h
    rcases ebind_ok_inv h with ⟨st1, hst1, h⟩
    try dsimp only at h
    cases h
    exact ⟨rfl, rfl⟩
  · intro P nf b zuc c res h
    unfold hpmfItemSection at h
    rw [if_neg (by simp)] at h
    rw [if_pos (by decide)] at h
    rw [if_neg (by simp)] at h
    rw [epure_bind] at h
    try dsimp only at h
    rw [if_neg (by simp)] at h
    rw [if_pos ⟨rfl, rfl, rfl⟩] at h
    rw [if_pos rfl] at h
    rcases ebind_ok_inv h with ⟨st2, hst2, h⟩
    try dsimp only at h
    cases h
    exact ⟨rfl, rfl⟩
  · intro P nf b g r c hg hr res h
    unfold hpmfItemSection at h
    rw [if_neg (by simp)] at h
    rw [if_pos (by decide)] at h
    rw [if_pos ⟨rfl, rfl, rfl⟩] at h
    rcases ebind_ok_inv h with ⟨c2, hc2, h⟩
    try dsimp only at h
    have hsp := hpmfClamp_convIn_spec c b g r hg hr c2 hc2
    rw [if_neg (by simp)] at h
    rw [if_pos ⟨rfl, rfl, rfl⟩] at h
    rw [if_pos rfl] at h
    rcases ebind_ok_inv h with ⟨st2, hst2, h⟩
    try dsimp only at h
    cases h
    exact ⟨hsp.2.2.1, hsp.2.2.2.1⟩
  · intro A c2 b g0 r0 gb rb recur hift hzuc hbeta hcog hcor hgb hrb res h
    unfold pmfStopActs at h
    rw [hift, hzuc, hbeta, hcog, hcor, hgb, hrb] at h
    rw [if_pos ⟨rfl, by decide⟩] at h
    rw [if_pos rfl] at h
    simp only [if_true] at h
    simp only [readO, getO, ebind_ok] at h
    try dsimp only at h
    try rw [if_neg (by decide :
      ¬(ItemFitType.converge_in_category_first =
        ItemFitType.converge_out_category_first))] at h
    try simp only [epure_bind] at h
    rcases ebind_ok_inv h with ⟨rr, hrr, h⟩
    try dsimp only at h
    try simp only [epure_bind] at h
    cases h
    exact ⟨rr, hrr, rfl⟩
  · intro P nf b zuc hmax
    exact hpmfFit_cw_convIn_crash P nf b zuc hmax
  · intro A c b g r hift hbeta hg hr c2 h
    have hs := pmfClamp_convOut_spec A c b g r hift hbeta hg hr c2 h
    exact ⟨hs.1, hs.2.1, hs.2.2.1, hs.2.2.2.1⟩
  · intro P nf A c b g r hift hbeta hcw honly hzuc hg hr res h
    unfold pmfItemSection at h
    rw [hbeta, hcw, honly, hift, hzuc] at h
    rw [if_neg (by simp)] at h
    rw [if_pos (by decide)] at h
    rw [if_pos ⟨rfl, rfl, rfl⟩] at h
    rcases ebind_ok_inv h with ⟨c2, hc2, h⟩
    try dsimp only at h
    have hsp := pmfClamp_convOut_spec A c b g r hift hbeta hg hr c2 hc2
    rw [if_neg (by simp)] at h
    rw [if_neg (by simp)] at h
    rw [if_pos ⟨rfl, rfl, rfl⟩] at h
    rw [if_pos rfl] at h
    rcases ebind_ok_inv h with ⟨st1, hst1, h⟩
    try dsimp only at h
    cases h
    exact ⟨hsp.2.2.1, hsp.2.2.2.1⟩
  · intro P nf A c b i hift hbeta hcw honly hzuc res h
    unfold pmfItemSection at h
    rw [hbeta, hcw, honly, hift, hzuc] at h
    rw [if_neg (by simp)] at h
    rw [if_pos (by decide)] at h
    rw [if_neg (by simp)] at h
    rw [epure_bind] at h
    try dsimp only at h
    rw [if_neg (by simp)] at h
    rw [if_neg (by simp)] at h
    rw [if_pos ⟨rfl, rfl, rfl⟩] at h
    rw [if_pos rfl] at h
    rcases ebind_ok_inv h with ⟨st1, hst1, h⟩
    try dsimp only at h
    cases h
    exact ⟨rfl, rfl⟩
  · intro P nf b zuc c res h
    unfold hpmfItemSection at h
    rw [if_neg (by simp)] at h
    rw [if_pos (by decide)] at h
    rw [if_neg (by simp)] at h
    rw [epure_bind] at h
    try dsimp only at h
    rw [if_neg (by simp)] at h
    rw [if_neg (by simp)] at h
    rw [if_pos ⟨rfl, rfl, rfl⟩] at h
    rw [if_pos rfl] at h
    rcases ebind_ok_inv h with ⟨st2, hst2, h⟩
    try dsimp only at h
    cases h
    exact ⟨rfl, rfl⟩
  · intro P nf b g r c hg hr res h
    unfold hpmfItemSection at h
    rw [if_neg (by simp)] at h
    rw [if_pos (by decide)] at h
    rw [if_pos ⟨rfl, rfl, rfl⟩] at h
    rcases ebind_ok_inv h with ⟨c2, hc2, h⟩
    try dsimp only at h
    have hsp := hpmfClamp_convOut_spec c b g r hg hr c2 hc2
    rw [if_neg (by simp)] at h
    rw [if_neg (by simp)] at h
    rw [if_pos ⟨rfl, rfl, rfl⟩] at h
    rw [if_pos rfl] at h
    rcases ebind_ok_inv h with ⟨st2, hst2, h⟩
    try dsimp only at h
    cases h
    exact ⟨hsp.2.2.1, hsp.2.2.2.1⟩
  · intro A c2 b g0 r0 gb rb recur hift hzuc hbeta hcig hcir hgb hrb res h
    unfold pmfStopActs at h
    rw [hift, hzuc, hbeta] at h
    rw [if_pos ⟨rfl, by decide⟩] at h
    rw [if_neg (by decide :
      ¬(ItemFitType.converge_out_category_first =
        ItemFitType.converge_in_category_first))] at h
    try simp only [epure_bind] at h
    simp only [if_true] at h
    rw [hcig, hcir, hgb, hrb] at h
    simp only [readO, getO, ebind_ok] at h
    try dsimp only at h
    try simp only [epure_bind] at h
    rcases ebind_ok_inv h with ⟨rr, hrr, h⟩
    try dsimp only at h
    try simp only [epure_bind] at h
    cases h
    exact ⟨rr, hrr, rfl⟩
  · intro P nf b zuc hmax
    exact hpmfFit_cw_convOut_crash P nf b zuc hmax

/-- Counterexample to claim C4 as stated: under both converge-*-first
policies with the default zero_untrained_components=False, the very first
PoissonMF iteration caches nothing and leaves the non-priority entry of
gamma_b at its original value 2 rather than 1e-5; HPoissonMF caches
nothing at its very first iteration even with
zero_untrained_components=True; and the HPoissonMF categorywise policy
fits crash with TypeError outright. -/
theorem claim_C4_counterexample :
    ((pmfItemSection cqPmfP cqNF cqACI0 .dflt 0 cqCItems).map
        (fun cc => (cc.cache_out_gamma.isNone, cc.cache_out_rho.isNone,
          cc.st.gamma_b.map (fun g => g 1 0)))) = .ok (true, true, some 2) ∧
    ((hpmfItemSection cqHpmfP cqNF (some cqBetaZeroRow) true
        .converge_in_category_first true .dflt 0 cqHCItems).map
        (fun cc => (cc.cache_out_gamma.isNone, cc.cache_out_rho.isNone))) =
      .ok (true, true) ∧
    ((hpmfFit cqHpmfP cqNF (some cqBetaZeroRow) true
      .converge_in_category_first true).map (fun _ => true) =
      .error .typeError) ∧
    ((pmfItemSection cqPmfP cqNF cqACO0 .dflt 0 cqCItems).map
        (fun cc => (cc.cache_in_gamma.isNone, cc.cache_in_rho.isNone,
          cc.st.gamma_b.map (fun g => g 0 0)))) = .ok (true, true, some 2) ∧
    ((hpmfItemSection cqHpmfP cqNF (some cqBetaZeroRow) true
        .converge_out_category_first true .dflt 0 cqHCItems).map
        (fun cc => (cc.cache_in_gamma.isNone, cc.cache_in_rho.isNone))) =
      .ok (true, true) ∧
    ((hpmfFit cqHpmfP cqNF (some cqBetaZeroRow) true
      .converge_out_category_first true).map (fun _ => true) =
      .error .typeError) := by
  refine ⟨by decide, by decide, by decide, by decide, by decide, by decide⟩

theorem claim_C4_clamp_schedule_witness :
    ((pmfClamp cqACI cqCItems).map
      (fun cc => (cc.cache_out_gamma.map (fun g => g 1 0),
        cc.st.gamma_b.map (fun g => (g 0 0, g 1 0)))) =
      .ok (some 2, some (2, small_num))) ∧
    ((pmfItemSection cqPmfP cqNF cqACI .dflt 0 cqCItems).map
      (fun cc => (cc.cache_out_gamma.map (fun g => g 0 0),
        cc.cache_out_rho.map (fun g => g 0 0))) = .ok (some 2, some 3)) ∧
    ((pmfItemSection cqPmfP cqNF cqACI0 .dflt 1 cqCItems).map
      (fun cc => (cc.cache_out_gamma.isNone, cc.cache_out_rho.isNone)) =
      .ok (true, true)) ∧
    ((hpmfItemSection cqHpmfP cqNF (some cqBetaZeroRow) true
        .converge_in_category_first false .dflt 0 cqHCItems).map
      (fun cc => (cc.cache_out_gamma.isNone, cc.cache_out_rho.isNone)) =
      .ok (true, true)) ∧
    ((hpmfItemSection cqHpmfP cqNF (some cqBetaZeroRow) true
        .converge_in_category_first true .dflt 1 cqHCItems).map
      (fun cc => (cc.cache_out_gamma.map (fun g => g 0 0),
        cc.cache_out_rho.map (fun g => g 0 0))) = .ok (some 2, some 3)) ∧
    ((pmfStopActs cqACI .dflt cqRecurStub cqCStop).map
      (fun cc => cc.st.gamma_b.map (fun g => (g 0 0, g 1 0))) =
      .ok (some (2, 7))) ∧
    ((hpmfFit cqHpmfP cqNF (some cqBetaZeroRow) true
      .converge_in_category_first false).map (fun _ => true) =
      .error .typeError) ∧
    ((pmfClamp cqACO cqCItems).map
      (fun cc => (cc.cache_in_gamma.map (fun g => g 1 0),
        cc.st.gamma_b.map (fun g => (g 0 0, g 1 0)))) =
      .ok (some 2, some (small_num, 2))) ∧
    ((pmfItemSection cqPmfP cqNF cqACO .dflt 0 cqCItems).map
      (fun cc => (cc.cache_in_gamma.map (fun g => g 0 0),
        cc.cache_in_rho.map (fun g => g 0 0))) = .ok (some 2, some 3)) ∧
    ((pmfItemSection cqPmfP cqNF cqACO0 .dflt 1 cqCItems).map
      (fun cc => (cc.cache_in_gamma.isNone, cc.cache_in_rho.isNone)) =
      .ok (true, true)) ∧
    ((hpmfItemSection cqHpmfP cqNF (some cqBetaZeroRow) true
        .converge_out_category_first false .dflt 0 cqHCItems).map
      (fun cc => (cc.cache_in_gamma.isNone, cc.cache_in_rho.isNone)) =
      .ok (true, true)) ∧
    ((hpmfItemSection cqHpmfP cqNF (some cqBetaZeroRow) true
        .converge_out_category_first true .dflt 1 cqHCItems).map
      (fun cc => (cc.cache_in_gamma.map (fun g => g 0 0),
        cc.cache_in_rho.map (fun g => g 0 0))) = .ok (some 2, some 3)) ∧
    ((pmfStopActs cqACO .dflt cqRecurStub cqCStopIn).map
      (fun cc => cc.st.gamma_b.map (fun g => (g 0 0, g 1 0))) =
      .ok (some (7, 2))) ∧
    ((hpmfFit cqHpmfP cqNF (some cqBetaZeroRow) true
      .converge_out_category_first false).map (fun _ => true) =
      .error .typeError) := by
  refine ⟨?_, ?_, ?_, ?_, ?_, ?_, ?_, ?_, ?_, ?_, ?_, ?_, ?_, ?_⟩
  · cases hc2 : pmfClamp cqACI cqCItems with
    | error e =>
        have hok : (pmfClamp cqACI cqCItems).toOption.isSome = true := by decide
        rw [hc2] at hok
        exact Bool.noConfusion hok
    | ok c2 =>
        have h := (@claim_C4_clamp_schedule ℚ _).1 cqACI cqCItems cqBetaZeroRow
          (fun _ _ => 2) (fun _ _ => 3) rfl rfl rfl rfl c2 hc2
        simp only [Except.map]
        rw [h.1, h.2.2.1]
        decide
  · cases hsec : pmfItemSection cqPmfP cqNF cqACI .dflt 0 cqCItems with
    | error e =>
        have hok : (pmfItemSection cqPmfP cqNF cqACI .dflt 0
            cqCItems).toOption.isSome = true := by decide
        rw [hsec] at hok
        exact Bool.noConfusion hok
    | ok res =>
        have h := (@claim_C4_clamp_schedule ℚ _).2.1 cqPmfP cqNF cqACI cqCItems
          cqBetaZeroRow (fun _ _ => 2) (fun _ _ => 3) rfl rfl rfl rfl rfl rfl rfl
          res hsec
        simp only [Except.map]
        rw [h.1, h.2]
        decide
  · cases hsec : pmfItemSection cqPmfP cqNF cqACI0 .dflt 1 cqCItems with
    | error e =>
        have hok : (pmfItemSection cqPmfP cqNF cqACI0 .dflt 1
            cqCItems).toOption.isSome = true := by decide
        rw [hsec] at hok
        exact Bool.noConfusion hok
    | ok res =>
        have h := (@claim_C4_clamp_schedule ℚ _).2.2.1 cqPmfP cqNF cqACI0 cqCItems
          cqBetaZeroRow 1 rfl rfl rfl rfl rfl res hsec
        simp only [Except.map]
        rw [h.1, h.2]
        decide
  · cases hsec : hpmfItemSection cqHpmfP cqNF (some cqBetaZeroRow) true
        .converge_in_category_first false .dflt 0 cqHCItems with
    | error e =>
        have hok : (hpmfItemSection cqHpmfP cqNF (some cqBetaZeroRow) true
            .converge_in_category_first false .dflt 0 cqHCItems).toOption.isSome =
            true := by decide
        rw [hsec] at hok
        exact Bool.noConfusion hok
    | ok res =>
        have h := (@claim_C4_clamp_schedule ℚ _).2.2.2.1 cqHpmfP cqNF cqBetaZeroRow
          false cqHCItems res hsec
        simp only [Except.map]
        rw [h.1, h.2]
        decide
  · cases hsec : hpmfItemSection cqHpmfP cqNF (some cqBetaZeroRow) true
        .converge_in_category_first true .dflt 1 cqHCItems with
    | error e =>
        have hok : (hpmfItemSection cqHpmfP cqNF (some cqBetaZeroRow) true
            .converge_in_category_first true .dflt 1 cqHCItems).toOption.isSome =
            true := by decide
        rw [hsec] at hok
        exact Bool.noConfusion hok
    | ok res =>
        have h := (@claim_C4_clamp_schedule ℚ _).2.2.2.2.1 cqHpmfP cqNF cqBetaZeroRow
          (fun _ _ => 2) (fun _ _ => 3) cqHCItems rfl rfl res hsec
        simp only [Except.map]
        rw [h.1, h.2]
        decide
  · cases hstop : pmfStopActs cqACI .dflt cqRecurStub cqCStop with
    | error e =>
        have hok : (pmfStopActs cqACI .dflt cqRecurStub cqCStop).toOption.isSome =
            true := by decide
        rw [hstop] at hok
        exact Bool.noConfusion hok
    | ok res =>
        obtain ⟨rr, hrr, hres⟩ := (@claim_C4_clamp_schedule ℚ _).2.2.2.2.2.1 cqACI
          cqCStop cqBetaZeroRow (fun _ _ => 7) (fun _ _ => 8) (fun _ _ => 2)
          (fun _ _ => 3) cqRecurStub rfl rfl rfl rfl rfl rfl rfl res hstop
        simp only [cqRecurStub] at hrr
        cases hrr
        simp only [Except.map]
        rw [hres]
        decide
  · rw [(@claim_C4_clamp_schedule ℚ _).2.2.2.2.2.2.1 cqHpmfP cqNF cqBetaZeroRow false
      (by decide)]
    rfl
  · cases hc2 : pmfClamp cqACO cqCItems with
    | error e =>
        have hok : (pmfClamp cqACO cqCItems).toOption.isSome = true := by decide
        rw [hc2] at hok
        exact Bool.noConfusion hok
    | ok c2 =>
        have h := (@claim_C4_clamp_schedule ℚ _).2.2.2.2.2.2.2.1 cqACO cqCItems
          cqBetaZeroRow (fun _ _ => 2) (fun _ _ => 3) rfl rfl rfl rfl c2 hc2
        simp only [Except.map]
        rw [h.1, h.2.2.1]
        decide
  · cases hsec : pmfItemSection cqPmfP cqNF cqACO .dflt 0 cqCItems with
    | error e =>
        have hok : (pmfItemSection cqPmfP cqNF cqACO .dflt 0
            cqCItems).toOption.isSome = true := by decide
        rw [hsec] at hok
        exact Bool.noConfusion hok
    | ok res =>
        have h := (@claim_C4_clamp_schedule ℚ _).2.2.2.2.2.2.2.2.1 cqPmfP cqNF
          cqACO cqCItems cqBetaZeroRow (fun _ _ => 2) (fun _ _ => 3) rfl rfl rfl
          rfl rfl rfl rfl res hsec
        simp only [Except.map]
        rw [h.1, h.2]
        decide
  · cases hsec : pmfItemSection cqPmfP cqNF cqACO0 .dflt 1 cqCItems with
    | error e =>
        have hok : (pmfItemSection cqPmfP cqNF cqACO0 .dflt 1
            cqCItems).toOption.isSome = true := by decide
        rw [hsec] at hok
        exact Bool.noConfusion hok
    | ok res =>
        have h := (@claim_C4_clamp_schedule ℚ _).2.2.2.2.2.2.2.2.2.1 cqPmfP cqNF
          cqACO0 cqCItems cqBetaZeroRow 1 rfl rfl rfl rfl rfl res hsec
        simp only [Except.map]
        rw [h.1, h.2]
        decide
  · cases hsec : hpmfItemSection cqHpmfP cqNF (some cqBetaZeroRow) true
        .converge_out_category_first false .dflt 0 cqHCItems with
    | error e =>
        have hok : (hpmfItemSection cqHpmfP cqNF (some cqBetaZeroRow) true
            .converge_out_category_first false .dflt 0 cqHCItems).toOption.isSome =
            true := by decide
        rw [hsec] at hok
        exact Bool.noConfusion hok
    | ok res =>
        have h := (@claim_C4_clamp_schedule ℚ _).2.2.2.2.2.2.2.2.2.2.1 cqHpmfP
          cqNF cqBetaZeroRow false cqHCItems res hsec
        simp only [Except.map]
        rw [h.1, h.2]
        decide
  · cases hsec : hpmfItemSection cqHpmfP cqNF (some cqBetaZeroRow) true
        .converge_out_category_first true .dflt 1 cqHCItems with
    | error e =>
        have hok : (hpmfItemSection cqHpmfP cqNF (some cqBetaZeroRow) true
            .converge_out_category_first true .dflt 1 cqHCItems).toOption.isSome =
            true := by decide
        rw [hsec] at hok
        exact Bool.noConfusion hok
    | ok res =>
        have h := (@claim_C4_clamp_schedule ℚ _).2.2.2.2.2.2.2.2.2.2.2.1 cqHpmfP
          cqNF cqBetaZeroRow (fun _ _ => 2) (fun _ _ => 3) cqHCItems rfl rfl res
          hsec
        simp only [Except.map]
        rw [h.1, h.2]
        decide
  · cases hstop : pmfStopActs cqACO .dflt cqRecurStub cqCStopIn with
    | error e =>
        have hok : (pmfStopActs cqACO .dflt cqRecurStub cqCStopIn).toOption.isSome =
            true := by decide
        rw [hstop] at hok
        exact Bool.noConfusion hok
    | ok res =>
        obtain ⟨rr, hrr, hres⟩ := (@claim_C4_clamp_schedule ℚ _).2.2.2.2.2.2.2.2.2.2.2.2.1
          cqACO cqCStopIn cqBetaZeroRow (fun _ _ => 7) (fun _ _ => 8) (fun _ _ => 2)
          (fun _ _ => 3) cqRecurStub rfl rfl rfl rfl rfl rfl rfl res hstop
        simp only [cqRecurStub] at hrr
        cases hrr
        simp only [Except.map]
        rw [hres]
        decide
  · rw [(@claim_C4_clamp_schedule ℚ _).2.2.2.2.2.2.2.2.2.2.2.2.2 cqHpmfP cqNF
      cqBetaZeroRow false (by decide)]
    rfl

/-! ## Expectation consistency at every return (claim C7) -/

